import Mathlib

/-!
# img-voronoi: shallow embedding and verification

This file embeds the core algorithms of the `img-voronoi` repository in
Lean 4 and proves (or refutes) the specification claims about them.

Conventions of the embedding:
* JS numbers are modelled as `ℚ` (all arithmetic appearing in the claims is
  exact on the reachable values); machine 32-bit integer operations are
  modelled on `ℕ` with explicit `% 2^32`.
* Mutable arrays become functions `ℕ → _` updated pointwise; stateful loops
  become fueled recursions on explicit state records.
* The PRNG streams (`Math.random`, the seeded Mulberry32 stream) are passed
  explicitly as `ℕ → ℚ` read at an explicit counter.
-/

namespace ImgVoronoi

/-- JS `x | 0` (ToInt32 for small values): truncation toward zero. -/
def jsTrunc (q : ℚ) : ℤ := if 0 ≤ q then ⌊q⌋ else -⌊-q⌋

/-- Pointwise update of a function modelling a mutable array. -/
def updFn {α : Type} (f : ℕ → α) (i : ℕ) (v : α) : ℕ → α :=
  fun j => if j = i then v else f j

/-- The integers from `a` to `b` inclusive (a JS `for (i = a; i <= b; i++)` range). -/
def intRange (a b : ℤ) : List ℤ := (List.range (b + 1 - a).toNat).map (fun k => a + k)

/-! ## PRNG (`src/utils/random.ts`)

Mulberry32.  All bitwise operations coerce to 32 bits, so the mixing is
performed on the low 32 bits; `Math.imul` is multiplication mod `2^32`,
`>>>` is an unsigned shift, and the sum feeding the second xor is exact in
a JS double and reduced mod `2^32` by the subsequent coercion. -/

/-- `2^32`, the modulus of all JS 32-bit coercions. -/
def U32 : ℕ := 4294967296

/-- `Math.imul`: 32-bit multiplication (the result's bit pattern). -/
def imul32 (a b : ℕ) : ℕ := (a * b) % U32

/-- 32-bit xor (operands already reduced below `2^32`). -/
def xor32 (a b : ℕ) : ℕ := Nat.xor a b

/-- JS `>>>`: unsigned right shift on the 32-bit pattern. -/
def shr32 (a k : ℕ) : ℕ := a / 2 ^ k

/-- JS `|`: bitwise or on the 32-bit pattern. -/
def or32 (a b : ℕ) : ℕ := Nat.lor a b

/-- One output of Mulberry32 from the post-increment state `t0`
(`src/utils/random.ts`, `createSeededRandom`): two xor-shift-multiply-add
stages, then the top bits mapped to `[0, 1)`. -/
def mulberryMix (t0 : ℕ) : ℚ :=
  let t := t0 % U32
  let t1 := imul32 (xor32 t (shr32 t 15)) (or32 t 1)
  let t2 := xor32 t1 ((t1 + imul32 (xor32 t1 (shr32 t1 7)) (or32 t1 61)) % U32)
  ((xor32 t2 (shr32 t2 14) : ℕ) : ℚ) / (U32 : ℚ)

/-- The Weyl increment `0x6D2B79F5` added to the closure state on each call. -/
def WEYL : ℕ := 0x6D2B79F5

/-- The seeded stream of `createSeededRandom seed`: the closure variable
accumulates `seed + (k+1)·WEYL` (exact — a JS double is exact far beyond any
reachable call count) and the `k`‑th output mixes that state. -/
def mulberryStream (seed : ℕ) : ℕ → ℚ := fun k => mulberryMix (seed + (k + 1) * WEYL)

/-! ## Site sampler (`src/voronoi/ChoosePoints.ts`) -/

/-- The state of a `ChoosePoint` object: the per-pixel weight array and the
constructor arguments. -/
structure ChoosePointState where
  weights : ℕ → ℚ
  width : ℕ
  height : ℕ
  n : ℕ

/-- The `ChoosePoint` constructor: weight `red + 1` per pixel (the red
channel of the RGBA input), replaced by `257 - (red + 1)` when `inversePP`. -/
def mkChoosePoint (red : ℕ → ℕ) (width height n : ℕ) (inversePP : Bool) : ChoosePointState :=
  { weights := fun i => if inversePP then 257 - ((red i : ℚ) + 1) else (red i : ℚ) + 1
    width := width, height := height, n := n }

/-- `Math.max(Math.log2 w + 1, 1)` as it occurs in `ChoosePoint.scaleDown`.
There the argument is always `0`: the weight is read from `imgData[ind]`
*after* the line `imgData[ind] = 0`, and `Math.log2 0 = -Infinity`, so the
max is the constant `1`.  Modelled as that constant, which is exact at every
reachable argument. -/
def maxLog2Succ (_w : ℚ) : ℤ := 1

/-- `ChoosePoint.scaleDown`: zero the selected pixel, then halve (exact
division by 2 — `imgData` is a JS `number[]`) every in-bounds pixel of the
square of radius `maxLog2Succ weight` around it. -/
def scaleDown (st : ChoosePointState) (ind : ℕ) : ChoosePointState :=
  let w0 := updFn st.weights ind 0
  let weight := w0 ind
  let y : ℤ := (ind : ℤ) / (st.width : ℤ)
  let x : ℤ := (ind : ℤ) % (st.width : ℤ)
  let radius := maxLog2Succ weight
  let weights' :=
    (intRange (y - radius) (y + radius)).foldl (fun acc i =>
      (intRange (x - radius) (x + radius)).foldl (fun acc2 j =>
        if 0 ≤ i ∧ 0 ≤ j ∧ j < (st.width : ℤ) ∧ i < (st.height : ℤ) then
          let pos := (i * (st.width : ℤ) + j).toNat
          updFn acc2 pos (acc2 pos / 2)
        else acc2) acc) w0
  { st with weights := weights' }

/-- `ChoosePoint.pickPosition`, fueled.  `rand` is the random stream and `k`
the index of its next value; `choices` is the set of already accepted pixel
coordinates and `positions` the accepted sites in order.  Returns `none`
when the fuel runs out before `n` sites are accepted. -/
def pickPositionFuel : ℕ → ChoosePointState → (ℕ → ℚ) → ℕ → List (ℕ × ℕ) →
    List (ℚ × ℚ) → Option (List (ℚ × ℚ))
  | 0, _, _, _, _, _ => none
  | fuel + 1, cp, rand, k, choices, positions =>
    if positions.length < cp.n then
      let len := cp.width * cp.height
      let selected := (⌊rand k * (len : ℚ)⌋).toNat
      let selectedPosVal := cp.weights selected
      if rand (k + 1) * 256 ≤ selectedPosVal then
        let x := selected % cp.width
        let y := selected / cp.width
        if (x, y) ∈ choices then
          pickPositionFuel fuel cp rand (k + 2) choices positions
        else
          pickPositionFuel fuel (scaleDown cp selected) rand (k + 2) ((x, y) :: choices)
            (positions ++ [((x : ℚ), (y : ℚ))])
      else
        pickPositionFuel fuel cp rand (k + 2) choices positions
    else
      some positions

/-! ### The suppression step as the claim words it (C3)

For the counterexample a second definition follows the claim's wording
(spec §4.2): the radius is computed from the weight *before* acceptance and
the halving is the integer quotient. -/

/-- `max(1, ⌊log₂ w + 1⌋)` of the claim, on the weight before acceptance. -/
def claimSuppressRadius (wBefore : ℚ) : ℤ := max 1 (Int.log 2 wBefore + 1)

/-- The suppression step as the claim states it: radius from `w_before`,
integer halving of every in-bounds pixel of the `(2r+1)×(2r+1)` square. -/
def claimScaleDown (st : ChoosePointState) (ind : ℕ) : ChoosePointState :=
  let wBefore := st.weights ind
  let radius := claimSuppressRadius wBefore
  let w0 := updFn st.weights ind 0
  let y : ℤ := (ind : ℤ) / (st.width : ℤ)
  let x : ℤ := (ind : ℤ) % (st.width : ℤ)
  let weights' :=
    (intRange (y - radius) (y + radius)).foldl (fun acc i =>
      (intRange (x - radius) (x + radius)).foldl (fun acc2 j =>
        if 0 ≤ i ∧ 0 ≤ j ∧ j < (st.width : ℤ) ∧ i < (st.height : ℤ) then
          let pos := (i * (st.width : ℤ) + j).toNat
          updFn acc2 pos ((⌊acc2 pos / 2⌋ : ℤ) : ℚ)
        else acc2) acc) w0
  { st with weights := weights' }

/-! ## CPU Voronoi compute (`src/voronoi/VoronoiDrawer.ts`)

`floodFillL2` is the Euclidean flood fill with the bucket queue; `floodFillL1`
is the Manhattan BFS variant.  The bucket queue of the source is a map from
integer squared distance to a stack of `(pixel, site)` entries plus a
monotonically advancing cursor; `pop` scans from the cursor for the first
nonempty bucket and takes that stack's most recently pushed entry. -/

/-- An RGB image: per-pixel red, green and blue channel values (the alpha
channel of the RGBA buffer is never read). -/
structure Image where
  r : ℕ → ℕ
  g : ℕ → ℕ
  b : ℕ → ℕ

/-- `a < b` where `b = none` models `Infinity` (the initial `bestDist`). -/
def ltInf (a : ℚ) (b : Option ℚ) : Bool :=
  match b with
  | none => true
  | some v => decide (a < v)

/-- The flood-fill working state: per-pixel cell assignment and best
distance, the bucket queue, and the per-site colour accumulators. -/
structure FloodState where
  cellOf : ℕ → Option ℕ
  bestDist : ℕ → Option ℚ
  buckets : ℕ → List (ℕ × ℕ)
  cursor : ℕ
  rSum : ℕ → ℚ
  gSum : ℕ → ℚ
  bSum : ℕ → ℚ
  counts : ℕ → ℕ

/-- The state before any site is pushed. -/
def initState : FloodState :=
  { cellOf := fun _ => none, bestDist := fun _ => none, buckets := fun _ => [],
    cursor := 0, rSum := fun _ => 0, gSum := fun _ => 0, bSum := fun _ => 0,
    counts := fun _ => 0 }

/-- `BucketQueue.push`: the (always nonnegative) priority's floor, clamped at
`maxBucket`, selects the bucket; the entry goes on top of that stack. -/
def bucketPush (maxB : ℕ) (st : FloodState) (priority : ℚ) (pixel site : ℕ) : FloodState :=
  let bkt := min (⌊priority⌋.toNat) maxB
  { st with buckets := updFn st.buckets bkt ((pixel, site) :: st.buckets bkt) }

/-- The scan of `BucketQueue.pop`, on the `r` buckets starting at `c`:
the first nonempty one. -/
def findBucketAux (bk : ℕ → List (ℕ × ℕ)) : ℕ → ℕ → Option ℕ
  | _, 0 => none
  | c, r + 1 => if bk c ≠ [] then some c else findBucketAux bk (c + 1) r

/-- The scan of `BucketQueue.pop`: the first nonempty bucket in `[c, maxB]`. -/
def findBucket (bk : ℕ → List (ℕ × ℕ)) (maxB c : ℕ) : Option ℕ :=
  findBucketAux bk c (maxB + 1 - c)

/-- `BucketQueue.pop`: take the top entry of the first nonempty bucket at or
after the cursor, advancing the cursor to that bucket; `none` when every
bucket from the cursor on is empty (the loop's exit). -/
def bucketPop (maxB : ℕ) (st : FloodState) : Option ((ℕ × ℕ) × FloodState) :=
  match findBucket st.buckets maxB st.cursor with
  | none => none
  | some bkt =>
    match st.buckets bkt with
    | [] => none
    | e :: rest => some (e, { st with cursor := bkt, buckets := updFn st.buckets bkt rest })

/-- The neighbour relaxation of `floodFillL2`: push an unassigned neighbour
whose true squared distance to the source site beats its best distance. -/
def relaxNeighbor (maxB : ℕ) (st : FloodState) (nidx : ℕ) (distSq : ℚ) (siteIdx : ℕ) :
    FloodState :=
  if (st.cellOf nidx).isNone then
    if ltInf distSq (st.bestDist nidx) then
      bucketPush maxB { st with bestDist := updFn st.bestDist nidx (some distSq) }
        distSq nidx siteIdx
    else st
  else st

/-- The site-seeding loop of `floodFillL2`: each site whose home pixel
(coordinates truncated toward zero, `sx | 0`) is in bounds is pushed with the
squared distance from that pixel's centre to the site. -/
def floodInit (width height maxB : ℕ) (sites : List (ℚ × ℚ)) : FloodState :=
  sites.enum.foldl (fun st is =>
    let i := is.1
    let sx := is.2.1
    let sy := is.2.2
    let x := jsTrunc sx
    let y := jsTrunc sy
    if 0 ≤ x ∧ x < (width : ℤ) ∧ 0 ≤ y ∧ y < (height : ℤ) then
      let idx := (y * (width : ℤ) + x).toNat
      let dx := ((x : ℚ)) + 1/2 - sx
      let dy := ((y : ℚ)) + 1/2 - sy
      let distSq := dx * dx + dy * dy
      if ltInf distSq (st.bestDist idx) then
        bucketPush maxB { st with bestDist := updFn st.bestDist idx (some distSq) }
          distSq idx i
      else st
    else st) initState

/-- The assignment part of one flood iteration: give the popped pixel to the
entry's site and accumulate that pixel's colour into the site's sums. -/
def assignState (img : Image) (st1 : FloodState) (idx siteIdx : ℕ) : FloodState :=
  { st1 with
    cellOf := updFn st1.cellOf idx (some siteIdx)
    rSum := updFn st1.rSum siteIdx (st1.rSum siteIdx + (img.r idx : ℚ))
    gSum := updFn st1.gSum siteIdx (st1.gSum siteIdx + (img.g idx : ℚ))
    bSum := updFn st1.bSum siteIdx (st1.bSum siteIdx + (img.b idx : ℚ))
    counts := updFn st1.counts siteIdx (st1.counts siteIdx + 1) }

/-- The relaxation part of one flood iteration: relax the four 4-connected
neighbours of the just-assigned pixel with their true squared Euclidean
distance to the entry's site, guarded by the source's bounds checks. -/
def relaxChain (width height maxB : ℕ) (sites : List (ℚ × ℚ)) (st2 : FloodState)
    (idx siteIdx : ℕ) : FloodState :=
  let x := idx % width
  let y := idx / width
  let s := sites.getD siteIdx (0, 0)
  let pcx := ((x : ℚ)) + 1/2 - s.1
  let pcy := ((y : ℚ)) + 1/2 - s.2
  let st3 := if x + 1 < width then
      relaxNeighbor maxB st2 (idx + 1) ((pcx + 1) * (pcx + 1) + pcy * pcy) siteIdx
    else st2
  let st4 := if 0 < x then
      relaxNeighbor maxB st3 (idx - 1) ((pcx - 1) * (pcx - 1) + pcy * pcy) siteIdx
    else st3
  let st5 := if y + 1 < height then
      relaxNeighbor maxB st4 (idx + width) (pcx * pcx + (pcy + 1) * (pcy + 1)) siteIdx
    else st4
  let st6 := if 0 < y then
      relaxNeighbor maxB st5 (idx - width) (pcx * pcx + (pcy - 1) * (pcy - 1)) siteIdx
    else st5
  st6

/-- One iteration of the flood loop: pop the next entry; skip it if its pixel
is assigned, otherwise assign the pixel to the entry's site, accumulate that
pixel's colour, and relax the four 4-connected neighbours with their true
squared Euclidean distance to the site.  `none` when the queue is exhausted.
`sites.getD` is never read at its default: every queued site index comes from
`floodInit`, hence is `< sites.length`. -/
def floodStep (width height maxB : ℕ) (sites : List (ℚ × ℚ)) (img : Image)
    (st : FloodState) : Option FloodState :=
  match bucketPop maxB st with
  | none => none
  | some ((idx, siteIdx), st1) =>
    if (st1.cellOf idx).isSome then some st1
    else some (relaxChain width height maxB sites (assignState img st1 idx siteIdx)
      idx siteIdx)

/-- The flood loop, fueled: run `floodStep` until the queue pops empty. -/
def floodLoop (width height maxB : ℕ) (sites : List (ℚ × ℚ)) (img : Image) :
    ℕ → FloodState → FloodState
  | 0, st => st
  | fuel + 1, st =>
    match floodStep width height maxB sites img st with
    | none => st
    | some st' => floodLoop width height maxB sites img fuel st'

/-- The colour pass of `floodFillL2`: the truncated mean of the accumulated
channels for a nonempty cell, otherwise the image pixel at the site's
truncated coordinates when in bounds, otherwise mid-gray. -/
def cellColorsOf (width height : ℕ) (sites : List (ℚ × ℚ)) (img : Image)
    (st : FloodState) : List (ℕ × ℕ × ℕ) :=
  (List.range sites.length).map (fun i =>
    let count := st.counts i
    if 0 < count then
      ((⌊st.rSum i / (count : ℚ)⌋).toNat, (⌊st.gSum i / (count : ℚ)⌋).toNat,
        (⌊st.bSum i / (count : ℚ)⌋).toNat)
    else
      let s := sites.getD i (0, 0)
      let x := jsTrunc s.1
      let y := jsTrunc s.2
      if 0 ≤ x ∧ x < (width : ℤ) ∧ 0 ≤ y ∧ y < (height : ℤ) then
        let px := (y * (width : ℤ) + x).toNat
        (img.r px, img.g px, img.b px)
      else (128, 128, 128))

/-- The result of a flood fill: per-pixel owner, per-cell colour, per-cell
pixel count. -/
structure FloodResult where
  cellOf : ℕ → Option ℕ
  cellColors : List (ℕ × ℕ × ℕ)
  counts : ℕ → ℕ

/-- `VoronoiDrawer.floodFillL2`.  The source loops `while (queue.pop(...))`;
the fuel `sites.length + 4 * (width * height) + 1` provably exceeds the
number of iterations (each iteration pops one entry, and at most
`sites.length + 4 * width * height` entries are ever pushed), so the fueled
loop reaches the same fixpoint. -/
def floodFillL2 (width height : ℕ) (img : Image) (sites : List (ℚ × ℚ)) : FloodResult :=
  let maxB := width * width + height * height
  let st0 := floodInit width height maxB sites
  let fuel := sites.length + 4 * (width * height) + 1
  let st := floodLoop width height maxB sites img fuel st0
  { cellOf := st.cellOf, cellColors := cellColorsOf width height sites img st
    counts := st.counts }

/-! ### Vocabulary for the flood-fill theorems -/

/-- Squared Euclidean distance from the centre of pixel `p` to the site `s`
(the quantity the claims' `argmin` ranges over). -/
def pixDistSq (width : ℕ) (s : ℚ × ℚ) (p : ℕ) : ℚ :=
  (((p % width : ℕ) : ℚ) + 1/2 - s.1) * (((p % width : ℕ) : ℚ) + 1/2 - s.1) +
    (((p / width : ℕ) : ℚ) + 1/2 - s.2) * (((p / width : ℕ) : ℚ) + 1/2 - s.2)

/-- The bucket that the distance from pixel `p` to site `s` selects. -/
def bktOf (width height : ℕ) (s : ℚ × ℚ) (p : ℕ) : ℕ :=
  min (⌊pixDistSq width s p⌋.toNat) (width * width + height * height)

/-- The in-bounds 4-neighbour relation along which `floodFillL2` expands,
with exactly its bounds checks. -/
def Adj (width height : ℕ) (p q : ℕ) : Prop :=
  (q = p + 1 ∧ p % width + 1 < width) ∨
  (q + 1 = p ∧ 0 < p % width) ∨
  (q = p + width ∧ p / width + 1 < height) ∨
  (q + width = p ∧ 0 < p / width)

/-- The home pixel index of site `s` (coordinates truncated toward zero). -/
def homeIdx (width : ℕ) (s : ℚ × ℚ) : ℕ :=
  (jsTrunc s.2 * (width : ℤ) + jsTrunc s.1).toNat

/-- Core working invariant of the flood loop on the single-site list `[s]`:
every assignment is to site 0 at an in-bounds pixel, assigned pixels are
touched, best distances are the exact pixel-to-site distances, every queue
entry sits in its pixel's bucket with site index 0, every touched unassigned
pixel still has its entry at or after the cursor, and the home pixel is
touched. -/
structure CoreInv (width height : ℕ) (s : ℚ × ℚ) (st : FloodState) : Prop where
  cell_site : ∀ p i, st.cellOf p = some i → i = 0 ∧ p < width * height
  cell_touched : ∀ p, st.cellOf p ≠ none → st.bestDist p ≠ none
  best_exact : ∀ p, st.bestDist p ≠ none →
    st.bestDist p = some (pixDistSq width s p) ∧ p < width * height
  entries : ∀ bkt e, e ∈ st.buckets bkt →
    e.2 = 0 ∧ e.1 < width * height ∧ bkt = bktOf width height s e.1 ∧
      st.bestDist e.1 ≠ none
  alive : ∀ p, p < width * height → st.bestDist p ≠ none → st.cellOf p = none →
    (p, 0) ∈ st.buckets (bktOf width height s p) ∧ st.cursor ≤ bktOf width height s p
  home_touched : st.bestDist (homeIdx width s) ≠ none

/-- The full invariant: the core invariant plus the frontier property that
every 4-neighbour of an assigned pixel has been touched. -/
structure SingleInv (width height : ℕ) (s : ℚ × ℚ) (st : FloodState)
    extends CoreInv width height s st : Prop where
  assigned_nbrs : ∀ p q, st.cellOf p ≠ none → Adj width height p q →
    st.bestDist q ≠ none

/-- L1 distance from pixel `p` to the home pixel of site `s` — the measure
of the walk toward the home pixel. -/
def towardMeasure (width : ℕ) (s : ℚ × ℚ) (p : ℕ) : ℕ :=
  Nat.dist (p % width) (jsTrunc s.1).toNat + Nat.dist (p / width) (jsTrunc s.2).toNat

/-- Total number of queue entries in buckets `0..maxB`. -/
def qsize (maxB : ℕ) (st : FloodState) : ℕ :=
  ∑ bkt ∈ Finset.range (maxB + 1), (st.buckets bkt).length

/-- Number of unassigned pixels. -/
def unassignedCount (width height : ℕ) (st : FloodState) : ℕ :=
  ((Finset.range (width * height)).filter (fun p => st.cellOf p = none)).card

/-- Strictly decreasing measure of the flood loop. -/
def floodMeasure (width height maxB : ℕ) (st : FloodState) : ℕ :=
  qsize maxB st + 4 * unassignedCount width height st

/-- Accounting invariant for the colour pass, for an arbitrary site list:
every queue entry's pixel is in bounds, and each site's count and channel
sums agree with the set of pixels currently assigned to it. -/
structure AccInv (w h : ℕ) (img : Image) (st : FloodState) : Prop where
  entry_bound : ∀ bkt e, e ∈ st.buckets bkt → e.1 < w * h
  counts_eq : ∀ i, st.counts i =
    ((Finset.range (w * h)).filter (fun p => st.cellOf p = some i)).card
  rsum_eq : ∀ i, st.rSum i =
    ∑ p ∈ (Finset.range (w * h)).filter (fun p => st.cellOf p = some i), (img.r p : ℚ)
  gsum_eq : ∀ i, st.gSum i =
    ∑ p ∈ (Finset.range (w * h)).filter (fun p => st.cellOf p = some i), (img.g p : ℚ)
  bsum_eq : ∀ i, st.bSum i =
    ∑ p ∈ (Finset.range (w * h)).filter (fun p => st.cellOf p = some i), (img.b p : ℚ)

/-- State of the seeding fold: nothing assigned, all accumulators zero, and
every queue entry in bounds. -/
def InitP (w h : ℕ) (st : FloodState) : Prop :=
  st.cellOf = (fun _ => none) ∧ st.counts = (fun _ => 0) ∧ st.rSum = (fun _ => 0) ∧
  st.gSum = (fun _ => 0) ∧ st.bSum = (fun _ => 0) ∧
  ∀ bkt e, e ∈ st.buckets bkt → e.1 < w * h

/-- One physics step of `animationStep` for a single site: move by
`velocity · movement`, then bounce off each edge — the velocity component is
negated and the coordinate clamped to `[0, size − 1]` whenever the moved
coordinate leaves `[0, size)`.  `movement = speed · Δt`. -/
def moveSite (width height : ℕ) (pos vel : ℚ × ℚ) (movement : ℚ) :
    (ℚ × ℚ) × (ℚ × ℚ) :=
  let x := pos.1 + vel.1 * movement
  let y := pos.2 + vel.2 * movement
  let vx := if x < 0 ∨ (width : ℚ) ≤ x then -vel.1 else vel.1
  let x2 := if x < 0 ∨ (width : ℚ) ≤ x then max 0 (min ((width : ℚ) - 1) x) else x
  let vy := if y < 0 ∨ (height : ℚ) ≤ y then -vel.2 else vel.2
  let y2 := if y < 0 ∨ (height : ℚ) ≤ y then max 0 (min ((height : ℚ) - 1) y) else y
  ((x2, y2), (vx, vy))

/-- Squared distance between two sites (`mergeSites`' redundancy measure). -/
def siteDistSq (a b : ℚ × ℚ) : ℚ :=
  (a.1 - b.1) * (a.1 - b.1) + (a.2 - b.2) * (a.2 - b.2)

/-- Distance from site `i` to its closest neighbour in `l` (`none` is the
initial `Infinity`). -/
def closestD (l : List (ℚ × ℚ)) (i : ℕ) : Option ℚ :=
  (List.range l.length).foldl (fun acc j =>
    if i = j then acc
    else
      if ltInf (siteDistSq (l.getD i (0, 0)) (l.getD j (0, 0))) acc then
        some (siteDistSq (l.getD i (0, 0)) (l.getD j (0, 0)))
      else acc) none

/-- One candidate update of `mergeSites`' argmin scan: keep the pair
`(minDist, removeIdx)` unless site `i`'s closest-neighbour distance beats
`minDist`. -/
def pickStep (l : List (ℚ × ℚ)) (acc : Option ℚ × ℕ) (i : ℕ) : Option ℚ × ℕ :=
  match closestD l i with
  | none => acc
  | some cd => if ltInf cd acc.1 then (some cd, i) else acc

/-- The index `mergeSites` removes: the sampled site with the closest
neighbour, starting from `minDist = Infinity`, `removeIdx = 0`. -/
def pickRemove (l : List (ℚ × ℚ)) (idxs : List ℕ) : ℕ :=
  (idxs.foldl (pickStep l) ((none : Option ℚ), 0)).2

/-- The removal loop of `mergeSites`: up to `count` times, while more than
one site remains, remove the most redundant site — scanning all indices when
at most 200 sites remain and 200 random indices otherwise. -/
def removeLoop (rand : ℕ → ℚ) : ℕ → ℕ → List (ℚ × ℚ) → List (ℚ × ℚ)
  | 0, _, rem => rem
  | c + 1, ctr, rem =>
    if 1 < rem.length then
      removeLoop rand c (ctr + (if rem.length ≤ 200 then 0 else 200))
        (rem.eraseIdx (pickRemove rem
          (if rem.length ≤ 200 then List.range rem.length
           else (List.range 200).map
             (fun k => (⌊rand (ctr + k) * (rem.length : ℚ)⌋).toNat))))
    else rem

/-- `mergeSites`: return the input unchanged when the target is not below
the current count, otherwise remove `length − target` sites (stopping at one
site). -/
def mergeSites (rand : ℕ → ℚ) (sites : List (ℚ × ℚ)) (targetCount : ℤ) : List (ℚ × ℚ) :=
  if (sites.length : ℤ) ≤ targetCount then sites
  else removeLoop rand (((sites.length : ℤ) - targetCount).toNat) 0 sites

/-- State of the gradual-growth controller: fractional accumulator, sites,
velocities, the indices already split this frame, and the random counter. -/
structure GrowState where
  acc : ℚ
  sites : List (ℚ × ℚ)
  velocities : List (ℚ × ℚ)
  splitSet : List ℕ
  ctr : ℕ

/-- The split-source scan: the original site with the largest cell area not
yet split this frame, starting from `maxArea = −1`, `srcIdx = 0`. -/
def argmaxArea (cellAreas : List ℚ) (splitSet : List ℕ) : ℚ × ℕ :=
  (List.range cellAreas.length).foldl (fun acc i =>
    if i ∉ splitSet ∧ acc.1 < cellAreas.getD i 0 then (cellAreas.getD i 0, i) else acc)
    (-1, 0)

/-- One split of `animationStep`'s growth block: choose the source site (the
area argmax, falling back to a random index when areas are missing or all
original sites were already split), append the child at the source's exact
position, give the child the unit velocity at a uniform random angle and the
parent its negation. -/
def splitBody (rand : ℕ → ℚ) (cosF sinF : ℚ → ℚ) (piQ : ℚ) (cellAreas : List ℚ)
    (st : GrowState) : GrowState :=
  let n := st.sites.length
  let sel : ℕ × List ℕ × ℕ :=
    if cellAreas ≠ [] then
      let am := argmaxArea cellAreas st.splitSet
      if am.1 < 0 then
        ((⌊rand st.ctr * (n : ℚ)⌋).toNat,
          (⌊rand st.ctr * (n : ℚ)⌋).toNat :: st.splitSet, st.ctr + 1)
      else (am.2, am.2 :: st.splitSet, st.ctr)
    else ((⌊rand st.ctr * (n : ℚ)⌋).toNat, st.splitSet, st.ctr + 1)
  let src := st.sites.getD sel.1 (0, 0)
  let ang := rand sel.2.2 * piQ * 2
  let ux := cosF ang
  let uy := sinF ang
  { acc := st.acc
    sites := st.sites ++ [src]
    velocities := (st.velocities ++ [(ux, uy)]).set sel.1 (-ux, -uy)
    splitSet := sel.2.1
    ctr := sel.2.2 + 1 }

/-- The merge scan's candidate indices: every index when at most 100 sites
remain, otherwise 100 uniform random indices. -/
def mergeIdxs (rand : ℕ → ℚ) (ctr n : ℕ) : List ℕ × ℕ :=
  if n ≤ 100 then (List.range n, ctr)
  else ((List.range 100).map (fun k => (⌊rand (ctr + k) * (n : ℚ)⌋).toNat), ctr + 100)

/-- One merge of `animationStep`'s growth block: remove the scanned site with
the closest neighbour, from both the site and the velocity lists. -/
def mergeBody (rand : ℕ → ℚ) (st : GrowState) : GrowState :=
  let im := mergeIdxs rand st.ctr st.sites.length
  let ri := pickRemove st.sites im.1
  { acc := st.acc
    sites := st.sites.eraseIdx ri
    velocities := st.velocities.eraseIdx ri
    splitSet := st.splitSet
    ctr := im.2 }

/-- The drain loop `while (fractional ≥ 1)`: subtract one and split when
growing and still below target, merge when shrinking and still above target,
otherwise do nothing else.  The fuel `⌊acc⌋.toNat` supplied by `growthStep`
equals the number of iterations the source's `while` performs. -/
def drainLoop (rand : ℕ → ℚ) (cosF sinF : ℚ → ℚ) (piQ : ℚ) (cellAreas : List ℚ)
    (target : ℕ) (growing : Bool) : ℕ → GrowState → GrowState
  | 0, st => st
  | fuel + 1, st =>
    if 1 ≤ st.acc then
      let st1 : GrowState := { st with acc := st.acc - 1 }
      if growing = true ∧ st1.sites.length < target then
        drainLoop rand cosF sinF piQ cellAreas target growing fuel
          (splitBody rand cosF sinF piQ cellAreas st1)
      else if growing = false ∧ target < st1.sites.length then
        drainLoop rand cosF sinF piQ cellAreas target growing fuel (mergeBody rand st1)
      else drainLoop rand cosF sinF piQ cellAreas target growing fuel st1
    else st

/-- The gradual-growth block of `animationStep`: when the doubling time is
positive and the target differs from the current count, add
`N · (ln 2 / doublingTime) · Δt` to the fractional accumulator, drain it in
whole units, and clear it when the target is reached.  `ln 2`, `π`, cosine
and sine are transcendental; they enter as parameters of the embedding. -/
def growthStep (rand : ℕ → ℚ) (cosF sinF : ℚ → ℚ) (piQ ln2 : ℚ) (target : ℕ)
    (doublingTime deltaTime acc0 : ℚ) (sites velocities : List (ℚ × ℚ))
    (cellAreas : List ℚ) (ctr : ℕ) : GrowState :=
  if 0 < doublingTime ∧ target ≠ sites.length then
    let current := sites.length
    let growing : Bool := decide (current < target)
    let rate := ln2 / doublingTime
    let acc1 := acc0 + (current : ℚ) * rate * deltaTime
    let st := drainLoop rand cosF sinF piQ cellAreas target growing
      ((⌊acc1⌋).toNat)
      { acc := acc1, sites := sites, velocities := velocities, splitSet := [],
        ctr := ctr }
    if st.sites.length = target then { st with acc := 0 } else st
  else
    { acc := acc0, sites := sites, velocities := velocities, splitSet := [], ctr := ctr }

/-- The animation-history engine state: the ring of stored site snapshots,
the cursor into it, the live sites, and the most recently rendered
`cell_of` / `cell_color`. -/
structure EngineState where
  history : List (List (ℚ × ℚ))
  cursor : ℕ
  animatedSites : List (ℚ × ℚ)
  cellOf : ℕ → Option ℕ
  cellColors : List (ℕ × ℕ × ℕ)

/-- `renderFrame` (CPU pixel path, Euclidean metric): recompute the Voronoi
data for the given snapshot without advancing physics. -/
def renderFrame (w h : ℕ) (img : Image) (sites : List (ℚ × ℚ)) (st : EngineState) :
    EngineState :=
  { st with
    animatedSites := sites
    cellOf := (floodFillL2 w h img sites).cellOf
    cellColors := (floodFillL2 w h img sites).cellColors }

/-- `stepBackward`: with a nonempty history and a positive cursor, decrement
the cursor and re-render the stored snapshot; otherwise do nothing. -/
def stepBackward (w h : ℕ) (img : Image) (st : EngineState) : EngineState :=
  if st.history.length = 0 ∨ st.cursor = 0 then st
  else
    renderFrame w h img (st.history.getD (st.cursor - 1) [])
      { st with cursor := st.cursor - 1 }

/-- `stepForward`: initialise when the history is empty; behind the head,
increment the cursor and re-render the stored snapshot without physics; at
the head, advance physics. -/
def stepForward (w h : ℕ) (img : Image) (init animStep : EngineState → EngineState)
    (st : EngineState) : EngineState :=
  let st0 := if st.history.length = 0 then init st else st
  if st0.cursor + 1 < st0.history.length then
    renderFrame w h img (st0.history.getD (st0.cursor + 1) [])
      { st0 with cursor := st0.cursor + 1 }
  else animStep st0

/-! ## Theorems -/

/-- `findBucketAux` finds a nonempty bucket no earlier than the start of
its scan, finds only nonempty buckets, and skips only empty ones. -/
theorem findBucketAux_some (bk : ℕ → List (ℕ × ℕ)) :
    ∀ r c bkt, findBucketAux bk c r = some bkt →
      c ≤ bkt ∧ bkt < c + r ∧ bk bkt ≠ [] ∧ ∀ x, c ≤ x → x < bkt → bk x = [] := by
  intro r
  induction r with
  | zero => intro c bkt hc; simp [findBucketAux] at hc
  | succ r ih =>
    intro c bkt hc
    rw [findBucketAux] at hc
    by_cases h0 : bk c ≠ []
    · rw [if_pos h0] at hc
      cases hc
      exact ⟨le_refl _, by omega, h0, fun x hx1 hx2 => absurd (lt_of_le_of_lt hx1 hx2)
        (lt_irrefl _)⟩
    · rw [if_neg h0] at hc
      obtain ⟨h1, h2, h3, h4⟩ := ih (c + 1) bkt hc
      push_neg at h0
      refine ⟨by omega, by omega, h3, ?_⟩
      intro x hx1 hx2
      rcases Nat.eq_or_lt_of_le hx1 with rfl | hx1
      · exact h0
      · exact h4 x hx1 hx2

/-- `findBucketAux` fails only when every scanned bucket is empty. -/
theorem findBucketAux_none (bk : ℕ → List (ℕ × ℕ)) :
    ∀ r c, findBucketAux bk c r = none → ∀ x, c ≤ x → x < c + r → bk x = [] := by
  intro r
  induction r with
  | zero => intro c _ x hx1 hx2; omega
  | succ r ih =>
    intro c hc x hx1 hx2
    rw [findBucketAux] at hc
    by_cases h0 : bk c ≠ []
    · rw [if_pos h0] at hc; cases hc
    · rw [if_neg h0] at hc
      push_neg at h0
      rcases Nat.eq_or_lt_of_le hx1 with rfl | hx1
      · exact h0
      · exact ih (c + 1) hc x hx1 (by omega)

/-- Characterization of a successful `bucketPop`. -/
theorem bucketPop_eq_some (maxB : ℕ) (st : FloodState) (e : ℕ × ℕ) (st1 : FloodState)
    (h : bucketPop maxB st = some (e, st1)) :
    ∃ bkt rest, st.buckets bkt = e :: rest ∧
      st.cursor ≤ bkt ∧ bkt ≤ maxB ∧
      (∀ x, st.cursor ≤ x → x < bkt → st.buckets x = []) ∧
      st1 = { st with cursor := bkt, buckets := updFn st.buckets bkt rest } := by
  unfold bucketPop at h
  rcases hfb : findBucket st.buckets maxB st.cursor with _ | bkt
  · rw [hfb] at h; cases h
  · rw [hfb] at h
    dsimp only at h
    obtain ⟨h1, h2, h3, h4⟩ := findBucketAux_some st.buckets _ _ _ hfb
    rcases hbk : st.buckets bkt with _ | ⟨e', rest⟩
    · exact absurd hbk h3
    · rw [hbk] at h
      dsimp only at h
      cases h
      exact ⟨bkt, rest, hbk, h1, by omega, h4, rfl⟩

/-- A failing `bucketPop` means every bucket from the cursor through `maxB`
is empty. -/
theorem bucketPop_eq_none (maxB : ℕ) (st : FloodState)
    (h : bucketPop maxB st = none) :
    ∀ x, st.cursor ≤ x → x ≤ maxB → st.buckets x = [] := by
  unfold bucketPop at h
  rcases hfb : findBucket st.buckets maxB st.cursor with _ | bkt
  · intro x hx1 hx2
    exact findBucketAux_none st.buckets _ _ hfb x hx1 (by omega)
  · rw [hfb] at h
    dsimp only at h
    obtain ⟨_, _, h3, _⟩ := findBucketAux_some st.buckets _ _ _ hfb
    rcases hbk : st.buckets bkt with _ | ⟨e', rest⟩
    · exact absurd hbk h3
    · rw [hbk] at h
      dsimp only at h
      cases h

/-- Bound on the number of accepted pixels: distinct in-bounds pixel
coordinates number at most `w·h`. -/
theorem choices_length_le (w h : ℕ) (choices : List (ℕ × ℕ)) (hnd : choices.Nodup)
    (hb : ∀ c ∈ choices, c.1 < w ∧ c.2 < h) : choices.length ≤ w * h := by
  have hsub : choices.toFinset ⊆ Finset.range w ×ˢ Finset.range h := by
    intro c hc
    rw [List.mem_toFinset] at hc
    rcases hb c hc with ⟨h1, h2⟩
    simp [Finset.mem_product, h1, h2]
  have := Finset.card_le_card hsub
  rwa [List.toFinset_card_of_nodup hnd, Finset.card_product, Finset.card_range,
    Finset.card_range] at this

/-- The selection loop of `pickPosition` can never accept more than `w·h`
distinct pixels, so with `n > w·h` it never returns, whatever the fuel. -/
theorem pickPositionFuel_none (w h n : ℕ) (rand : ℕ → ℚ)
    (hrand : ∀ k, 0 ≤ rand k ∧ rand k < 1) (hwh : 0 < w * h) (hn : w * h < n) :
    ∀ (fuel : ℕ) (wts : ℕ → ℚ)
      (k : ℕ) (choices : List (ℕ × ℕ)) (positions : List (ℚ × ℚ)),
      positions.length = choices.length → choices.Nodup →
      (∀ c ∈ choices, c.1 < w ∧ c.2 < h) →
      pickPositionFuel fuel ⟨wts, w, h, n⟩ rand k choices positions = none := by
  intro fuel
  induction fuel with
  | zero => intros; rfl
  | succ fuel ih =>
    intro wts k choices positions hlen hnodup hcb
    have hcard : choices.length ≤ w * h := choices_length_le w h choices hnodup hcb
    have hlt : positions.length < n := by
      rw [hlen]; exact lt_of_le_of_lt hcard hn
    have hw : 0 < w := by
      rcases Nat.eq_zero_or_pos w with h0 | h0
      · subst h0; simp at hwh
      · exact h0
    have hsel : (⌊rand k * ((w * h : ℕ) : ℚ)⌋).toNat < w * h := by
      have h1 : rand k * ((w * h : ℕ) : ℚ) < ((w * h : ℕ) : ℚ) := by
        calc rand k * ((w * h : ℕ) : ℚ) < 1 * ((w * h : ℕ) : ℚ) := by
              apply mul_lt_mul_of_pos_right (hrand k).2
              exact_mod_cast hwh
          _ = ((w * h : ℕ) : ℚ) := one_mul _
      have h2 : ⌊rand k * ((w * h : ℕ) : ℚ)⌋ < ((w * h : ℕ) : ℤ) :=
        Int.floor_lt.mpr h1
      omega
    show pickPositionFuel (fuel + 1) ⟨wts, w, h, n⟩ rand k choices positions = none
    simp only [pickPositionFuel, if_pos hlt]
    split
    · split
      · exact ih wts (k + 2) choices positions hlen hnodup hcb
      · refine ih _ (k + 2) _ _ ?_ ?_ ?_
        · simp [hlen]
        · refine List.nodup_cons.mpr ⟨by assumption, hnodup⟩
        · intro c hc
          rcases List.mem_cons.mp hc with hc | hc
          · subst hc
            refine ⟨Nat.mod_lt _ hw, ?_⟩
            show (⌊rand k * ((w * h : ℕ) : ℚ)⌋).toNat / w < h
            rw [Nat.div_lt_iff_lt_mul hw]
            calc (⌊rand k * ((w * h : ℕ) : ℚ)⌋).toNat < w * h := hsel
              _ = h * w := Nat.mul_comm _ _
          · exact hcb c hc
    · exact ih wts (k + 2) choices positions hlen hnodup hcb

/-- Row-major index decomposition: quotient and remainder of `A*w + B`. -/
theorem div_mod_key (w A B : ℕ) (hw : 0 < w) (hB : B < w) :
    (A * w + B) / w = A ∧ (A * w + B) % w = B := by
  constructor
  · rw [add_comm, Nat.add_mul_div_right _ _ hw, Nat.div_eq_of_lt hB, Nat.zero_add]
  · rw [add_comm, Nat.add_mul_mod_self_right, Nat.mod_eq_of_lt hB]

/-- In-bounds coordinates give an in-bounds row-major index. -/
theorem pix_lt (w h y x : ℕ) (hy : y < h) (hx : x < w) : y * w + x < w * h := by
  have h1 : (y + 1) * w = y * w + w := by ring
  have h2 : (y + 1) * w ≤ h * w := Nat.mul_le_mul_right w hy
  have h3 : h * w = w * h := Nat.mul_comm _ _
  omega

/-- Recomposition of a pixel index from its coordinates. -/
theorem key_recompose (w p : ℕ) : (p / w) * w + p % w = p := by
  rw [Nat.mul_comm]
  exact Nat.div_add_mod p w

/-- Coordinates of the right neighbour. -/
theorem coords_right (w p : ℕ) (hw : 0 < w) (hx : p % w + 1 < w) :
    (p + 1) % w = p % w + 1 ∧ (p + 1) / w = p / w := by
  have hd : (p / w) * w + p % w = p := key_recompose w p
  have h1 : p + 1 = (p / w) * w + (p % w + 1) := by omega
  obtain ⟨ha, hb⟩ := div_mod_key w (p / w) (p % w + 1) hw hx
  rw [← h1] at ha hb
  exact ⟨hb, ha⟩

/-- Coordinates of the left neighbour. -/
theorem coords_left (w p : ℕ) (hw : 0 < w) (hx : 0 < p % w) :
    (p - 1) % w = p % w - 1 ∧ (p - 1) / w = p / w := by
  have hd : (p / w) * w + p % w = p := key_recompose w p
  have h1 : p - 1 = (p / w) * w + (p % w - 1) := by omega
  have hlt : p % w - 1 < w := by
    have := Nat.mod_lt p hw
    omega
  obtain ⟨ha, hb⟩ := div_mod_key w (p / w) (p % w - 1) hw hlt
  rw [← h1] at ha hb
  exact ⟨hb, ha⟩

/-- Coordinates of the neighbour one row down. -/
theorem coords_down (w p : ℕ) (hw : 0 < w) :
    (p + w) % w = p % w ∧ (p + w) / w = p / w + 1 := by
  have hd : (p / w) * w + p % w = p := key_recompose w p
  have h1 : p + w = (p / w + 1) * w + p % w := by
    have : (p / w + 1) * w = (p / w) * w + w := by ring
    omega
  obtain ⟨ha, hb⟩ := div_mod_key w (p / w + 1) (p % w) hw (Nat.mod_lt p hw)
  rw [← h1] at ha hb
  exact ⟨hb, ha⟩

/-- Coordinates of the neighbour one row up. -/
theorem coords_up (w p : ℕ) (hw : 0 < w) (hy : 0 < p / w) :
    (p - w) % w = p % w ∧ (p - w) / w = p / w - 1 := by
  have hd : (p / w) * w + p % w = p := key_recompose w p
  have hpw : w ≤ p := by
    have h1 : 1 * w ≤ (p / w) * w := Nat.mul_le_mul_right w hy
    omega
  have h1 : p - w = (p / w - 1) * w + p % w := by
    have h2 : (p / w) * w = (p / w - 1) * w + w := by
      have h3 : p / w = (p / w - 1) + 1 := by omega
      calc (p / w) * w = ((p / w - 1) + 1) * w := by rw [← h3]
        _ = (p / w - 1) * w + w := by ring
    omega
  obtain ⟨ha, hb⟩ := div_mod_key w (p / w - 1) (p % w) hw (Nat.mod_lt p hw)
  rw [← h1] at ha hb
  exact ⟨hb, ha⟩

/-- The 4-neighbour relation is symmetric (on in-bounds pixels). -/
theorem adj_symm (w h p q : ℕ) (hw : 0 < w) (hp : p < w * h) (hadj : Adj w h p q) :
    Adj w h q p := by
  have hy : p / w < h := by
    rcases Nat.lt_or_ge (p / w) h with h1 | h1
    · exact h1
    · exfalso
      have h2 : h * w ≤ (p / w) * w := Nat.mul_le_mul_right w h1
      have h4 := key_recompose w p
      have h3 : h * w = w * h := Nat.mul_comm _ _
      omega
  have hml := Nat.mod_lt p hw
  have hmle := Nat.mod_le p w
  rcases hadj with ⟨rfl, hg⟩ | ⟨hq, hg⟩ | ⟨rfl, hg⟩ | ⟨hq, hg⟩
  · obtain ⟨hm, _⟩ := coords_right w p hw hg
    refine Or.inr (Or.inl ⟨rfl, ?_⟩)
    rw [hm]
    exact Nat.succ_pos _
  · have hq1 : q = p - 1 := by omega
    subst hq1
    obtain ⟨hm, _⟩ := coords_left w p hw hg
    refine Or.inl ⟨by omega, ?_⟩
    rw [hm]
    omega
  · obtain ⟨_, hdv⟩ := coords_down w p hw
    refine Or.inr (Or.inr (Or.inr ⟨rfl, ?_⟩))
    rw [hdv]
    exact Nat.succ_pos _
  · have hq1 : q = p - w := by omega
    subst hq1
    obtain ⟨_, hdv⟩ := coords_up w p hw hg
    have hpw : w ≤ p := by
      have h1 : 1 * w ≤ (p / w) * w := Nat.mul_le_mul_right w hg
      have h2 := key_recompose w p
      omega
    refine Or.inr (Or.inr (Or.inl ⟨by omega, ?_⟩))
    rw [hdv]
    omega

/-- An in-bounds pixel's 4-neighbours are in bounds. -/
theorem adj_lt (w h p q : ℕ) (hw : 0 < w) (hp : p < w * h) (hadj : Adj w h p q) :
    q < w * h := by
  have hy : p / w < h := by
    rcases Nat.lt_or_ge (p / w) h with h1 | h1
    · exact h1
    · exfalso
      have h2 : h * w ≤ (p / w) * w := Nat.mul_le_mul_right w h1
      have h4 := key_recompose w p
      have h3 : h * w = w * h := Nat.mul_comm _ _
      omega
  rcases hadj with ⟨rfl, hg⟩ | ⟨hq, hg⟩ | ⟨rfl, hg⟩ | ⟨hq, hg⟩
  · obtain ⟨hm, hdv⟩ := coords_right w p hw hg
    have h5 := pix_lt w h ((p + 1) / w) ((p + 1) % w) (by omega) (by omega)
    have h6 := key_recompose w (p + 1)
    omega
  · omega
  · obtain ⟨hm, hdv⟩ := coords_down w p hw
    have hyb : p / w + 1 < h := hg
    have hml := Nat.mod_lt p hw
    have h5 := pix_lt w h ((p + w) / w) ((p + w) % w) (by omega) (by omega)
    have h6 := key_recompose w (p + w)
    omega
  · omega

/-- C5: the claim states that when the requested site count exceeds `W·H`
the sampler rejects the request up front with an error.  The code has no such
check: on a 1×1 image with `n = 2` the selection loop never terminates — for
every fuel it is still running (no error, no result), here shown with the
constant-zero random stream. -/
theorem pickPosition_no_upfront_rejection :
    ∀ fuel : ℕ, pickPositionFuel fuel (mkChoosePoint (fun _ => 0) 1 1 2 false)
      (fun _ => 0) 0 [] [] = none := fun fuel =>
  pickPositionFuel_none 1 1 2 (fun _ => 0)
    (fun _ => ⟨le_refl 0, by norm_num⟩) (by norm_num) (by norm_num)
    fuel _ 0 [] [] rfl List.nodup_nil (by simp)

/-- C7: sampling twice from the same image, seed and `inverse_bias`, each
run with a freshly constructed sampler state and a fresh Mulberry32 stream
of that seed, yields the identical ordered list of positions. -/
theorem sampler_deterministic (red : ℕ → ℕ) (w h n : ℕ) (inv : Bool) (seed fuel : ℕ)
    (cp₁ cp₂ : ChoosePointState) (r₁ r₂ : ℕ → ℚ)
    (h1 : cp₁ = mkChoosePoint red w h n inv) (h2 : cp₂ = mkChoosePoint red w h n inv)
    (hr1 : r₁ = mulberryStream seed) (hr2 : r₂ = mulberryStream seed) :
    pickPositionFuel fuel cp₁ r₁ 0 [] [] = pickPositionFuel fuel cp₂ r₂ 0 [] [] := by
  subst h1 h2 hr1 hr2; rfl

/-- Witness for C7 at a concrete image, seed and fuel. -/
theorem sampler_deterministic_witness :
    pickPositionFuel 6 (mkChoosePoint (fun _ => 0) 1 1 1 false) (mulberryStream 7) 0 [] [] =
      pickPositionFuel 6 (mkChoosePoint (fun _ => 0) 1 1 1 false) (mulberryStream 7) 0 [] [] :=
  sampler_deterministic (fun _ => 0) 1 1 1 false 7 6 _ _ _ _ rfl rfl rfl rfl

/-- Evaluation helper: `Int.toNat` of a numeral literal. -/
theorem int_toNat_lit (n : ℕ) [n.AtLeastTwo] :
    (no_index (OfNat.ofNat n) : ℤ).toNat = OfNat.ofNat n := rfl

/-- The inclusive integer range one step either side of `a`. -/
theorem intRange_pm_one (a : ℤ) : intRange (a - 1) (a + 1) = [a - 1, a, a + 1] := by
  have h3 : (a + 1 + 1 - (a - 1)).toNat = 3 := by omega
  have hr : List.range 3 = [0, 1, 2] := rfl
  simp only [intRange, h3, hr, List.map_cons, List.map_nil, List.cons.injEq]
  norm_num
  omega

/-- A nested fold over rows and columns is a fold over the row-column pairs. -/
theorem foldl_foldl_pairs {α : Type} (g : α → ℤ → ℤ → α) :
    ∀ (rows : List ℤ) (cols : List ℤ) (a : α),
      rows.foldl (fun acc i => cols.foldl (fun acc2 j => g acc2 i j) acc) a =
        (rows.flatMap (fun i => cols.map (fun j => (i, j)))).foldl
          (fun acc p => g acc p.1 p.2) a := by
  intro rows
  induction rows with
  | nil => intro cols a; rfl
  | cons r rs ih =>
    intro cols a
    simp only [List.foldl_cons, List.flatMap_cons, List.foldl_append, List.foldl_map]
    exact ih cols _

/-- Pointwise value of a fold of guarded halving updates: if exactly the
elements listed touch `pos` pairwise-incompatibly, the value at `pos` is
halved once when some element touches it and unchanged otherwise. -/
theorem foldl_halve_eval (w H : ℕ) (pos : ℕ) :
    ∀ (ps : List (ℤ × ℤ)) (acc : ℕ → ℚ),
      (ps.Pairwise fun p p' =>
        (((0 ≤ p.1 ∧ 0 ≤ p.2 ∧ p.2 < (w : ℤ) ∧ p.1 < (H : ℤ)) ∧
          (p.1 * (w : ℤ) + p.2).toNat = pos) →
        ¬((0 ≤ p'.1 ∧ 0 ≤ p'.2 ∧ p'.2 < (w : ℤ) ∧ p'.1 < (H : ℤ)) ∧
          (p'.1 * (w : ℤ) + p'.2).toNat = pos))) →
      (ps.foldl (fun acc2 p =>
          if 0 ≤ p.1 ∧ 0 ≤ p.2 ∧ p.2 < (w : ℤ) ∧ p.1 < (H : ℤ) then
            updFn acc2 ((p.1 * (w : ℤ) + p.2).toNat)
              (acc2 ((p.1 * (w : ℤ) + p.2).toNat) / 2)
          else acc2) acc) pos =
        if (∃ p ∈ ps, ((0 ≤ p.1 ∧ 0 ≤ p.2 ∧ p.2 < (w : ℤ) ∧ p.1 < (H : ℤ)) ∧
            (p.1 * (w : ℤ) + p.2).toNat = pos)) then acc pos / 2 else acc pos := by
  intro ps
  induction ps with
  | nil => intro acc _; simp
  | cons q qs ih =>
    intro acc hpair
    rcases List.pairwise_cons.mp hpair with ⟨hq, hqs⟩
    rw [List.foldl_cons]
    by_cases ht : ((0 ≤ q.1 ∧ 0 ≤ q.2 ∧ q.2 < (w : ℤ) ∧ q.1 < (H : ℤ)) ∧
        (q.1 * (w : ℤ) + q.2).toNat = pos)
    · have hnone : ¬(∃ p ∈ qs, ((0 ≤ p.1 ∧ 0 ≤ p.2 ∧ p.2 < (w : ℤ) ∧ p.1 < (H : ℤ)) ∧
          (p.1 * (w : ℤ) + p.2).toNat = pos)) := by
        rintro ⟨p, hp, hph⟩
        exact hq p hp ht hph
      have hex' : (∃ p ∈ q :: qs, ((0 ≤ p.1 ∧ 0 ≤ p.2 ∧ p.2 < (w : ℤ) ∧ p.1 < (H : ℤ)) ∧
          (p.1 * (w : ℤ) + p.2).toNat = pos)) := ⟨q, List.mem_cons_self q qs, ht⟩
      rw [ih _ hqs, if_neg hnone, if_pos ht.1, if_pos hex']
      simp [updFn, ht.2]
    · have hval : (if 0 ≤ q.1 ∧ 0 ≤ q.2 ∧ q.2 < (w : ℤ) ∧ q.1 < (H : ℤ) then
            updFn acc ((q.1 * (w : ℤ) + q.2).toNat)
              (acc ((q.1 * (w : ℤ) + q.2).toNat) / 2)
          else acc) pos = acc pos := by
        split
        · rename_i hg
          have hne : (q.1 * (w : ℤ) + q.2).toNat ≠ pos := fun hkey => ht ⟨hg, hkey⟩
          simp only [updFn, if_neg (fun hx : pos = _ => hne hx.symm)]
        · rfl
      rw [ih _ hqs]
      by_cases hex : (∃ p ∈ qs, ((0 ≤ p.1 ∧ 0 ≤ p.2 ∧ p.2 < (w : ℤ) ∧ p.1 < (H : ℤ)) ∧
          (p.1 * (w : ℤ) + p.2).toNat = pos))
      · have hex' : (∃ p ∈ q :: qs, ((0 ≤ p.1 ∧ 0 ≤ p.2 ∧ p.2 < (w : ℤ) ∧ p.1 < (H : ℤ)) ∧
            (p.1 * (w : ℤ) + p.2).toNat = pos)) := by
          rcases hex with ⟨p, hp, hph⟩
          exact ⟨p, List.mem_cons_of_mem q hp, hph⟩
        rw [if_pos hex, hval, if_pos hex']
      · have hex' : ¬(∃ p ∈ q :: qs, ((0 ≤ p.1 ∧ 0 ≤ p.2 ∧ p.2 < (w : ℤ) ∧ p.1 < (H : ℤ)) ∧
            (p.1 * (w : ℤ) + p.2).toNat = pos)) := by
          rintro ⟨p, hp, hph⟩
          rcases List.mem_cons.mp hp with rfl | hp
          · exact ht hph
          · exact hex ⟨p, hp, hph⟩
        rw [if_neg hex, hval, if_neg hex']

/-- C3 counterexample: on a 5×5 image whose weights are all `2`
(red channel 1), accepting the centre pixel (index 12) must — per the claim —
use radius `max(1, ⌊log₂ 2 + 1⌋) = 2` and so halve the corner pixel 0 to `1`;
the code computes the radius from the *already zeroed* weight, always halves
only the 3×3 square, and leaves pixel 0 at `2`.  With weights `3` the code
also halves to the non-integer `3/2` where the claim demands the integer
quotient `1`. -/
theorem scaleDown_radius_counterexample :
    (scaleDown (mkChoosePoint (fun _ => 1) 5 5 1 false) 12).weights 0 = 2 ∧
    (claimScaleDown (mkChoosePoint (fun _ => 1) 5 5 1 false) 12).weights 0 = 1 ∧
    (scaleDown (mkChoosePoint (fun _ => 2) 5 5 1 false) 12).weights 11 = 3 / 2 ∧
    (claimScaleDown (mkChoosePoint (fun _ => 2) 5 5 1 false) 12).weights 11 = 1 := by
  have h22 : Nat.log 2 2 = 1 := Nat.log_eq_of_pow_le_of_lt_pow (by norm_num) (by norm_num)
  have h23 : Nat.log 2 3 = 1 := Nat.log_eq_of_pow_le_of_lt_pow (by norm_num) (by norm_num)
  refine ⟨?_, ?_, ?_, ?_⟩ <;>
    norm_num [scaleDown, claimScaleDown, mkChoosePoint, updFn, intRange, maxLog2Succ,
      claimSuppressRadius, h22, h23, int_toNat_lit, Int.toNat_zero, Int.toNat_one, List.range_succ, List.range_zero, List.flatMap_cons,
      List.flatMap_nil, List.map_cons, List.map_nil, List.foldl_cons, List.foldl_nil,
      Int.toNat_ofNat]

theorem key_inj (w : ℕ) (hw : 0 < w) {i j i' j' : ℤ}
    (hi : 0 ≤ i) (hj : 0 ≤ j) (hjw : j < (w : ℤ))
    (hi' : 0 ≤ i') (hj' : 0 ≤ j') (hjw' : j' < (w : ℤ))
    (hkey : (i * (w : ℤ) + j).toNat = (i' * (w : ℤ) + j').toNat) : i = i' ∧ j = j' := by
  have h0 : (0 : ℤ) ≤ i * w + j := by positivity
  have h0' : (0 : ℤ) ≤ i' * w + j' := by positivity
  have heq : i * (w : ℤ) + j = i' * (w : ℤ) + j' := by
    have h2 := congrArg (fun m : ℕ => (m : ℤ)) hkey
    simpa [Int.toNat_of_nonneg h0, Int.toNat_of_nonneg h0'] using h2
  have hmod : ∀ a b : ℤ, 0 ≤ b → b < (w : ℤ) → (a * w + b) % w = b := by
    intro a b h1 h2
    rw [add_comm, Int.add_mul_emod_self]
    exact Int.emod_eq_of_lt h1 h2
  have hj2 : j = j' := by
    have e1 := hmod i j hj hjw
    have e2 := hmod i' j' hj' hjw'
    rw [heq] at e1
    exact e1.symm.trans e2
  subst hj2
  have : i * (w : ℤ) = i' * (w : ℤ) := by linarith
  have hwne : ((w : ℤ)) ≠ 0 := by exact_mod_cast hw.ne'
  exact ⟨mul_right_cancel₀ hwne this, rfl⟩

theorem mem_pm_one (a c : ℤ) : a ∈ [c - 1, c, c + 1] ↔ (a - c).natAbs ≤ 1 := by
  simp only [List.mem_cons, List.mem_singleton, List.not_mem_nil, or_false]
  omega

theorem scaleDown_halves_3x3 (st : ChoosePointState) (ind pos : ℕ)
    (hw : 0 < st.width) (hind : ind < st.width * st.height)
    (hpos : pos < st.width * st.height) :
    (scaleDown st ind).weights pos =
      if pos = ind then 0
      else if ((pos % st.width : ℤ) - (ind % st.width : ℤ)).natAbs ≤ 1 ∧
              ((pos / st.width : ℤ) - (ind / st.width : ℤ)).natAbs ≤ 1 then
        st.weights pos / 2
      else st.weights pos := by
  obtain ⟨wts, w, h, n⟩ := st
  simp only at hw hind hpos ⊢
  simp only [scaleDown, maxLog2Succ]
  rw [foldl_foldl_pairs, intRange_pm_one, intRange_pm_one]
  have hwz : ((w : ℤ)) ≠ 0 := by exact_mod_cast hw.ne'
  have hpm0 : (0 : ℤ) ≤ (pos : ℤ) % (w : ℤ) := Int.emod_nonneg _ hwz
  have hpmw : (pos : ℤ) % (w : ℤ) < (w : ℤ) := Int.emod_lt_of_pos _ (by exact_mod_cast hw)
  have hpd0 : (0 : ℤ) ≤ (pos : ℤ) / (w : ℤ) := Int.ediv_nonneg (by positivity) (by positivity)
  have hpdh : (pos : ℤ) / (w : ℤ) < (h : ℤ) := by
    rw [Int.ediv_lt_iff_lt_mul (by exact_mod_cast hw)]
    calc (pos : ℤ) < ((w * h : ℕ) : ℤ) := by exact_mod_cast hpos
      _ = (h : ℤ) * (w : ℤ) := by push_cast; ring
  have hposkey : (((pos : ℤ) / (w : ℤ)) * (w : ℤ) + (pos : ℤ) % (w : ℤ)).toNat = pos := by
    rw [show ((pos : ℤ) / (w : ℤ)) * (w : ℤ) + (pos : ℤ) % (w : ℤ) = (pos : ℤ) from by
      rw [mul_comm]; exact Int.ediv_add_emod _ _]
    exact Int.toNat_natCast pos
  have huniq : ∀ p p' : ℤ × ℤ,
      ((0 ≤ p.1 ∧ 0 ≤ p.2 ∧ p.2 < (w : ℤ) ∧ p.1 < (h : ℤ)) ∧ (p.1 * (w : ℤ) + p.2).toNat = pos) →
      ((0 ≤ p'.1 ∧ 0 ≤ p'.2 ∧ p'.2 < (w : ℤ) ∧ p'.1 < (h : ℤ)) ∧ (p'.1 * (w : ℤ) + p'.2).toNat = pos) →
      p = p' := by
    rintro ⟨i, j⟩ ⟨i', j'⟩ ⟨⟨hi, hj, hjw, _⟩, hk⟩ ⟨⟨hi', hj', hjw', _⟩, hk'⟩
    have hij := key_inj w hw hi hj hjw hi' hj' hjw' (hk.trans hk'.symm)
    simp only [Prod.mk.injEq]
    exact hij
  set L := ([(ind : ℤ) / (w : ℤ) - 1, (ind : ℤ) / (w : ℤ), (ind : ℤ) / (w : ℤ) + 1].flatMap
      fun i => List.map (fun j => (i, j))
        [(ind : ℤ) % (w : ℤ) - 1, (ind : ℤ) % (w : ℤ), (ind : ℤ) % (w : ℤ) + 1]) with hL
  have hmemL : ∀ p : ℤ × ℤ, p ∈ L ↔
      (p.1 ∈ [(ind : ℤ) / (w : ℤ) - 1, (ind : ℤ) / (w : ℤ), (ind : ℤ) / (w : ℤ) + 1] ∧
       p.2 ∈ [(ind : ℤ) % (w : ℤ) - 1, (ind : ℤ) % (w : ℤ), (ind : ℤ) % (w : ℤ) + 1]) := by
    intro p
    rw [hL]
    constructor
    · intro hp
      rcases List.mem_flatMap.mp hp with ⟨i, hi, hp2⟩
      rcases List.mem_map.mp hp2 with ⟨j, hj, rfl⟩
      exact ⟨hi, hj⟩
    · rintro ⟨h1, h2⟩
      refine List.mem_flatMap.mpr ⟨p.1, h1, List.mem_map.mpr ⟨p.2, h2, rfl⟩⟩
  have hndL : L.Nodup := by
    rw [hL]
    generalize ((ind : ℤ) / (w : ℤ)) = Y
    generalize ((ind : ℤ) % (w : ℤ)) = X
    simp only [List.flatMap_cons, List.flatMap_nil, List.map_cons, List.map_nil,
      List.append_nil, List.cons_append, List.nil_append]
    simp only [List.nodup_cons, List.mem_cons, List.not_mem_nil, or_false, List.nodup_nil,
      and_true, true_and, Prod.mk.injEq, not_or]
    repeat' apply And.intro
    all_goals first
    | exact not_false
    | omega
  have hpairL : L.Pairwise (fun p p' =>
      (((0 ≤ p.1 ∧ 0 ≤ p.2 ∧ p.2 < (w : ℤ) ∧ p.1 < (h : ℤ)) ∧
        (p.1 * (w : ℤ) + p.2).toNat = pos) →
      ¬((0 ≤ p'.1 ∧ 0 ≤ p'.2 ∧ p'.2 < (w : ℤ) ∧ p'.1 < (h : ℤ)) ∧
        (p'.1 * (w : ℤ) + p'.2).toNat = pos))) :=
    List.Pairwise.imp (fun hne ht ht' => hne (huniq _ _ ht ht')) hndL
  rw [foldl_halve_eval w h pos L _ hpairL]
  have hcond : (∃ p ∈ L, ((0 ≤ p.1 ∧ 0 ≤ p.2 ∧ p.2 < (w : ℤ) ∧ p.1 < (h : ℤ)) ∧
      (p.1 * (w : ℤ) + p.2).toNat = pos)) ↔
      (((pos : ℤ) % (w : ℤ) - (ind : ℤ) % (w : ℤ)).natAbs ≤ 1 ∧
       ((pos : ℤ) / (w : ℤ) - (ind : ℤ) / (w : ℤ)).natAbs ≤ 1) := by
    constructor
    · rintro ⟨p, hpL, ht⟩
      have hpp := huniq p ((pos : ℤ) / (w : ℤ), (pos : ℤ) % (w : ℤ)) ht
        ⟨⟨hpd0, hpm0, hpmw, hpdh⟩, hposkey⟩
      subst hpp
      rcases (hmemL _).mp hpL with ⟨h1, h2⟩
      exact ⟨(mem_pm_one _ _).mp h2, (mem_pm_one _ _).mp h1⟩
    · rintro ⟨h1, h2⟩
      refine ⟨((pos : ℤ) / (w : ℤ), (pos : ℤ) % (w : ℤ)), ?_,
        ⟨⟨hpd0, hpm0, hpmw, hpdh⟩, hposkey⟩⟩
      rw [hmemL]
      exact ⟨(mem_pm_one _ _).mpr h2, (mem_pm_one _ _).mpr h1⟩
  by_cases hpi : pos = ind
  · subst hpi
    rw [if_pos (hcond.mpr ⟨by simp, by simp⟩), if_pos rfl]
    simp [updFn]
  · rw [if_neg hpi]
    have hupd : updFn wts ind 0 pos = wts pos := by simp [updFn, hpi]
    by_cases hc : (((pos : ℤ) % (w : ℤ) - (ind : ℤ) % (w : ℤ)).natAbs ≤ 1 ∧
        ((pos : ℤ) / (w : ℤ) - (ind : ℤ) / (w : ℤ)).natAbs ≤ 1)
    · rw [if_pos (hcond.mpr hc), if_pos hc, hupd]
    · rw [if_neg (fun hex => hc (hcond.mp hex)), if_neg hc, hupd]

/-- Witness for the amended C3 theorem: a 3×3 all-weight-2 image, accepting
the centre pixel halves the corner pixel to 1. -/
theorem scaleDown_halves_3x3_witness :
    0 < (mkChoosePoint (fun _ => 1) 3 3 1 false).width ∧
    4 < (mkChoosePoint (fun _ => 1) 3 3 1 false).width *
      (mkChoosePoint (fun _ => 1) 3 3 1 false).height ∧
    0 < (mkChoosePoint (fun _ => 1) 3 3 1 false).width *
      (mkChoosePoint (fun _ => 1) 3 3 1 false).height ∧
    (scaleDown (mkChoosePoint (fun _ => 1) 3 3 1 false) 4).weights 0 = 1 := by
  refine ⟨by decide, by decide, by decide, ?_⟩
  have hth := scaleDown_halves_3x3 (mkChoosePoint (fun _ => 1) 3 3 1 false) 4 0
    (by decide) (by decide) (by decide)
  rw [hth]
  norm_num [mkChoosePoint]

/-- `x | 0` never overshoots its argument by one: `q < jsTrunc q + 1`. -/
theorem jsTrunc_lt (q : ℚ) : q < (jsTrunc q : ℚ) + 1 := by
  unfold jsTrunc
  by_cases h : 0 ≤ q
  · rw [if_pos h]
    exact_mod_cast Int.lt_floor_add_one q
  · rw [if_neg h]
    push_cast
    have h2 : (⌊-q⌋ : ℚ) ≤ -q := Int.floor_le _
    linarith

/-- When `x | 0` is positive the argument was at least that value. -/
theorem jsTrunc_le (q : ℚ) (h1 : 1 ≤ jsTrunc q) : (jsTrunc q : ℚ) ≤ q := by
  unfold jsTrunc at h1 ⊢
  by_cases h : 0 ≤ q
  · rw [if_pos h]
    exact Int.floor_le q
  · rw [if_neg h] at h1 ⊢
    exfalso
    push_neg at h
    have h2 : 0 ≤ ⌊-q⌋ := Int.floor_nonneg.mpr (by linarith)
    omega

/-- The home pixel index in row-major form, under the in-bounds hypotheses. -/
theorem homeIdx_eq (w : ℕ) (s : ℚ × ℚ)
    (hx0 : 0 ≤ jsTrunc s.1) (hy0 : 0 ≤ jsTrunc s.2) :
    homeIdx w s = (jsTrunc s.2).toNat * w + (jsTrunc s.1).toNat := by
  unfold homeIdx
  obtain ⟨a, ha⟩ := Int.eq_ofNat_of_zero_le hx0
  obtain ⟨b, hb⟩ := Int.eq_ofNat_of_zero_le hy0
  rw [ha, hb]
  norm_cast

/-- Coordinates and bound of the home pixel. -/
theorem homeIdx_coords (w h : ℕ) (s : ℚ × ℚ) (hw : 0 < w)
    (hx0 : 0 ≤ jsTrunc s.1) (hx1 : jsTrunc s.1 < (w : ℤ))
    (hy0 : 0 ≤ jsTrunc s.2) (hy1 : jsTrunc s.2 < (h : ℤ)) :
    homeIdx w s % w = (jsTrunc s.1).toNat ∧ homeIdx w s / w = (jsTrunc s.2).toNat ∧
      homeIdx w s < w * h := by
  have he := homeIdx_eq w s hx0 hy0
  have ha : (jsTrunc s.1).toNat < w := by omega
  have hb : (jsTrunc s.2).toNat < h := by omega
  obtain ⟨hd, hm⟩ := div_mod_key w (jsTrunc s.2).toNat (jsTrunc s.1).toNat hw ha
  refine ⟨by rw [he]; exact hm, by rw [he]; exact hd, by rw [he]; exact pix_lt w h _ _ hb ha⟩

/-- The relaxation distance of the right neighbour is its exact distance. -/
theorem pixDistSq_right (w : ℕ) (s : ℚ × ℚ) (p : ℕ) (hw : 0 < w) (hx : p % w + 1 < w) :
    pixDistSq w s (p + 1) =
      ((((p % w : ℕ) : ℚ) + 1/2 - s.1) + 1) * ((((p % w : ℕ) : ℚ) + 1/2 - s.1) + 1) +
        (((p / w : ℕ) : ℚ) + 1/2 - s.2) * (((p / w : ℕ) : ℚ) + 1/2 - s.2) := by
  obtain ⟨hm, hd⟩ := coords_right w p hw hx
  unfold pixDistSq
  rw [hm, hd]
  push_cast
  ring

/-- The relaxation distance of the left neighbour is its exact distance. -/
theorem pixDistSq_left (w : ℕ) (s : ℚ × ℚ) (p : ℕ) (hw : 0 < w) (hx : 0 < p % w) :
    pixDistSq w s (p - 1) =
      ((((p % w : ℕ) : ℚ) + 1/2 - s.1) - 1) * ((((p % w : ℕ) : ℚ) + 1/2 - s.1) - 1) +
        (((p / w : ℕ) : ℚ) + 1/2 - s.2) * (((p / w : ℕ) : ℚ) + 1/2 - s.2) := by
  obtain ⟨hm, hd⟩ := coords_left w p hw hx
  unfold pixDistSq
  rw [hm, hd, Nat.cast_sub (by omega : 1 ≤ p % w)]
  push_cast
  ring

/-- The relaxation distance of the neighbour one row down is its exact
distance. -/
theorem pixDistSq_down (w : ℕ) (s : ℚ × ℚ) (p : ℕ) (hw : 0 < w) :
    pixDistSq w s (p + w) =
      (((p % w : ℕ) : ℚ) + 1/2 - s.1) * (((p % w : ℕ) : ℚ) + 1/2 - s.1) +
        ((((p / w : ℕ) : ℚ) + 1/2 - s.2) + 1) * ((((p / w : ℕ) : ℚ) + 1/2 - s.2) + 1) := by
  obtain ⟨hm, hd⟩ := coords_down w p hw
  unfold pixDistSq
  rw [hm, hd]
  push_cast
  ring

/-- The relaxation distance of the neighbour one row up is its exact
distance. -/
theorem pixDistSq_up (w : ℕ) (s : ℚ × ℚ) (p : ℕ) (hw : 0 < w) (hy : 0 < p / w) :
    pixDistSq w s (p - w) =
      (((p % w : ℕ) : ℚ) + 1/2 - s.1) * (((p % w : ℕ) : ℚ) + 1/2 - s.1) +
        ((((p / w : ℕ) : ℚ) + 1/2 - s.2) - 1) * ((((p / w : ℕ) : ℚ) + 1/2 - s.2) - 1) := by
  obtain ⟨hm, hd⟩ := coords_up w p hw hy
  unfold pixDistSq
  rw [hm, hd, Nat.cast_sub (by omega : 1 ≤ p / w)]
  push_cast
  ring

/-- The bucket of a pixel is monotone in its distance to the site. -/
theorem bktOf_mono (w h : ℕ) (s : ℚ × ℚ) {p q : ℕ}
    (hle : pixDistSq w s p ≤ pixDistSq w s q) : bktOf w h s p ≤ bktOf w h s q := by
  unfold bktOf
  have h1 : ⌊pixDistSq w s p⌋ ≤ ⌊pixDistSq w s q⌋ := Int.floor_le_floor hle
  have h2 : ⌊pixDistSq w s p⌋.toNat ≤ ⌊pixDistSq w s q⌋.toNat := Int.toNat_le_toNat h1
  omega

/-- From any in-bounds pixel other than the home pixel there is a 4-step
toward the home pixel that strictly decreases the L1 measure and does not
increase the distance to the site. -/
theorem exists_toward (w h : ℕ) (s : ℚ × ℚ) (hw : 0 < w)
    (hx0 : 0 ≤ jsTrunc s.1) (hx1 : jsTrunc s.1 < (w : ℤ))
    (hy0 : 0 ≤ jsTrunc s.2) (hy1 : jsTrunc s.2 < (h : ℤ))
    (p : ℕ) (hp : p < w * h) (hne : p ≠ homeIdx w s) :
    ∃ q, Adj w h p q ∧ towardMeasure w s q < towardMeasure w s p ∧
      pixDistSq w s q ≤ pixDistSq w s p := by
  obtain ⟨a, ha⟩ := Int.eq_ofNat_of_zero_le hx0
  obtain ⟨b, hb⟩ := Int.eq_ofNat_of_zero_le hy0
  have hA : (jsTrunc s.1).toNat = a := by rw [ha]; omega
  have hB : (jsTrunc s.2).toNat = b := by rw [hb]; omega
  have hal : a < w := by rw [ha] at hx1; exact_mod_cast hx1
  have hbl : b < h := by rw [hb] at hy1; exact_mod_cast hy1
  have hTM : ∀ q, towardMeasure w s q = Nat.dist (q % w) a + Nat.dist (q / w) b := by
    intro q
    unfold towardMeasure
    rw [hA, hB]
  have hml := Nat.mod_lt p hw
  have hmle := Nat.mod_le p w
  have hkey := key_recompose w p
  have hz1 : 0 ≤ p / w := Nat.zero_le _
  have hz2 : 0 ≤ p % w := Nat.zero_le _
  have hpy : p / w < h := by
    rcases Nat.lt_or_ge (p / w) h with h1 | h1
    · exact h1
    · exfalso
      have h2 : h * w ≤ (p / w) * w := Nat.mul_le_mul_right w h1
      have h3 : h * w = w * h := Nat.mul_comm _ _
      omega
  have hsx_lt : s.1 < (a : ℚ) + 1 := by
    have h1 := jsTrunc_lt s.1
    rw [ha] at h1
    push_cast at h1
    exact h1
  have hsy_lt : s.2 < (b : ℚ) + 1 := by
    have h1 := jsTrunc_lt s.2
    rw [hb] at h1
    push_cast at h1
    exact h1
  have hsx_ge : 1 ≤ a → (a : ℚ) ≤ s.1 := by
    intro h1
    have h2 := jsTrunc_le s.1 (by rw [ha]; exact_mod_cast h1)
    rw [ha] at h2
    push_cast at h2
    exact h2
  have hsy_ge : 1 ≤ b → (b : ℚ) ≤ s.2 := by
    intro h1
    have h2 := jsTrunc_le s.2 (by rw [hb]; exact_mod_cast h1)
    rw [hb] at h2
    push_cast at h2
    exact h2
  have hsub : p % w ≠ a ∨ p / w ≠ b := by
    by_contra hc
    push_neg at hc
    rw [hc.1, hc.2] at hkey
    refine hne ?_
    rw [homeIdx_eq w s hx0 hy0, hA, hB]
    omega
  rcases Nat.lt_trichotomy (p % w) a with hlt | heq | hgt
  · refine ⟨p + 1, Or.inl ⟨rfl, by omega⟩, ?_, ?_⟩
    · obtain ⟨hm, hd⟩ := coords_right w p hw (by omega)
      rw [hTM, hTM, hm, hd]
      simp only [Nat.dist]
      omega
    · rw [pixDistSq_right w s p hw (by omega)]
      unfold pixDistSq
      have hge : ((p % w : ℕ) : ℚ) + 1 ≤ s.1 := by
        have h1 : ((p % w : ℕ) : ℚ) + 1 ≤ ((a : ℕ) : ℚ) := by
          exact_mod_cast show p % w + 1 ≤ a by omega
        have h2 := hsx_ge (by omega)
        linarith
      nlinarith [hge]
  · rcases Nat.lt_trichotomy (p / w) b with h2lt | h2eq | h2gt
    · refine ⟨p + w, Or.inr (Or.inr (Or.inl ⟨rfl, by omega⟩)), ?_, ?_⟩
      · obtain ⟨hm, hd⟩ := coords_down w p hw
        rw [hTM, hTM, hm, hd]
        simp only [Nat.dist]
        omega
      · rw [pixDistSq_down w s p hw]
        unfold pixDistSq
        have hge : ((p / w : ℕ) : ℚ) + 1 ≤ s.2 := by
          have h1 : ((p / w : ℕ) : ℚ) + 1 ≤ ((b : ℕ) : ℚ) := by
            exact_mod_cast show p / w + 1 ≤ b by omega
          have h2 := hsy_ge (by omega)
          linarith
        nlinarith [hge]
    · exact hsub.elim (fun hc => absurd heq hc) (fun hc => absurd h2eq hc)
    · have hpw : w ≤ p := by
        have h1 : 1 * w ≤ (p / w) * w := Nat.mul_le_mul_right w (by omega)
        omega
      refine ⟨p - w, Or.inr (Or.inr (Or.inr ⟨by omega, by omega⟩)), ?_, ?_⟩
      · obtain ⟨hm, hd⟩ := coords_up w p hw (by omega)
        rw [hTM, hTM, hm, hd]
        simp only [Nat.dist]
        omega
      · rw [pixDistSq_up w s p hw (by omega)]
        unfold pixDistSq
        have hle2 : s.2 ≤ ((p / w : ℕ) : ℚ) := by
          have h1 : ((b : ℕ) : ℚ) + 1 ≤ ((p / w : ℕ) : ℚ) := by
            exact_mod_cast show b + 1 ≤ p / w by omega
          linarith
        nlinarith [hle2]
  · refine ⟨p - 1, Or.inr (Or.inl ⟨by omega, by omega⟩), ?_, ?_⟩
    · obtain ⟨hm, hd⟩ := coords_left w p hw (by omega)
      rw [hTM, hTM, hm, hd]
      simp only [Nat.dist]
      omega
    · rw [pixDistSq_left w s p hw (by omega)]
      unfold pixDistSq
      have hle1 : s.1 ≤ ((p % w : ℕ) : ℚ) := by
        have h1 : ((a : ℕ) : ℚ) + 1 ≤ ((p % w : ℕ) : ℚ) := by
          exact_mod_cast show a + 1 ≤ p % w by omega
        linarith
      nlinarith [hle1]

/-- No-gap chain: from any untouched in-bounds pixel, walking toward the home
pixel reaches an unassigned touched pixel whose bucket is no larger. -/
theorem sinv_chain (w h : ℕ) (s : ℚ × ℚ) (st : FloodState) (hw : 0 < w)
    (hx0 : 0 ≤ jsTrunc s.1) (hx1 : jsTrunc s.1 < (w : ℤ))
    (hy0 : 0 ≤ jsTrunc s.2) (hy1 : jsTrunc s.2 < (h : ℤ))
    (hinv : SingleInv w h s st) :
    ∀ m p, towardMeasure w s p ≤ m → p < w * h → st.bestDist p = none →
      ∃ q, q < w * h ∧ st.cellOf q = none ∧ st.bestDist q ≠ none ∧
        bktOf w h s q ≤ bktOf w h s p := by
  intro m
  induction m with
  | zero =>
    intro p hm hp hbd
    have hne : p ≠ homeIdx w s := by
      intro he
      rw [he] at hbd
      exact hinv.home_touched hbd
    obtain ⟨q0, hadj, hmq, hdq⟩ := exists_toward w h s hw hx0 hx1 hy0 hy1 p hp hne
    exact absurd hm (by omega)
  | succ m ih =>
    intro p hm hp hbd
    have hne : p ≠ homeIdx w s := by
      intro he
      rw [he] at hbd
      exact hinv.home_touched hbd
    obtain ⟨q0, hadj, hmq, hdq⟩ := exists_toward w h s hw hx0 hx1 hy0 hy1 p hp hne
    have hq0lt : q0 < w * h := adj_lt w h p q0 hw hp hadj
    rcases hc : st.cellOf q0 with _ | i
    · rcases hbq : st.bestDist q0 with _ | v
      · obtain ⟨q, hq1, hq2, hq3, hq4⟩ := ih q0 (by omega) hq0lt hbq
        exact ⟨q, hq1, hq2, hq3, le_trans hq4 (bktOf_mono w h s hdq)⟩
      · refine ⟨q0, hq0lt, hc, ?_, bktOf_mono w h s hdq⟩
        rw [hbq]
        exact Option.some_ne_none v
    · exfalso
      have h1 : st.cellOf q0 ≠ none := by
        rw [hc]
        exact Option.some_ne_none i
      have h2 := hinv.assigned_nbrs q0 p h1 (adj_symm w h p q0 hw hp hadj)
      exact h2 hbd

/-- When every bucket between the cursor and `bkt` is empty, every unassigned
in-bounds pixel has its bucket at or after `bkt`. -/
theorem sinv_cursor_le (w h : ℕ) (s : ℚ × ℚ) (st : FloodState) (bkt : ℕ) (hw : 0 < w)
    (hx0 : 0 ≤ jsTrunc s.1) (hx1 : jsTrunc s.1 < (w : ℤ))
    (hy0 : 0 ≤ jsTrunc s.2) (hy1 : jsTrunc s.2 < (h : ℤ))
    (hinv : SingleInv w h s st)
    (hemp : ∀ x, st.cursor ≤ x → x < bkt → st.buckets x = []) :
    ∀ p, p < w * h → st.cellOf p = none → bkt ≤ bktOf w h s p := by
  intro p hp hc
  rcases hbd : st.bestDist p with _ | v
  · obtain ⟨q, hq1, hq2, hq3, hq4⟩ :=
      sinv_chain w h s st hw hx0 hx1 hy0 hy1 hinv (towardMeasure w s p) p (le_refl _) hp hbd
    obtain ⟨hmem, hcur⟩ := hinv.alive q hq1 hq3 hq2
    by_contra hlt
    push_neg at hlt
    have hqlt : bktOf w h s q < bkt := by omega
    have hnil := hemp (bktOf w h s q) hcur hqlt
    rw [hnil] at hmem
    exact absurd hmem (List.not_mem_nil _)
  · have hbd' : st.bestDist p ≠ none := by
      rw [hbd]
      exact Option.some_ne_none v
    obtain ⟨hmem, hcur⟩ := hinv.alive p hp hbd' hc
    by_contra hlt
    push_neg at hlt
    have hnil := hemp (bktOf w h s p) hcur hlt
    rw [hnil] at hmem
    exact absurd hmem (List.not_mem_nil _)

/-- Effect of one neighbour relaxation at the neighbour's exact distance:
the core invariant is preserved, the assignment and cursor are unchanged,
touched pixels stay touched, and the relaxed neighbour ends up touched. -/
theorem relax_pres (w h : ℕ) (s : ℚ × ℚ) (st : FloodState) (nidx : ℕ)
    (hw : 0 < w) (hcore : CoreInv w h s st) (hn : nidx < w * h)
    (hcur : st.cellOf nidx = none → st.cursor ≤ bktOf w h s nidx) :
    CoreInv w h s (relaxNeighbor (w * w + h * h) st nidx (pixDistSq w s nidx) 0) ∧
    (relaxNeighbor (w * w + h * h) st nidx (pixDistSq w s nidx) 0).cellOf = st.cellOf ∧
    (relaxNeighbor (w * w + h * h) st nidx (pixDistSq w s nidx) 0).cursor = st.cursor ∧
    (∀ q, st.bestDist q ≠ none →
      (relaxNeighbor (w * w + h * h) st nidx (pixDistSq w s nidx) 0).bestDist q ≠ none) ∧
    (relaxNeighbor (w * w + h * h) st nidx (pixDistSq w s nidx) 0).bestDist nidx ≠ none := by
  by_cases h1 : (st.cellOf nidx).isNone = true
  · by_cases h2 : ltInf (pixDistSq w s nidx) (st.bestDist nidx) = true
    · have hcell : st.cellOf nidx = none := Option.isNone_iff_eq_none.mp h1
      have hrw : relaxNeighbor (w * w + h * h) st nidx (pixDistSq w s nidx) 0 =
          { st with
            bestDist := updFn st.bestDist nidx (some (pixDistSq w s nidx)),
            buckets := updFn st.buckets (bktOf w h s nidx)
              ((nidx, 0) :: st.buckets (bktOf w h s nidx)) } := by
        unfold relaxNeighbor bucketPush
        rw [if_pos h1, if_pos h2]
        rfl
      rw [hrw]
      have hmono : ∀ q, st.bestDist q ≠ none →
          updFn st.bestDist nidx (some (pixDistSq w s nidx)) q ≠ none := by
        intro q hq
        by_cases hqn : q = nidx
        · subst hqn
          simp [updFn]
        · simp only [updFn, if_neg hqn]
          exact hq
      refine ⟨⟨?_, ?_, ?_, ?_, ?_, ?_⟩, rfl, rfl, hmono, ?_⟩
      · exact hcore.cell_site
      · intro p hpc
        exact hmono p (hcore.cell_touched p hpc)
      · intro p hpb
        by_cases hpn : p = nidx
        · subst hpn
          refine ⟨?_, hn⟩
          simp [updFn]
        · simp only [updFn, if_neg hpn] at hpb ⊢
          exact hcore.best_exact p hpb
      · intro c e he
        simp only [updFn] at he
        by_cases hcb : c = bktOf w h s nidx
        · rw [if_pos hcb] at he
          rcases List.mem_cons.mp he with rfl | he2
          · exact ⟨rfl, hn, by rw [hcb], by simp [updFn]⟩
          · obtain ⟨g1, g2, g3, g4⟩ := hcore.entries (bktOf w h s nidx) e he2
            exact ⟨g1, g2, by rw [hcb, g3], hmono e.1 g4⟩
        · rw [if_neg hcb] at he
          obtain ⟨g1, g2, g3, g4⟩ := hcore.entries c e he
          exact ⟨g1, g2, g3, hmono e.1 g4⟩
      · intro p hp hpb hpc
        by_cases hpn : p = nidx
        · subst hpn
          refine ⟨?_, hcur hcell⟩
          simp only [updFn, if_pos rfl]
          exact List.mem_cons_self _ _
        · simp only [updFn, if_neg hpn] at hpb
          obtain ⟨hmem, hcr⟩ := hcore.alive p hp hpb hpc
          refine ⟨?_, hcr⟩
          simp only [updFn]
          by_cases hcb : bktOf w h s p = bktOf w h s nidx
          · rw [if_pos hcb]
            rw [hcb] at hmem
            exact List.mem_cons_of_mem _ hmem
          · rw [if_neg hcb]
            exact hmem
      · exact hmono _ hcore.home_touched
      · simp [updFn]
    · have hrw : relaxNeighbor (w * w + h * h) st nidx (pixDistSq w s nidx) 0 = st := by
        unfold relaxNeighbor
        rw [if_pos h1, if_neg h2]
      rw [hrw]
      refine ⟨hcore, rfl, rfl, fun q hq => hq, ?_⟩
      rcases hb : st.bestDist nidx with _ | v
      · exfalso
        apply h2
        rw [hb]
        rfl
      · exact Option.some_ne_none v
  · have hrw : relaxNeighbor (w * w + h * h) st nidx (pixDistSq w s nidx) 0 = st := by
      unfold relaxNeighbor
      rw [if_neg h1]
    rw [hrw]
    have hsome : st.cellOf nidx ≠ none := by
      intro he
      apply h1
      rw [he]
      rfl
    exact ⟨hcore, rfl, rfl, fun q hq => hq, hcore.cell_touched nidx hsome⟩

/-- One guarded relaxation stage of `floodStep`, for an arbitrary guard and
an arbitrary distance that is the neighbour's exact distance whenever the
guard holds. -/
theorem relax_stage (w h : ℕ) (s : ℚ × ℚ) (st st' : FloodState) (nidx : ℕ) (d : ℚ)
    (c : Prop) [Decidable c]
    (hst' : st' = if c then relaxNeighbor (w * w + h * h) st nidx d 0 else st)
    (hw : 0 < w) (hcore : CoreInv w h s st)
    (hn : c → nidx < w * h) (hd : c → d = pixDistSq w s nidx)
    (hcur : c → st.cellOf nidx = none → st.cursor ≤ bktOf w h s nidx) :
    CoreInv w h s st' ∧ st'.cellOf = st.cellOf ∧ st'.cursor = st.cursor ∧
    (∀ q, st.bestDist q ≠ none → st'.bestDist q ≠ none) ∧
    (c → st'.bestDist nidx ≠ none) := by
  by_cases hc : c
  · rw [if_pos hc] at hst'
    rw [hd hc] at hst'
    subst hst'
    obtain ⟨g1, g2, g3, g4, g5⟩ := relax_pres w h s st nidx hw hcore (hn hc) (hcur hc)
    exact ⟨g1, g2, g3, g4, fun _ => g5⟩
  · rw [if_neg hc] at hst'
    subst hst'
    exact ⟨hcore, rfl, rfl, fun q hq => hq, fun hcc => absurd hcc hc⟩

/-- The four guarded relaxations of one flood iteration preserve the core
invariant, leave the assignment unchanged, keep touched pixels touched, and
touch every in-bounds 4-neighbour of the assigned pixel. -/
theorem relaxChain_pres (w h : ℕ) (s : ℚ × ℚ) (st2 : FloodState) (idx : ℕ)
    (hw : 0 < w) (hcore : CoreInv w h s st2) (hidx : idx < w * h)
    (hcur : ∀ q, Adj w h idx q → st2.cellOf q = none → st2.cursor ≤ bktOf w h s q) :
    CoreInv w h s (relaxChain w h (w * w + h * h) [s] st2 idx 0) ∧
    (relaxChain w h (w * w + h * h) [s] st2 idx 0).cellOf = st2.cellOf ∧
    (∀ q, st2.bestDist q ≠ none →
      (relaxChain w h (w * w + h * h) [s] st2 idx 0).bestDist q ≠ none) ∧
    (∀ q, Adj w h idx q →
      (relaxChain w h (w * w + h * h) [s] st2 idx 0).bestDist q ≠ none) := by
  have hmle := Nat.mod_le idx w
  have hdivle : 0 < idx / w → w ≤ idx := by
    intro hc
    have h1 : 1 * w ≤ (idx / w) * w := Nat.mul_le_mul_right w hc
    have h2 := key_recompose w idx
    omega
  have hrc : relaxChain w h (w * w + h * h) [s] st2 idx 0 = (if 0 < idx / w then relaxNeighbor (w * w + h * h) (if idx / w + 1 < h then relaxNeighbor (w * w + h * h) (if 0 < idx % w then relaxNeighbor (w * w + h * h) (if idx % w + 1 < w then relaxNeighbor (w * w + h * h) st2 (idx + 1) (((((idx % w : ℕ) : ℚ) + 1/2 - s.1) + 1) * ((((idx % w : ℕ) : ℚ) + 1/2 - s.1) + 1) + (((idx / w : ℕ) : ℚ) + 1/2 - s.2) * (((idx / w : ℕ) : ℚ) + 1/2 - s.2)) 0 else st2) (idx - 1) (((((idx % w : ℕ) : ℚ) + 1/2 - s.1) - 1) * ((((idx % w : ℕ) : ℚ) + 1/2 - s.1) - 1) + (((idx / w : ℕ) : ℚ) + 1/2 - s.2) * (((idx / w : ℕ) : ℚ) + 1/2 - s.2)) 0 else (if idx % w + 1 < w then relaxNeighbor (w * w + h * h) st2 (idx + 1) (((((idx % w : ℕ) : ℚ) + 1/2 - s.1) + 1) * ((((idx % w : ℕ) : ℚ) + 1/2 - s.1) + 1) + (((idx / w : ℕ) : ℚ) + 1/2 - s.2) * (((idx / w : ℕ) : ℚ) + 1/2 - s.2)) 0 else st2)) (idx + w) ((((idx % w : ℕ) : ℚ) + 1/2 - s.1) * (((idx % w : ℕ) : ℚ) + 1/2 - s.1) + ((((idx / w : ℕ) : ℚ) + 1/2 - s.2) + 1) * ((((idx / w : ℕ) : ℚ) + 1/2 - s.2) + 1)) 0 else (if 0 < idx % w then relaxNeighbor (w * w + h * h) (if idx % w + 1 < w then relaxNeighbor (w * w + h * h) st2 (idx + 1) (((((idx % w : ℕ) : ℚ) + 1/2 - s.1) + 1) * ((((idx % w : ℕ) : ℚ) + 1/2 - s.1) + 1) + (((idx / w : ℕ) : ℚ) + 1/2 - s.2) * (((idx / w : ℕ) : ℚ) + 1/2 - s.2)) 0 else st2) (idx - 1) (((((idx % w : ℕ) : ℚ) + 1/2 - s.1) - 1) * ((((idx % w : ℕ) : ℚ) + 1/2 - s.1) - 1) + (((idx / w : ℕ) : ℚ) + 1/2 - s.2) * (((idx / w : ℕ) : ℚ) + 1/2 - s.2)) 0 else (if idx % w + 1 < w then relaxNeighbor (w * w + h * h) st2 (idx + 1) (((((idx % w : ℕ) : ℚ) + 1/2 - s.1) + 1) * ((((idx % w : ℕ) : ℚ) + 1/2 - s.1) + 1) + (((idx / w : ℕ) : ℚ) + 1/2 - s.2) * (((idx / w : ℕ) : ℚ) + 1/2 - s.2)) 0 else st2))) (idx - w) ((((idx % w : ℕ) : ℚ) + 1/2 - s.1) * (((idx % w : ℕ) : ℚ) + 1/2 - s.1) + ((((idx / w : ℕ) : ℚ) + 1/2 - s.2) - 1) * ((((idx / w : ℕ) : ℚ) + 1/2 - s.2) - 1)) 0 else (if idx / w + 1 < h then relaxNeighbor (w * w + h * h) (if 0 < idx % w then relaxNeighbor (w * w + h * h) (if idx % w + 1 < w then relaxNeighbor (w * w + h * h) st2 (idx + 1) (((((idx % w : ℕ) : ℚ) + 1/2 - s.1) + 1) * ((((idx % w : ℕ) : ℚ) + 1/2 - s.1) + 1) + (((idx / w : ℕ) : ℚ) + 1/2 - s.2) * (((idx / w : ℕ) : ℚ) + 1/2 - s.2)) 0 else st2) (idx - 1) (((((idx % w : ℕ) : ℚ) + 1/2 - s.1) - 1) * ((((idx % w : ℕ) : ℚ) + 1/2 - s.1) - 1) + (((idx / w : ℕ) : ℚ) + 1/2 - s.2) * (((idx / w : ℕ) : ℚ) + 1/2 - s.2)) 0 else (if idx % w + 1 < w then relaxNeighbor (w * w + h * h) st2 (idx + 1) (((((idx % w : ℕ) : ℚ) + 1/2 - s.1) + 1) * ((((idx % w : ℕ) : ℚ) + 1/2 - s.1) + 1) + (((idx / w : ℕ) : ℚ) + 1/2 - s.2) * (((idx / w : ℕ) : ℚ) + 1/2 - s.2)) 0 else st2)) (idx + w) ((((idx % w : ℕ) : ℚ) + 1/2 - s.1) * (((idx % w : ℕ) : ℚ) + 1/2 - s.1) + ((((idx / w : ℕ) : ℚ) + 1/2 - s.2) + 1) * ((((idx / w : ℕ) : ℚ) + 1/2 - s.2) + 1)) 0 else (if 0 < idx % w then relaxNeighbor (w * w + h * h) (if idx % w + 1 < w then relaxNeighbor (w * w + h * h) st2 (idx + 1) (((((idx % w : ℕ) : ℚ) + 1/2 - s.1) + 1) * ((((idx % w : ℕ) : ℚ) + 1/2 - s.1) + 1) + (((idx / w : ℕ) : ℚ) + 1/2 - s.2) * (((idx / w : ℕ) : ℚ) + 1/2 - s.2)) 0 else st2) (idx - 1) (((((idx % w : ℕ) : ℚ) + 1/2 - s.1) - 1) * ((((idx % w : ℕ) : ℚ) + 1/2 - s.1) - 1) + (((idx / w : ℕ) : ℚ) + 1/2 - s.2) * (((idx / w : ℕ) : ℚ) + 1/2 - s.2)) 0 else (if idx % w + 1 < w then relaxNeighbor (w * w + h * h) st2 (idx + 1) (((((idx % w : ℕ) : ℚ) + 1/2 - s.1) + 1) * ((((idx % w : ℕ) : ℚ) + 1/2 - s.1) + 1) + (((idx / w : ℕ) : ℚ) + 1/2 - s.2) * (((idx / w : ℕ) : ℚ) + 1/2 - s.2)) 0 else st2)))) := rfl
  obtain ⟨C3, E3, U3, M3, T3⟩ := relax_stage w h s st2 (if idx % w + 1 < w then relaxNeighbor (w * w + h * h) st2 (idx + 1) (((((idx % w : ℕ) : ℚ) + 1/2 - s.1) + 1) * ((((idx % w : ℕ) : ℚ) + 1/2 - s.1) + 1) + (((idx / w : ℕ) : ℚ) + 1/2 - s.2) * (((idx / w : ℕ) : ℚ) + 1/2 - s.2)) 0 else st2) (idx + 1) (((((idx % w : ℕ) : ℚ) + 1/2 - s.1) + 1) * ((((idx % w : ℕ) : ℚ) + 1/2 - s.1) + 1) + (((idx / w : ℕ) : ℚ) + 1/2 - s.2) * (((idx / w : ℕ) : ℚ) + 1/2 - s.2))
    (idx % w + 1 < w) rfl hw hcore
    (fun hc => adj_lt w h idx (idx + 1) hw hidx (Or.inl ⟨rfl, hc⟩))
    (fun hc => (pixDistSq_right w s idx hw hc).symm)
    (fun hc => hcur (idx + 1) (Or.inl ⟨rfl, hc⟩))
  obtain ⟨C4, E4, U4, M4, T4⟩ := relax_stage w h s (if idx % w + 1 < w then relaxNeighbor (w * w + h * h) st2 (idx + 1) (((((idx % w : ℕ) : ℚ) + 1/2 - s.1) + 1) * ((((idx % w : ℕ) : ℚ) + 1/2 - s.1) + 1) + (((idx / w : ℕ) : ℚ) + 1/2 - s.2) * (((idx / w : ℕ) : ℚ) + 1/2 - s.2)) 0 else st2) (if 0 < idx % w then relaxNeighbor (w * w + h * h) (if idx % w + 1 < w then relaxNeighbor (w * w + h * h) st2 (idx + 1) (((((idx % w : ℕ) : ℚ) + 1/2 - s.1) + 1) * ((((idx % w : ℕ) : ℚ) + 1/2 - s.1) + 1) + (((idx / w : ℕ) : ℚ) + 1/2 - s.2) * (((idx / w : ℕ) : ℚ) + 1/2 - s.2)) 0 else st2) (idx - 1) (((((idx % w : ℕ) : ℚ) + 1/2 - s.1) - 1) * ((((idx % w : ℕ) : ℚ) + 1/2 - s.1) - 1) + (((idx / w : ℕ) : ℚ) + 1/2 - s.2) * (((idx / w : ℕ) : ℚ) + 1/2 - s.2)) 0 else (if idx % w + 1 < w then relaxNeighbor (w * w + h * h) st2 (idx + 1) (((((idx % w : ℕ) : ℚ) + 1/2 - s.1) + 1) * ((((idx % w : ℕ) : ℚ) + 1/2 - s.1) + 1) + (((idx / w : ℕ) : ℚ) + 1/2 - s.2) * (((idx / w : ℕ) : ℚ) + 1/2 - s.2)) 0 else st2)) (idx - 1) (((((idx % w : ℕ) : ℚ) + 1/2 - s.1) - 1) * ((((idx % w : ℕ) : ℚ) + 1/2 - s.1) - 1) + (((idx / w : ℕ) : ℚ) + 1/2 - s.2) * (((idx / w : ℕ) : ℚ) + 1/2 - s.2))
    (0 < idx % w) rfl hw C3
    (fun hc => adj_lt w h idx (idx - 1) hw hidx (Or.inr (Or.inl ⟨by omega, hc⟩)))
    (fun hc => (pixDistSq_left w s idx hw hc).symm)
    (fun hc hnone => by
      rw [E3] at hnone
      rw [U3]
      exact hcur (idx - 1) (Or.inr (Or.inl ⟨by omega, hc⟩)) hnone)
  obtain ⟨C5, E5, U5, M5, T5⟩ := relax_stage w h s (if 0 < idx % w then relaxNeighbor (w * w + h * h) (if idx % w + 1 < w then relaxNeighbor (w * w + h * h) st2 (idx + 1) (((((idx % w : ℕ) : ℚ) + 1/2 - s.1) + 1) * ((((idx % w : ℕ) : ℚ) + 1/2 - s.1) + 1) + (((idx / w : ℕ) : ℚ) + 1/2 - s.2) * (((idx / w : ℕ) : ℚ) + 1/2 - s.2)) 0 else st2) (idx - 1) (((((idx % w : ℕ) : ℚ) + 1/2 - s.1) - 1) * ((((idx % w : ℕ) : ℚ) + 1/2 - s.1) - 1) + (((idx / w : ℕ) : ℚ) + 1/2 - s.2) * (((idx / w : ℕ) : ℚ) + 1/2 - s.2)) 0 else (if idx % w + 1 < w then relaxNeighbor (w * w + h * h) st2 (idx + 1) (((((idx % w : ℕ) : ℚ) + 1/2 - s.1) + 1) * ((((idx % w : ℕ) : ℚ) + 1/2 - s.1) + 1) + (((idx / w : ℕ) : ℚ) + 1/2 - s.2) * (((idx / w : ℕ) : ℚ) + 1/2 - s.2)) 0 else st2)) (if idx / w + 1 < h then relaxNeighbor (w * w + h * h) (if 0 < idx % w then relaxNeighbor (w * w + h * h) (if idx % w + 1 < w then relaxNeighbor (w * w + h * h) st2 (idx + 1) (((((idx % w : ℕ) : ℚ) + 1/2 - s.1) + 1) * ((((idx % w : ℕ) : ℚ) + 1/2 - s.1) + 1) + (((idx / w : ℕ) : ℚ) + 1/2 - s.2) * (((idx / w : ℕ) : ℚ) + 1/2 - s.2)) 0 else st2) (idx - 1) (((((idx % w : ℕ) : ℚ) + 1/2 - s.1) - 1) * ((((idx % w : ℕ) : ℚ) + 1/2 - s.1) - 1) + (((idx / w : ℕ) : ℚ) + 1/2 - s.2) * (((idx / w : ℕ) : ℚ) + 1/2 - s.2)) 0 else (if idx % w + 1 < w then relaxNeighbor (w * w + h * h) st2 (idx + 1) (((((idx % w : ℕ) : ℚ) + 1/2 - s.1) + 1) * ((((idx % w : ℕ) : ℚ) + 1/2 - s.1) + 1) + (((idx / w : ℕ) : ℚ) + 1/2 - s.2) * (((idx / w : ℕ) : ℚ) + 1/2 - s.2)) 0 else st2)) (idx + w) ((((idx % w : ℕ) : ℚ) + 1/2 - s.1) * (((idx % w : ℕ) : ℚ) + 1/2 - s.1) + ((((idx / w : ℕ) : ℚ) + 1/2 - s.2) + 1) * ((((idx / w : ℕ) : ℚ) + 1/2 - s.2) + 1)) 0 else (if 0 < idx % w then relaxNeighbor (w * w + h * h) (if idx % w + 1 < w then relaxNeighbor (w * w + h * h) st2 (idx + 1) (((((idx % w : ℕ) : ℚ) + 1/2 - s.1) + 1) * ((((idx % w : ℕ) : ℚ) + 1/2 - s.1) + 1) + (((idx / w : ℕ) : ℚ) + 1/2 - s.2) * (((idx / w : ℕ) : ℚ) + 1/2 - s.2)) 0 else st2) (idx - 1) (((((idx % w : ℕ) : ℚ) + 1/2 - s.1) - 1) * ((((idx % w : ℕ) : ℚ) + 1/2 - s.1) - 1) + (((idx / w : ℕ) : ℚ) + 1/2 - s.2) * (((idx / w : ℕ) : ℚ) + 1/2 - s.2)) 0 else (if idx % w + 1 < w then relaxNeighbor (w * w + h * h) st2 (idx + 1) (((((idx % w : ℕ) : ℚ) + 1/2 - s.1) + 1) * ((((idx % w : ℕ) : ℚ) + 1/2 - s.1) + 1) + (((idx / w : ℕ) : ℚ) + 1/2 - s.2) * (((idx / w : ℕ) : ℚ) + 1/2 - s.2)) 0 else st2))) (idx + w) ((((idx % w : ℕ) : ℚ) + 1/2 - s.1) * (((idx % w : ℕ) : ℚ) + 1/2 - s.1) + ((((idx / w : ℕ) : ℚ) + 1/2 - s.2) + 1) * ((((idx / w : ℕ) : ℚ) + 1/2 - s.2) + 1))
    (idx / w + 1 < h) rfl hw C4
    (fun hc => adj_lt w h idx (idx + w) hw hidx (Or.inr (Or.inr (Or.inl ⟨rfl, hc⟩))))
    (fun _ => (pixDistSq_down w s idx hw).symm)
    (fun hc hnone => by
      rw [E4, E3] at hnone
      rw [U4, U3]
      exact hcur (idx + w) (Or.inr (Or.inr (Or.inl ⟨rfl, hc⟩))) hnone)
  obtain ⟨C6, E6, U6, M6, T6⟩ := relax_stage w h s (if idx / w + 1 < h then relaxNeighbor (w * w + h * h) (if 0 < idx % w then relaxNeighbor (w * w + h * h) (if idx % w + 1 < w then relaxNeighbor (w * w + h * h) st2 (idx + 1) (((((idx % w : ℕ) : ℚ) + 1/2 - s.1) + 1) * ((((idx % w : ℕ) : ℚ) + 1/2 - s.1) + 1) + (((idx / w : ℕ) : ℚ) + 1/2 - s.2) * (((idx / w : ℕ) : ℚ) + 1/2 - s.2)) 0 else st2) (idx - 1) (((((idx % w : ℕ) : ℚ) + 1/2 - s.1) - 1) * ((((idx % w : ℕ) : ℚ) + 1/2 - s.1) - 1) + (((idx / w : ℕ) : ℚ) + 1/2 - s.2) * (((idx / w : ℕ) : ℚ) + 1/2 - s.2)) 0 else (if idx % w + 1 < w then relaxNeighbor (w * w + h * h) st2 (idx + 1) (((((idx % w : ℕ) : ℚ) + 1/2 - s.1) + 1) * ((((idx % w : ℕ) : ℚ) + 1/2 - s.1) + 1) + (((idx / w : ℕ) : ℚ) + 1/2 - s.2) * (((idx / w : ℕ) : ℚ) + 1/2 - s.2)) 0 else st2)) (idx + w) ((((idx % w : ℕ) : ℚ) + 1/2 - s.1) * (((idx % w : ℕ) : ℚ) + 1/2 - s.1) + ((((idx / w : ℕ) : ℚ) + 1/2 - s.2) + 1) * ((((idx / w : ℕ) : ℚ) + 1/2 - s.2) + 1)) 0 else (if 0 < idx % w then relaxNeighbor (w * w + h * h) (if idx % w + 1 < w then relaxNeighbor (w * w + h * h) st2 (idx + 1) (((((idx % w : ℕ) : ℚ) + 1/2 - s.1) + 1) * ((((idx % w : ℕ) : ℚ) + 1/2 - s.1) + 1) + (((idx / w : ℕ) : ℚ) + 1/2 - s.2) * (((idx / w : ℕ) : ℚ) + 1/2 - s.2)) 0 else st2) (idx - 1) (((((idx % w : ℕ) : ℚ) + 1/2 - s.1) - 1) * ((((idx % w : ℕ) : ℚ) + 1/2 - s.1) - 1) + (((idx / w : ℕ) : ℚ) + 1/2 - s.2) * (((idx / w : ℕ) : ℚ) + 1/2 - s.2)) 0 else (if idx % w + 1 < w then relaxNeighbor (w * w + h * h) st2 (idx + 1) (((((idx % w : ℕ) : ℚ) + 1/2 - s.1) + 1) * ((((idx % w : ℕ) : ℚ) + 1/2 - s.1) + 1) + (((idx / w : ℕ) : ℚ) + 1/2 - s.2) * (((idx / w : ℕ) : ℚ) + 1/2 - s.2)) 0 else st2))) (if 0 < idx / w then relaxNeighbor (w * w + h * h) (if idx / w + 1 < h then relaxNeighbor (w * w + h * h) (if 0 < idx % w then relaxNeighbor (w * w + h * h) (if idx % w + 1 < w then relaxNeighbor (w * w + h * h) st2 (idx + 1) (((((idx % w : ℕ) : ℚ) + 1/2 - s.1) + 1) * ((((idx % w : ℕ) : ℚ) + 1/2 - s.1) + 1) + (((idx / w : ℕ) : ℚ) + 1/2 - s.2) * (((idx / w : ℕ) : ℚ) + 1/2 - s.2)) 0 else st2) (idx - 1) (((((idx % w : ℕ) : ℚ) + 1/2 - s.1) - 1) * ((((idx % w : ℕ) : ℚ) + 1/2 - s.1) - 1) + (((idx / w : ℕ) : ℚ) + 1/2 - s.2) * (((idx / w : ℕ) : ℚ) + 1/2 - s.2)) 0 else (if idx % w + 1 < w then relaxNeighbor (w * w + h * h) st2 (idx + 1) (((((idx % w : ℕ) : ℚ) + 1/2 - s.1) + 1) * ((((idx % w : ℕ) : ℚ) + 1/2 - s.1) + 1) + (((idx / w : ℕ) : ℚ) + 1/2 - s.2) * (((idx / w : ℕ) : ℚ) + 1/2 - s.2)) 0 else st2)) (idx + w) ((((idx % w : ℕ) : ℚ) + 1/2 - s.1) * (((idx % w : ℕ) : ℚ) + 1/2 - s.1) + ((((idx / w : ℕ) : ℚ) + 1/2 - s.2) + 1) * ((((idx / w : ℕ) : ℚ) + 1/2 - s.2) + 1)) 0 else (if 0 < idx % w then relaxNeighbor (w * w + h * h) (if idx % w + 1 < w then relaxNeighbor (w * w + h * h) st2 (idx + 1) (((((idx % w : ℕ) : ℚ) + 1/2 - s.1) + 1) * ((((idx % w : ℕ) : ℚ) + 1/2 - s.1) + 1) + (((idx / w : ℕ) : ℚ) + 1/2 - s.2) * (((idx / w : ℕ) : ℚ) + 1/2 - s.2)) 0 else st2) (idx - 1) (((((idx % w : ℕ) : ℚ) + 1/2 - s.1) - 1) * ((((idx % w : ℕ) : ℚ) + 1/2 - s.1) - 1) + (((idx / w : ℕ) : ℚ) + 1/2 - s.2) * (((idx / w : ℕ) : ℚ) + 1/2 - s.2)) 0 else (if idx % w + 1 < w then relaxNeighbor (w * w + h * h) st2 (idx + 1) (((((idx % w : ℕ) : ℚ) + 1/2 - s.1) + 1) * ((((idx % w : ℕ) : ℚ) + 1/2 - s.1) + 1) + (((idx / w : ℕ) : ℚ) + 1/2 - s.2) * (((idx / w : ℕ) : ℚ) + 1/2 - s.2)) 0 else st2))) (idx - w) ((((idx % w : ℕ) : ℚ) + 1/2 - s.1) * (((idx % w : ℕ) : ℚ) + 1/2 - s.1) + ((((idx / w : ℕ) : ℚ) + 1/2 - s.2) - 1) * ((((idx / w : ℕ) : ℚ) + 1/2 - s.2) - 1)) 0 else (if idx / w + 1 < h then relaxNeighbor (w * w + h * h) (if 0 < idx % w then relaxNeighbor (w * w + h * h) (if idx % w + 1 < w then relaxNeighbor (w * w + h * h) st2 (idx + 1) (((((idx % w : ℕ) : ℚ) + 1/2 - s.1) + 1) * ((((idx % w : ℕ) : ℚ) + 1/2 - s.1) + 1) + (((idx / w : ℕ) : ℚ) + 1/2 - s.2) * (((idx / w : ℕ) : ℚ) + 1/2 - s.2)) 0 else st2) (idx - 1) (((((idx % w : ℕ) : ℚ) + 1/2 - s.1) - 1) * ((((idx % w : ℕ) : ℚ) + 1/2 - s.1) - 1) + (((idx / w : ℕ) : ℚ) + 1/2 - s.2) * (((idx / w : ℕ) : ℚ) + 1/2 - s.2)) 0 else (if idx % w + 1 < w then relaxNeighbor (w * w + h * h) st2 (idx + 1) (((((idx % w : ℕ) : ℚ) + 1/2 - s.1) + 1) * ((((idx % w : ℕ) : ℚ) + 1/2 - s.1) + 1) + (((idx / w : ℕ) : ℚ) + 1/2 - s.2) * (((idx / w : ℕ) : ℚ) + 1/2 - s.2)) 0 else st2)) (idx + w) ((((idx % w : ℕ) : ℚ) + 1/2 - s.1) * (((idx % w : ℕ) : ℚ) + 1/2 - s.1) + ((((idx / w : ℕ) : ℚ) + 1/2 - s.2) + 1) * ((((idx / w : ℕ) : ℚ) + 1/2 - s.2) + 1)) 0 else (if 0 < idx % w then relaxNeighbor (w * w + h * h) (if idx % w + 1 < w then relaxNeighbor (w * w + h * h) st2 (idx + 1) (((((idx % w : ℕ) : ℚ) + 1/2 - s.1) + 1) * ((((idx % w : ℕ) : ℚ) + 1/2 - s.1) + 1) + (((idx / w : ℕ) : ℚ) + 1/2 - s.2) * (((idx / w : ℕ) : ℚ) + 1/2 - s.2)) 0 else st2) (idx - 1) (((((idx % w : ℕ) : ℚ) + 1/2 - s.1) - 1) * ((((idx % w : ℕ) : ℚ) + 1/2 - s.1) - 1) + (((idx / w : ℕ) : ℚ) + 1/2 - s.2) * (((idx / w : ℕ) : ℚ) + 1/2 - s.2)) 0 else (if idx % w + 1 < w then relaxNeighbor (w * w + h * h) st2 (idx + 1) (((((idx % w : ℕ) : ℚ) + 1/2 - s.1) + 1) * ((((idx % w : ℕ) : ℚ) + 1/2 - s.1) + 1) + (((idx / w : ℕ) : ℚ) + 1/2 - s.2) * (((idx / w : ℕ) : ℚ) + 1/2 - s.2)) 0 else st2)))) (idx - w) ((((idx % w : ℕ) : ℚ) + 1/2 - s.1) * (((idx % w : ℕ) : ℚ) + 1/2 - s.1) + ((((idx / w : ℕ) : ℚ) + 1/2 - s.2) - 1) * ((((idx / w : ℕ) : ℚ) + 1/2 - s.2) - 1))
    (0 < idx / w) rfl hw C5
    (fun hc => adj_lt w h idx (idx - w) hw hidx
      (Or.inr (Or.inr (Or.inr ⟨by have h9 := hdivle hc; omega, hc⟩))))
    (fun hc => (pixDistSq_up w s idx hw hc).symm)
    (fun hc hnone => by
      rw [E5, E4, E3] at hnone
      rw [U5, U4, U3]
      exact hcur (idx - w)
        (Or.inr (Or.inr (Or.inr ⟨by have h9 := hdivle hc; omega, hc⟩))) hnone)
  rw [hrc]
  refine ⟨C6, (E6.trans (E5.trans (E4.trans E3))), ?_, ?_⟩
  · exact fun q hq => M6 q (M5 q (M4 q (M3 q hq)))
  · intro q hadj
    rcases hadj with ⟨rfl, hc⟩ | ⟨hq1, hc⟩ | ⟨rfl, hc⟩ | ⟨hq1, hc⟩
    · exact M6 _ (M5 _ (M4 _ (T3 hc)))
    · have hq : q = idx - 1 := by omega
      subst hq
      exact M6 _ (M5 _ (T4 hc))
    · exact M6 _ (T5 hc)
    · have hq : q = idx - w := by
        have h9 := hdivle hc
        omega
      subst hq
      exact T6 hc

/-- One flood iteration preserves the single-site invariant. -/
theorem floodStep_pres (w h : ℕ) (s : ℚ × ℚ) (img : Image) (st st' : FloodState)
    (hw : 0 < w)
    (hx0 : 0 ≤ jsTrunc s.1) (hx1 : jsTrunc s.1 < (w : ℤ))
    (hy0 : 0 ≤ jsTrunc s.2) (hy1 : jsTrunc s.2 < (h : ℤ))
    (hinv : SingleInv w h s st)
    (hstep : floodStep w h (w * w + h * h) [s] img st = some st') :
    SingleInv w h s st' := by
  rcases hpop : bucketPop (w * w + h * h) st with _ | ⟨⟨idx, si⟩, st1⟩
  · unfold floodStep at hstep
    rw [hpop] at hstep
    simp at hstep
  · obtain ⟨bkt, rest, hbkt, hcurle, hbmax, hemp, hst1⟩ := bucketPop_eq_some _ _ _ _ hpop
    subst hst1
    have hhead : (idx, si) ∈ st.buckets bkt := by
      rw [hbkt]
      exact List.mem_cons_self _ _
    obtain ⟨hsi, hidxlt, hbktof, hbidx⟩ := hinv.entries bkt (idx, si) hhead
    dsimp only at hsi hbktof hbidx
    subst hsi
    have hcur0 : ∀ p, p < w * h → st.cellOf p = none → bkt ≤ bktOf w h s p :=
      sinv_cursor_le w h s st bkt hw hx0 hx1 hy0 hy1 hinv hemp
    by_cases hass : (st.cellOf idx).isSome = true
    · have hsA : floodStep w h (w * w + h * h) [s] img st =
          some { st with cursor := bkt, buckets := updFn st.buckets bkt rest } := by
        unfold floodStep
        rw [hpop]
        dsimp only
        rw [if_pos hass]
      rw [hsA] at hstep
      have he := Option.some.inj hstep
      subst he
      refine ⟨⟨hinv.cell_site, hinv.cell_touched, hinv.best_exact, ?_, ?_,
        hinv.home_touched⟩, hinv.assigned_nbrs⟩
      · intro c e he
        dsimp only at he
        simp only [updFn] at he
        by_cases hcb : c = bkt
        · rw [if_pos hcb] at he
          have he2 : e ∈ st.buckets bkt := by
            rw [hbkt]
            exact List.mem_cons_of_mem _ he
          obtain ⟨g1, g2, g3, g4⟩ := hinv.entries bkt e he2
          exact ⟨g1, g2, by rw [hcb]; exact g3, g4⟩
        · rw [if_neg hcb] at he
          exact hinv.entries c e he
      · intro p hp hpb hpc
        obtain ⟨hmem, _⟩ := hinv.alive p hp hpb hpc
        refine ⟨?_, hcur0 p hp hpc⟩
        show (p, 0) ∈ updFn st.buckets bkt rest (bktOf w h s p)
        simp only [updFn]
        by_cases hcb : bktOf w h s p = bkt
        · rw [if_pos hcb]
          rw [hcb, hbkt] at hmem
          rcases List.mem_cons.mp hmem with heq | hm2
          · exfalso
            injection heq with h1' h2'
            rw [h1'] at hpc
            rw [hpc] at hass
            simp at hass
          · exact hm2
        · rw [if_neg hcb]
          exact hmem
    · have hsB : floodStep w h (w * w + h * h) [s] img st =
          some (relaxChain w h (w * w + h * h) [s]
            (assignState img
              { st with cursor := bkt, buckets := updFn st.buckets bkt rest } idx 0)
            idx 0) := by
        unfold floodStep
        rw [hpop]
        dsimp only
        rw [if_neg hass]
      rw [hsB] at hstep
      have he := Option.some.inj hstep
      subst he
      have hC2 : CoreInv w h s (assignState img
          { st with cursor := bkt, buckets := updFn st.buckets bkt rest } idx 0) := by
        refine ⟨?_, ?_, hinv.best_exact, ?_, ?_, hinv.home_touched⟩
        · intro p i hpi
          dsimp only [assignState] at hpi
          simp only [updFn] at hpi
          by_cases hpn : p = idx
          · rw [if_pos hpn] at hpi
            have hi0 : i = 0 := by
              injection hpi with h1'
              exact h1'.symm
            subst hi0
            exact ⟨rfl, by rw [hpn]; exact hidxlt⟩
          · rw [if_neg hpn] at hpi
            exact hinv.cell_site p i hpi
        · intro p hpc
          dsimp only [assignState] at hpc ⊢
          simp only [updFn] at hpc
          by_cases hpn : p = idx
          · subst hpn
            exact hbidx
          · rw [if_neg hpn] at hpc
            exact hinv.cell_touched p hpc
        · intro c e he
          dsimp only [assignState] at he
          simp only [updFn] at he
          by_cases hcb : c = bkt
          · rw [if_pos hcb] at he
            have he2 : e ∈ st.buckets bkt := by
              rw [hbkt]
              exact List.mem_cons_of_mem _ he
            obtain ⟨g1, g2, g3, g4⟩ := hinv.entries bkt e he2
            exact ⟨g1, g2, by rw [hcb]; exact g3, g4⟩
          · rw [if_neg hcb] at he
            exact hinv.entries c e he
        · intro p hp hpb hpc
          dsimp only [assignState] at hpb hpc ⊢
          simp only [updFn] at hpc
          have hpn : p ≠ idx := by
            intro he'
            rw [if_pos he'] at hpc
            cases hpc
          rw [if_neg hpn] at hpc
          obtain ⟨hmem, _⟩ := hinv.alive p hp hpb hpc
          refine ⟨?_, hcur0 p hp hpc⟩
          simp only [updFn]
          by_cases hcb : bktOf w h s p = bkt
          · rw [if_pos hcb]
            rw [hcb, hbkt] at hmem
            rcases List.mem_cons.mp hmem with heq | hm2
            · exfalso
              injection heq with h1' h2'
              exact hpn h1'
            · exact hm2
          · rw [if_neg hcb]
            exact hmem
      have hcur2 : ∀ q, Adj w h idx q →
          (assignState img
            { st with cursor := bkt, buckets := updFn st.buckets bkt rest } idx 0).cellOf
              q = none →
          (assignState img
            { st with cursor := bkt, buckets := updFn st.buckets bkt rest } idx 0).cursor
            ≤ bktOf w h s q := by
        intro q hadj hqc
        dsimp only [assignState] at hqc ⊢
        simp only [updFn] at hqc
        have hqn : q ≠ idx := by
          intro he'
          rw [if_pos he'] at hqc
          cases hqc
        rw [if_neg hqn] at hqc
        exact hcur0 q (adj_lt w h idx q hw hidxlt hadj) hqc
      obtain ⟨CC, CE, CM, CT⟩ := relaxChain_pres w h s
        (assignState img
          { st with cursor := bkt, buckets := updFn st.buckets bkt rest } idx 0)
        idx hw hC2 hidxlt hcur2
      refine ⟨CC, ?_⟩
      intro p q hpc hadj
      rw [CE] at hpc
      by_cases hpn : p = idx
      · subst hpn
        exact CT q hadj
      · have hpc2 : st.cellOf p ≠ none := by
          dsimp only [assignState] at hpc
          simp only [updFn, if_neg hpn] at hpc
          exact hpc
        exact CM q (hinv.assigned_nbrs p q hpc2 hadj)

/-- `floodInit` on a single site with its home pixel in bounds establishes
the single-site invariant. -/
theorem floodInit_inv (w h : ℕ) (s : ℚ × ℚ) (hw : 0 < w)
    (hx0 : 0 ≤ jsTrunc s.1) (hx1 : jsTrunc s.1 < (w : ℤ))
    (hy0 : 0 ≤ jsTrunc s.2) (hy1 : jsTrunc s.2 < (h : ℤ)) :
    SingleInv w h s (floodInit w h (w * w + h * h) [s]) := by
  obtain ⟨hcm, hcd, hcl⟩ := homeIdx_coords w h s hw hx0 hx1 hy0 hy1
  have hDS : (((jsTrunc s.1 : ℚ) + 1/2 - s.1) * ((jsTrunc s.1 : ℚ) + 1/2 - s.1) + ((jsTrunc s.2 : ℚ) + 1/2 - s.2) * ((jsTrunc s.2 : ℚ) + 1/2 - s.2)) = pixDistSq w s (homeIdx w s) := by
    unfold pixDistSq
    rw [hcm, hcd]
    obtain ⟨a, ha⟩ := Int.eq_ofNat_of_zero_le hx0
    obtain ⟨b, hb⟩ := Int.eq_ofNat_of_zero_le hy0
    rw [ha, hb]
    push_cast [Int.toNat_natCast]
    ring
  have hfi : floodInit w h (w * w + h * h) [s] =
      { cellOf := fun _ => none,
        bestDist := updFn (fun _ => none) (homeIdx w s) (some (((jsTrunc s.1 : ℚ) + 1/2 - s.1) * ((jsTrunc s.1 : ℚ) + 1/2 - s.1) + ((jsTrunc s.2 : ℚ) + 1/2 - s.2) * ((jsTrunc s.2 : ℚ) + 1/2 - s.2))),
        buckets := updFn (fun _ => []) (min (⌊(((jsTrunc s.1 : ℚ) + 1/2 - s.1) * ((jsTrunc s.1 : ℚ) + 1/2 - s.1) + ((jsTrunc s.2 : ℚ) + 1/2 - s.2) * ((jsTrunc s.2 : ℚ) + 1/2 - s.2))⌋).toNat (w * w + h * h))
          [(homeIdx w s, 0)],
        cursor := 0,
        rSum := fun _ => 0, gSum := fun _ => 0, bSum := fun _ => 0,
        counts := fun _ => 0 } := by
    unfold floodInit
    rw [show ([s].enum) = [(0, s)] from rfl, List.foldl_cons, List.foldl_nil]
    dsimp only
    rw [if_pos (show 0 ≤ jsTrunc s.1 ∧ jsTrunc s.1 < (w : ℤ) ∧ 0 ≤ jsTrunc s.2 ∧
      jsTrunc s.2 < (h : ℤ) from ⟨hx0, hx1, hy0, hy1⟩)]
    rfl
  have hBK : min (⌊(((jsTrunc s.1 : ℚ) + 1/2 - s.1) * ((jsTrunc s.1 : ℚ) + 1/2 - s.1) + ((jsTrunc s.2 : ℚ) + 1/2 - s.2) * ((jsTrunc s.2 : ℚ) + 1/2 - s.2))⌋).toNat (w * w + h * h) = bktOf w h s (homeIdx w s) := by
    unfold bktOf
    rw [hDS]
  rw [hfi]
  refine ⟨⟨?_, ?_, ?_, ?_, ?_, ?_⟩, ?_⟩
  · intro p i hpi
    cases hpi
  · intro p hpc
    exact absurd rfl hpc
  · intro p hpb
    dsimp only at hpb ⊢
    simp only [updFn] at hpb ⊢
    by_cases hpn : p = homeIdx w s
    · rw [if_pos hpn] at hpb ⊢
      refine ⟨?_, by rw [hpn]; exact hcl⟩
      rw [hDS, hpn]
    · rw [if_neg hpn] at hpb
      exact absurd rfl hpb
  · intro c e he
    dsimp only at he
    simp only [updFn] at he
    by_cases hcb : c = min (⌊(((jsTrunc s.1 : ℚ) + 1/2 - s.1) * ((jsTrunc s.1 : ℚ) + 1/2 - s.1) + ((jsTrunc s.2 : ℚ) + 1/2 - s.2) * ((jsTrunc s.2 : ℚ) + 1/2 - s.2))⌋).toNat (w * w + h * h)
    · rw [if_pos hcb] at he
      rcases List.mem_cons.mp he with heq | hm2
      · subst heq
        refine ⟨rfl, hcl, ?_, ?_⟩
        · rw [hcb, hBK]
        · simp [updFn]
      · exact absurd hm2 (List.not_mem_nil _)
    · rw [if_neg hcb] at he
      exact absurd he (List.not_mem_nil _)
  · intro p hp hpb hpc
    dsimp only at hpb ⊢
    simp only [updFn] at hpb
    by_cases hpn : p = homeIdx w s
    · subst hpn
      constructor
      · simp only [updFn, ← hBK, if_pos rfl]
        exact List.mem_cons_self _ _
      · exact Nat.zero_le _
    · rw [if_neg hpn] at hpb
      exact absurd rfl hpb
  · dsimp only
    simp [updFn]
  · intro p q hpc _
    exact absurd rfl hpc

/-- Replacing one bucket changes the total queue size by the difference of
the two lists' lengths. -/
theorem sum_updFn_len (f : ℕ → List (ℕ × ℕ)) (n bkt : ℕ) (l : List (ℕ × ℕ))
    (hb : bkt < n) :
    ∑ b ∈ Finset.range n, (updFn f bkt l b).length + (f bkt).length
      = ∑ b ∈ Finset.range n, (f b).length + l.length := by
  have hmem : bkt ∈ Finset.range n := Finset.mem_range.mpr hb
  have h1 : ∑ b ∈ (Finset.range n).erase bkt, (updFn f bkt l b).length
        + (updFn f bkt l bkt).length
      = ∑ b ∈ Finset.range n, (updFn f bkt l b).length :=
    Finset.sum_erase_add _ _ hmem
  have h2 : ∑ b ∈ (Finset.range n).erase bkt, (f b).length + (f bkt).length
      = ∑ b ∈ Finset.range n, (f b).length :=
    Finset.sum_erase_add _ _ hmem
  have h3 : ∑ b ∈ (Finset.range n).erase bkt, (updFn f bkt l b).length
      = ∑ b ∈ (Finset.range n).erase bkt, (f b).length := by
    refine Finset.sum_congr rfl ?_
    intro x hx
    unfold updFn
    rw [if_neg (Finset.ne_of_mem_erase hx)]
  have h4 : updFn f bkt l bkt = l := by
    unfold updFn
    rw [if_pos rfl]
  rw [h4] at h1
  omega

/-- A push adds exactly one entry to the queue. -/
theorem qsize_bucketPush (maxB : ℕ) (st : FloodState) (d : ℚ) (pix site : ℕ) :
    qsize maxB (bucketPush maxB st d pix site) = qsize maxB st + 1 := by
  unfold bucketPush qsize
  dsimp only
  have hble : min (⌊d⌋).toNat maxB < maxB + 1 := by
    have := Nat.min_le_right (⌊d⌋).toNat maxB
    omega
  have hs := sum_updFn_len st.buckets (maxB + 1) (min (⌊d⌋).toNat maxB)
    ((pix, site) :: st.buckets (min (⌊d⌋).toNat maxB)) hble
  simp only [List.length_cons] at hs
  omega

/-- A relaxation pushes at most one entry. -/
theorem qsize_relax (maxB : ℕ) (st : FloodState) (nidx : ℕ) (d : ℚ) (i : ℕ) :
    qsize maxB (relaxNeighbor maxB st nidx d i) ≤ qsize maxB st + 1 := by
  unfold relaxNeighbor
  by_cases h1 : (st.cellOf nidx).isNone = true
  · rw [if_pos h1]
    by_cases h2 : ltInf d (st.bestDist nidx) = true
    · rw [if_pos h2]
      have hq := qsize_bucketPush maxB
        { st with bestDist := updFn st.bestDist nidx (some d) } d nidx i
      have hq2 : qsize maxB { st with bestDist := updFn st.bestDist nidx (some d) }
          = qsize maxB st := rfl
      omega
    · rw [if_neg h2]
      omega
  · rw [if_neg h1]
    omega

/-- A guarded relaxation pushes at most one entry. -/
theorem qsize_ite_relax (maxB : ℕ) (st : FloodState) (nidx : ℕ) (d : ℚ) (i : ℕ)
    (c : Prop) [Decidable c] :
    qsize maxB (if c then relaxNeighbor maxB st nidx d i else st) ≤ qsize maxB st + 1 := by
  by_cases hc : c
  · rw [if_pos hc]
    exact qsize_relax maxB st nidx d i
  · rw [if_neg hc]
    omega

/-- A relaxation never assigns a pixel. -/
theorem relax_cellOf (maxB : ℕ) (st : FloodState) (nidx : ℕ) (d : ℚ) (i : ℕ) :
    (relaxNeighbor maxB st nidx d i).cellOf = st.cellOf := by
  unfold relaxNeighbor bucketPush
  by_cases h1 : (st.cellOf nidx).isNone = true
  · rw [if_pos h1]
    by_cases h2 : ltInf d (st.bestDist nidx) = true
    · rw [if_pos h2]
    · rw [if_neg h2]
  · rw [if_neg h1]

/-- A guarded relaxation never assigns a pixel. -/
theorem cellOf_ite_relax (maxB : ℕ) (st : FloodState) (nidx : ℕ) (d : ℚ) (i : ℕ)
    (c : Prop) [Decidable c] :
    (if c then relaxNeighbor maxB st nidx d i else st).cellOf = st.cellOf := by
  by_cases hc : c
  · rw [if_pos hc]
    exact relax_cellOf maxB st nidx d i
  · rw [if_neg hc]

/-- The whole relaxation chain pushes at most four entries. -/
theorem qsize_relaxChain (width height maxB : ℕ) (sites : List (ℚ × ℚ))
    (st2 : FloodState) (idx siteIdx : ℕ) :
    qsize maxB (relaxChain width height maxB sites st2 idx siteIdx)
      ≤ qsize maxB st2 + 4 := by
  have hrc : relaxChain width height maxB sites st2 idx siteIdx = (if 0 < idx / width then relaxNeighbor maxB (if idx / width + 1 < height then relaxNeighbor maxB (if 0 < idx % width then relaxNeighbor maxB (if idx % width + 1 < width then relaxNeighbor maxB st2 (idx + 1) (((((idx % width : ℕ) : ℚ) + 1/2 - (sites.getD siteIdx (0, 0)).1) + 1) * ((((idx % width : ℕ) : ℚ) + 1/2 - (sites.getD siteIdx (0, 0)).1) + 1) + (((idx / width : ℕ) : ℚ) + 1/2 - (sites.getD siteIdx (0, 0)).2) * (((idx / width : ℕ) : ℚ) + 1/2 - (sites.getD siteIdx (0, 0)).2)) siteIdx else st2) (idx - 1) (((((idx % width : ℕ) : ℚ) + 1/2 - (sites.getD siteIdx (0, 0)).1) - 1) * ((((idx % width : ℕ) : ℚ) + 1/2 - (sites.getD siteIdx (0, 0)).1) - 1) + (((idx / width : ℕ) : ℚ) + 1/2 - (sites.getD siteIdx (0, 0)).2) * (((idx / width : ℕ) : ℚ) + 1/2 - (sites.getD siteIdx (0, 0)).2)) siteIdx else (if idx % width + 1 < width then relaxNeighbor maxB st2 (idx + 1) (((((idx % width : ℕ) : ℚ) + 1/2 - (sites.getD siteIdx (0, 0)).1) + 1) * ((((idx % width : ℕ) : ℚ) + 1/2 - (sites.getD siteIdx (0, 0)).1) + 1) + (((idx / width : ℕ) : ℚ) + 1/2 - (sites.getD siteIdx (0, 0)).2) * (((idx / width : ℕ) : ℚ) + 1/2 - (sites.getD siteIdx (0, 0)).2)) siteIdx else st2)) (idx + width) ((((idx % width : ℕ) : ℚ) + 1/2 - (sites.getD siteIdx (0, 0)).1) * (((idx % width : ℕ) : ℚ) + 1/2 - (sites.getD siteIdx (0, 0)).1) + ((((idx / width : ℕ) : ℚ) + 1/2 - (sites.getD siteIdx (0, 0)).2) + 1) * ((((idx / width : ℕ) : ℚ) + 1/2 - (sites.getD siteIdx (0, 0)).2) + 1)) siteIdx else (if 0 < idx % width then relaxNeighbor maxB (if idx % width + 1 < width then relaxNeighbor maxB st2 (idx + 1) (((((idx % width : ℕ) : ℚ) + 1/2 - (sites.getD siteIdx (0, 0)).1) + 1) * ((((idx % width : ℕ) : ℚ) + 1/2 - (sites.getD siteIdx (0, 0)).1) + 1) + (((idx / width : ℕ) : ℚ) + 1/2 - (sites.getD siteIdx (0, 0)).2) * (((idx / width : ℕ) : ℚ) + 1/2 - (sites.getD siteIdx (0, 0)).2)) siteIdx else st2) (idx - 1) (((((idx % width : ℕ) : ℚ) + 1/2 - (sites.getD siteIdx (0, 0)).1) - 1) * ((((idx % width : ℕ) : ℚ) + 1/2 - (sites.getD siteIdx (0, 0)).1) - 1) + (((idx / width : ℕ) : ℚ) + 1/2 - (sites.getD siteIdx (0, 0)).2) * (((idx / width : ℕ) : ℚ) + 1/2 - (sites.getD siteIdx (0, 0)).2)) siteIdx else (if idx % width + 1 < width then relaxNeighbor maxB st2 (idx + 1) (((((idx % width : ℕ) : ℚ) + 1/2 - (sites.getD siteIdx (0, 0)).1) + 1) * ((((idx % width : ℕ) : ℚ) + 1/2 - (sites.getD siteIdx (0, 0)).1) + 1) + (((idx / width : ℕ) : ℚ) + 1/2 - (sites.getD siteIdx (0, 0)).2) * (((idx / width : ℕ) : ℚ) + 1/2 - (sites.getD siteIdx (0, 0)).2)) siteIdx else st2))) (idx - width) ((((idx % width : ℕ) : ℚ) + 1/2 - (sites.getD siteIdx (0, 0)).1) * (((idx % width : ℕ) : ℚ) + 1/2 - (sites.getD siteIdx (0, 0)).1) + ((((idx / width : ℕ) : ℚ) + 1/2 - (sites.getD siteIdx (0, 0)).2) - 1) * ((((idx / width : ℕ) : ℚ) + 1/2 - (sites.getD siteIdx (0, 0)).2) - 1)) siteIdx else (if idx / width + 1 < height then relaxNeighbor maxB (if 0 < idx % width then relaxNeighbor maxB (if idx % width + 1 < width then relaxNeighbor maxB st2 (idx + 1) (((((idx % width : ℕ) : ℚ) + 1/2 - (sites.getD siteIdx (0, 0)).1) + 1) * ((((idx % width : ℕ) : ℚ) + 1/2 - (sites.getD siteIdx (0, 0)).1) + 1) + (((idx / width : ℕ) : ℚ) + 1/2 - (sites.getD siteIdx (0, 0)).2) * (((idx / width : ℕ) : ℚ) + 1/2 - (sites.getD siteIdx (0, 0)).2)) siteIdx else st2) (idx - 1) (((((idx % width : ℕ) : ℚ) + 1/2 - (sites.getD siteIdx (0, 0)).1) - 1) * ((((idx % width : ℕ) : ℚ) + 1/2 - (sites.getD siteIdx (0, 0)).1) - 1) + (((idx / width : ℕ) : ℚ) + 1/2 - (sites.getD siteIdx (0, 0)).2) * (((idx / width : ℕ) : ℚ) + 1/2 - (sites.getD siteIdx (0, 0)).2)) siteIdx else (if idx % width + 1 < width then relaxNeighbor maxB st2 (idx + 1) (((((idx % width : ℕ) : ℚ) + 1/2 - (sites.getD siteIdx (0, 0)).1) + 1) * ((((idx % width : ℕ) : ℚ) + 1/2 - (sites.getD siteIdx (0, 0)).1) + 1) + (((idx / width : ℕ) : ℚ) + 1/2 - (sites.getD siteIdx (0, 0)).2) * (((idx / width : ℕ) : ℚ) + 1/2 - (sites.getD siteIdx (0, 0)).2)) siteIdx else st2)) (idx + width) ((((idx % width : ℕ) : ℚ) + 1/2 - (sites.getD siteIdx (0, 0)).1) * (((idx % width : ℕ) : ℚ) + 1/2 - (sites.getD siteIdx (0, 0)).1) + ((((idx / width : ℕ) : ℚ) + 1/2 - (sites.getD siteIdx (0, 0)).2) + 1) * ((((idx / width : ℕ) : ℚ) + 1/2 - (sites.getD siteIdx (0, 0)).2) + 1)) siteIdx else (if 0 < idx % width then relaxNeighbor maxB (if idx % width + 1 < width then relaxNeighbor maxB st2 (idx + 1) (((((idx % width : ℕ) : ℚ) + 1/2 - (sites.getD siteIdx (0, 0)).1) + 1) * ((((idx % width : ℕ) : ℚ) + 1/2 - (sites.getD siteIdx (0, 0)).1) + 1) + (((idx / width : ℕ) : ℚ) + 1/2 - (sites.getD siteIdx (0, 0)).2) * (((idx / width : ℕ) : ℚ) + 1/2 - (sites.getD siteIdx (0, 0)).2)) siteIdx else st2) (idx - 1) (((((idx % width : ℕ) : ℚ) + 1/2 - (sites.getD siteIdx (0, 0)).1) - 1) * ((((idx % width : ℕ) : ℚ) + 1/2 - (sites.getD siteIdx (0, 0)).1) - 1) + (((idx / width : ℕ) : ℚ) + 1/2 - (sites.getD siteIdx (0, 0)).2) * (((idx / width : ℕ) : ℚ) + 1/2 - (sites.getD siteIdx (0, 0)).2)) siteIdx else (if idx % width + 1 < width then relaxNeighbor maxB st2 (idx + 1) (((((idx % width : ℕ) : ℚ) + 1/2 - (sites.getD siteIdx (0, 0)).1) + 1) * ((((idx % width : ℕ) : ℚ) + 1/2 - (sites.getD siteIdx (0, 0)).1) + 1) + (((idx / width : ℕ) : ℚ) + 1/2 - (sites.getD siteIdx (0, 0)).2) * (((idx / width : ℕ) : ℚ) + 1/2 - (sites.getD siteIdx (0, 0)).2)) siteIdx else st2)))) := rfl
  rw [hrc]
  have g3 := qsize_ite_relax maxB st2 (idx + 1) (((((idx % width : ℕ) : ℚ) + 1/2 - (sites.getD siteIdx (0, 0)).1) + 1) * ((((idx % width : ℕ) : ℚ) + 1/2 - (sites.getD siteIdx (0, 0)).1) + 1) + (((idx / width : ℕ) : ℚ) + 1/2 - (sites.getD siteIdx (0, 0)).2) * (((idx / width : ℕ) : ℚ) + 1/2 - (sites.getD siteIdx (0, 0)).2)) siteIdx (idx % width + 1 < width)
  have g4 := qsize_ite_relax maxB (if idx % width + 1 < width then relaxNeighbor maxB st2 (idx + 1) (((((idx % width : ℕ) : ℚ) + 1/2 - (sites.getD siteIdx (0, 0)).1) + 1) * ((((idx % width : ℕ) : ℚ) + 1/2 - (sites.getD siteIdx (0, 0)).1) + 1) + (((idx / width : ℕ) : ℚ) + 1/2 - (sites.getD siteIdx (0, 0)).2) * (((idx / width : ℕ) : ℚ) + 1/2 - (sites.getD siteIdx (0, 0)).2)) siteIdx else st2) (idx - 1) (((((idx % width : ℕ) : ℚ) + 1/2 - (sites.getD siteIdx (0, 0)).1) - 1) * ((((idx % width : ℕ) : ℚ) + 1/2 - (sites.getD siteIdx (0, 0)).1) - 1) + (((idx / width : ℕ) : ℚ) + 1/2 - (sites.getD siteIdx (0, 0)).2) * (((idx / width : ℕ) : ℚ) + 1/2 - (sites.getD siteIdx (0, 0)).2)) siteIdx (0 < idx % width)
  have g5 := qsize_ite_relax maxB (if 0 < idx % width then relaxNeighbor maxB (if idx % width + 1 < width then relaxNeighbor maxB st2 (idx + 1) (((((idx % width : ℕ) : ℚ) + 1/2 - (sites.getD siteIdx (0, 0)).1) + 1) * ((((idx % width : ℕ) : ℚ) + 1/2 - (sites.getD siteIdx (0, 0)).1) + 1) + (((idx / width : ℕ) : ℚ) + 1/2 - (sites.getD siteIdx (0, 0)).2) * (((idx / width : ℕ) : ℚ) + 1/2 - (sites.getD siteIdx (0, 0)).2)) siteIdx else st2) (idx - 1) (((((idx % width : ℕ) : ℚ) + 1/2 - (sites.getD siteIdx (0, 0)).1) - 1) * ((((idx % width : ℕ) : ℚ) + 1/2 - (sites.getD siteIdx (0, 0)).1) - 1) + (((idx / width : ℕ) : ℚ) + 1/2 - (sites.getD siteIdx (0, 0)).2) * (((idx / width : ℕ) : ℚ) + 1/2 - (sites.getD siteIdx (0, 0)).2)) siteIdx else (if idx % width + 1 < width then relaxNeighbor maxB st2 (idx + 1) (((((idx % width : ℕ) : ℚ) + 1/2 - (sites.getD siteIdx (0, 0)).1) + 1) * ((((idx % width : ℕ) : ℚ) + 1/2 - (sites.getD siteIdx (0, 0)).1) + 1) + (((idx / width : ℕ) : ℚ) + 1/2 - (sites.getD siteIdx (0, 0)).2) * (((idx / width : ℕ) : ℚ) + 1/2 - (sites.getD siteIdx (0, 0)).2)) siteIdx else st2)) (idx + width) ((((idx % width : ℕ) : ℚ) + 1/2 - (sites.getD siteIdx (0, 0)).1) * (((idx % width : ℕ) : ℚ) + 1/2 - (sites.getD siteIdx (0, 0)).1) + ((((idx / width : ℕ) : ℚ) + 1/2 - (sites.getD siteIdx (0, 0)).2) + 1) * ((((idx / width : ℕ) : ℚ) + 1/2 - (sites.getD siteIdx (0, 0)).2) + 1)) siteIdx
    (idx / width + 1 < height)
  have g6 := qsize_ite_relax maxB (if idx / width + 1 < height then relaxNeighbor maxB (if 0 < idx % width then relaxNeighbor maxB (if idx % width + 1 < width then relaxNeighbor maxB st2 (idx + 1) (((((idx % width : ℕ) : ℚ) + 1/2 - (sites.getD siteIdx (0, 0)).1) + 1) * ((((idx % width : ℕ) : ℚ) + 1/2 - (sites.getD siteIdx (0, 0)).1) + 1) + (((idx / width : ℕ) : ℚ) + 1/2 - (sites.getD siteIdx (0, 0)).2) * (((idx / width : ℕ) : ℚ) + 1/2 - (sites.getD siteIdx (0, 0)).2)) siteIdx else st2) (idx - 1) (((((idx % width : ℕ) : ℚ) + 1/2 - (sites.getD siteIdx (0, 0)).1) - 1) * ((((idx % width : ℕ) : ℚ) + 1/2 - (sites.getD siteIdx (0, 0)).1) - 1) + (((idx / width : ℕ) : ℚ) + 1/2 - (sites.getD siteIdx (0, 0)).2) * (((idx / width : ℕ) : ℚ) + 1/2 - (sites.getD siteIdx (0, 0)).2)) siteIdx else (if idx % width + 1 < width then relaxNeighbor maxB st2 (idx + 1) (((((idx % width : ℕ) : ℚ) + 1/2 - (sites.getD siteIdx (0, 0)).1) + 1) * ((((idx % width : ℕ) : ℚ) + 1/2 - (sites.getD siteIdx (0, 0)).1) + 1) + (((idx / width : ℕ) : ℚ) + 1/2 - (sites.getD siteIdx (0, 0)).2) * (((idx / width : ℕ) : ℚ) + 1/2 - (sites.getD siteIdx (0, 0)).2)) siteIdx else st2)) (idx + width) ((((idx % width : ℕ) : ℚ) + 1/2 - (sites.getD siteIdx (0, 0)).1) * (((idx % width : ℕ) : ℚ) + 1/2 - (sites.getD siteIdx (0, 0)).1) + ((((idx / width : ℕ) : ℚ) + 1/2 - (sites.getD siteIdx (0, 0)).2) + 1) * ((((idx / width : ℕ) : ℚ) + 1/2 - (sites.getD siteIdx (0, 0)).2) + 1)) siteIdx else (if 0 < idx % width then relaxNeighbor maxB (if idx % width + 1 < width then relaxNeighbor maxB st2 (idx + 1) (((((idx % width : ℕ) : ℚ) + 1/2 - (sites.getD siteIdx (0, 0)).1) + 1) * ((((idx % width : ℕ) : ℚ) + 1/2 - (sites.getD siteIdx (0, 0)).1) + 1) + (((idx / width : ℕ) : ℚ) + 1/2 - (sites.getD siteIdx (0, 0)).2) * (((idx / width : ℕ) : ℚ) + 1/2 - (sites.getD siteIdx (0, 0)).2)) siteIdx else st2) (idx - 1) (((((idx % width : ℕ) : ℚ) + 1/2 - (sites.getD siteIdx (0, 0)).1) - 1) * ((((idx % width : ℕ) : ℚ) + 1/2 - (sites.getD siteIdx (0, 0)).1) - 1) + (((idx / width : ℕ) : ℚ) + 1/2 - (sites.getD siteIdx (0, 0)).2) * (((idx / width : ℕ) : ℚ) + 1/2 - (sites.getD siteIdx (0, 0)).2)) siteIdx else (if idx % width + 1 < width then relaxNeighbor maxB st2 (idx + 1) (((((idx % width : ℕ) : ℚ) + 1/2 - (sites.getD siteIdx (0, 0)).1) + 1) * ((((idx % width : ℕ) : ℚ) + 1/2 - (sites.getD siteIdx (0, 0)).1) + 1) + (((idx / width : ℕ) : ℚ) + 1/2 - (sites.getD siteIdx (0, 0)).2) * (((idx / width : ℕ) : ℚ) + 1/2 - (sites.getD siteIdx (0, 0)).2)) siteIdx else st2))) (idx - width) ((((idx % width : ℕ) : ℚ) + 1/2 - (sites.getD siteIdx (0, 0)).1) * (((idx % width : ℕ) : ℚ) + 1/2 - (sites.getD siteIdx (0, 0)).1) + ((((idx / width : ℕ) : ℚ) + 1/2 - (sites.getD siteIdx (0, 0)).2) - 1) * ((((idx / width : ℕ) : ℚ) + 1/2 - (sites.getD siteIdx (0, 0)).2) - 1)) siteIdx (0 < idx / width)
  omega

/-- The whole relaxation chain never assigns a pixel. -/
theorem cellOf_relaxChain (width height maxB : ℕ) (sites : List (ℚ × ℚ))
    (st2 : FloodState) (idx siteIdx : ℕ) :
    (relaxChain width height maxB sites st2 idx siteIdx).cellOf = st2.cellOf := by
  have hrc : relaxChain width height maxB sites st2 idx siteIdx = (if 0 < idx / width then relaxNeighbor maxB (if idx / width + 1 < height then relaxNeighbor maxB (if 0 < idx % width then relaxNeighbor maxB (if idx % width + 1 < width then relaxNeighbor maxB st2 (idx + 1) (((((idx % width : ℕ) : ℚ) + 1/2 - (sites.getD siteIdx (0, 0)).1) + 1) * ((((idx % width : ℕ) : ℚ) + 1/2 - (sites.getD siteIdx (0, 0)).1) + 1) + (((idx / width : ℕ) : ℚ) + 1/2 - (sites.getD siteIdx (0, 0)).2) * (((idx / width : ℕ) : ℚ) + 1/2 - (sites.getD siteIdx (0, 0)).2)) siteIdx else st2) (idx - 1) (((((idx % width : ℕ) : ℚ) + 1/2 - (sites.getD siteIdx (0, 0)).1) - 1) * ((((idx % width : ℕ) : ℚ) + 1/2 - (sites.getD siteIdx (0, 0)).1) - 1) + (((idx / width : ℕ) : ℚ) + 1/2 - (sites.getD siteIdx (0, 0)).2) * (((idx / width : ℕ) : ℚ) + 1/2 - (sites.getD siteIdx (0, 0)).2)) siteIdx else (if idx % width + 1 < width then relaxNeighbor maxB st2 (idx + 1) (((((idx % width : ℕ) : ℚ) + 1/2 - (sites.getD siteIdx (0, 0)).1) + 1) * ((((idx % width : ℕ) : ℚ) + 1/2 - (sites.getD siteIdx (0, 0)).1) + 1) + (((idx / width : ℕ) : ℚ) + 1/2 - (sites.getD siteIdx (0, 0)).2) * (((idx / width : ℕ) : ℚ) + 1/2 - (sites.getD siteIdx (0, 0)).2)) siteIdx else st2)) (idx + width) ((((idx % width : ℕ) : ℚ) + 1/2 - (sites.getD siteIdx (0, 0)).1) * (((idx % width : ℕ) : ℚ) + 1/2 - (sites.getD siteIdx (0, 0)).1) + ((((idx / width : ℕ) : ℚ) + 1/2 - (sites.getD siteIdx (0, 0)).2) + 1) * ((((idx / width : ℕ) : ℚ) + 1/2 - (sites.getD siteIdx (0, 0)).2) + 1)) siteIdx else (if 0 < idx % width then relaxNeighbor maxB (if idx % width + 1 < width then relaxNeighbor maxB st2 (idx + 1) (((((idx % width : ℕ) : ℚ) + 1/2 - (sites.getD siteIdx (0, 0)).1) + 1) * ((((idx % width : ℕ) : ℚ) + 1/2 - (sites.getD siteIdx (0, 0)).1) + 1) + (((idx / width : ℕ) : ℚ) + 1/2 - (sites.getD siteIdx (0, 0)).2) * (((idx / width : ℕ) : ℚ) + 1/2 - (sites.getD siteIdx (0, 0)).2)) siteIdx else st2) (idx - 1) (((((idx % width : ℕ) : ℚ) + 1/2 - (sites.getD siteIdx (0, 0)).1) - 1) * ((((idx % width : ℕ) : ℚ) + 1/2 - (sites.getD siteIdx (0, 0)).1) - 1) + (((idx / width : ℕ) : ℚ) + 1/2 - (sites.getD siteIdx (0, 0)).2) * (((idx / width : ℕ) : ℚ) + 1/2 - (sites.getD siteIdx (0, 0)).2)) siteIdx else (if idx % width + 1 < width then relaxNeighbor maxB st2 (idx + 1) (((((idx % width : ℕ) : ℚ) + 1/2 - (sites.getD siteIdx (0, 0)).1) + 1) * ((((idx % width : ℕ) : ℚ) + 1/2 - (sites.getD siteIdx (0, 0)).1) + 1) + (((idx / width : ℕ) : ℚ) + 1/2 - (sites.getD siteIdx (0, 0)).2) * (((idx / width : ℕ) : ℚ) + 1/2 - (sites.getD siteIdx (0, 0)).2)) siteIdx else st2))) (idx - width) ((((idx % width : ℕ) : ℚ) + 1/2 - (sites.getD siteIdx (0, 0)).1) * (((idx % width : ℕ) : ℚ) + 1/2 - (sites.getD siteIdx (0, 0)).1) + ((((idx / width : ℕ) : ℚ) + 1/2 - (sites.getD siteIdx (0, 0)).2) - 1) * ((((idx / width : ℕ) : ℚ) + 1/2 - (sites.getD siteIdx (0, 0)).2) - 1)) siteIdx else (if idx / width + 1 < height then relaxNeighbor maxB (if 0 < idx % width then relaxNeighbor maxB (if idx % width + 1 < width then relaxNeighbor maxB st2 (idx + 1) (((((idx % width : ℕ) : ℚ) + 1/2 - (sites.getD siteIdx (0, 0)).1) + 1) * ((((idx % width : ℕ) : ℚ) + 1/2 - (sites.getD siteIdx (0, 0)).1) + 1) + (((idx / width : ℕ) : ℚ) + 1/2 - (sites.getD siteIdx (0, 0)).2) * (((idx / width : ℕ) : ℚ) + 1/2 - (sites.getD siteIdx (0, 0)).2)) siteIdx else st2) (idx - 1) (((((idx % width : ℕ) : ℚ) + 1/2 - (sites.getD siteIdx (0, 0)).1) - 1) * ((((idx % width : ℕ) : ℚ) + 1/2 - (sites.getD siteIdx (0, 0)).1) - 1) + (((idx / width : ℕ) : ℚ) + 1/2 - (sites.getD siteIdx (0, 0)).2) * (((idx / width : ℕ) : ℚ) + 1/2 - (sites.getD siteIdx (0, 0)).2)) siteIdx else (if idx % width + 1 < width then relaxNeighbor maxB st2 (idx + 1) (((((idx % width : ℕ) : ℚ) + 1/2 - (sites.getD siteIdx (0, 0)).1) + 1) * ((((idx % width : ℕ) : ℚ) + 1/2 - (sites.getD siteIdx (0, 0)).1) + 1) + (((idx / width : ℕ) : ℚ) + 1/2 - (sites.getD siteIdx (0, 0)).2) * (((idx / width : ℕ) : ℚ) + 1/2 - (sites.getD siteIdx (0, 0)).2)) siteIdx else st2)) (idx + width) ((((idx % width : ℕ) : ℚ) + 1/2 - (sites.getD siteIdx (0, 0)).1) * (((idx % width : ℕ) : ℚ) + 1/2 - (sites.getD siteIdx (0, 0)).1) + ((((idx / width : ℕ) : ℚ) + 1/2 - (sites.getD siteIdx (0, 0)).2) + 1) * ((((idx / width : ℕ) : ℚ) + 1/2 - (sites.getD siteIdx (0, 0)).2) + 1)) siteIdx else (if 0 < idx % width then relaxNeighbor maxB (if idx % width + 1 < width then relaxNeighbor maxB st2 (idx + 1) (((((idx % width : ℕ) : ℚ) + 1/2 - (sites.getD siteIdx (0, 0)).1) + 1) * ((((idx % width : ℕ) : ℚ) + 1/2 - (sites.getD siteIdx (0, 0)).1) + 1) + (((idx / width : ℕ) : ℚ) + 1/2 - (sites.getD siteIdx (0, 0)).2) * (((idx / width : ℕ) : ℚ) + 1/2 - (sites.getD siteIdx (0, 0)).2)) siteIdx else st2) (idx - 1) (((((idx % width : ℕ) : ℚ) + 1/2 - (sites.getD siteIdx (0, 0)).1) - 1) * ((((idx % width : ℕ) : ℚ) + 1/2 - (sites.getD siteIdx (0, 0)).1) - 1) + (((idx / width : ℕ) : ℚ) + 1/2 - (sites.getD siteIdx (0, 0)).2) * (((idx / width : ℕ) : ℚ) + 1/2 - (sites.getD siteIdx (0, 0)).2)) siteIdx else (if idx % width + 1 < width then relaxNeighbor maxB st2 (idx + 1) (((((idx % width : ℕ) : ℚ) + 1/2 - (sites.getD siteIdx (0, 0)).1) + 1) * ((((idx % width : ℕ) : ℚ) + 1/2 - (sites.getD siteIdx (0, 0)).1) + 1) + (((idx / width : ℕ) : ℚ) + 1/2 - (sites.getD siteIdx (0, 0)).2) * (((idx / width : ℕ) : ℚ) + 1/2 - (sites.getD siteIdx (0, 0)).2)) siteIdx else st2)))) := rfl
  rw [hrc]
  have g3 := cellOf_ite_relax maxB st2 (idx + 1) (((((idx % width : ℕ) : ℚ) + 1/2 - (sites.getD siteIdx (0, 0)).1) + 1) * ((((idx % width : ℕ) : ℚ) + 1/2 - (sites.getD siteIdx (0, 0)).1) + 1) + (((idx / width : ℕ) : ℚ) + 1/2 - (sites.getD siteIdx (0, 0)).2) * (((idx / width : ℕ) : ℚ) + 1/2 - (sites.getD siteIdx (0, 0)).2)) siteIdx (idx % width + 1 < width)
  have g4 := cellOf_ite_relax maxB (if idx % width + 1 < width then relaxNeighbor maxB st2 (idx + 1) (((((idx % width : ℕ) : ℚ) + 1/2 - (sites.getD siteIdx (0, 0)).1) + 1) * ((((idx % width : ℕ) : ℚ) + 1/2 - (sites.getD siteIdx (0, 0)).1) + 1) + (((idx / width : ℕ) : ℚ) + 1/2 - (sites.getD siteIdx (0, 0)).2) * (((idx / width : ℕ) : ℚ) + 1/2 - (sites.getD siteIdx (0, 0)).2)) siteIdx else st2) (idx - 1) (((((idx % width : ℕ) : ℚ) + 1/2 - (sites.getD siteIdx (0, 0)).1) - 1) * ((((idx % width : ℕ) : ℚ) + 1/2 - (sites.getD siteIdx (0, 0)).1) - 1) + (((idx / width : ℕ) : ℚ) + 1/2 - (sites.getD siteIdx (0, 0)).2) * (((idx / width : ℕ) : ℚ) + 1/2 - (sites.getD siteIdx (0, 0)).2)) siteIdx (0 < idx % width)
  have g5 := cellOf_ite_relax maxB (if 0 < idx % width then relaxNeighbor maxB (if idx % width + 1 < width then relaxNeighbor maxB st2 (idx + 1) (((((idx % width : ℕ) : ℚ) + 1/2 - (sites.getD siteIdx (0, 0)).1) + 1) * ((((idx % width : ℕ) : ℚ) + 1/2 - (sites.getD siteIdx (0, 0)).1) + 1) + (((idx / width : ℕ) : ℚ) + 1/2 - (sites.getD siteIdx (0, 0)).2) * (((idx / width : ℕ) : ℚ) + 1/2 - (sites.getD siteIdx (0, 0)).2)) siteIdx else st2) (idx - 1) (((((idx % width : ℕ) : ℚ) + 1/2 - (sites.getD siteIdx (0, 0)).1) - 1) * ((((idx % width : ℕ) : ℚ) + 1/2 - (sites.getD siteIdx (0, 0)).1) - 1) + (((idx / width : ℕ) : ℚ) + 1/2 - (sites.getD siteIdx (0, 0)).2) * (((idx / width : ℕ) : ℚ) + 1/2 - (sites.getD siteIdx (0, 0)).2)) siteIdx else (if idx % width + 1 < width then relaxNeighbor maxB st2 (idx + 1) (((((idx % width : ℕ) : ℚ) + 1/2 - (sites.getD siteIdx (0, 0)).1) + 1) * ((((idx % width : ℕ) : ℚ) + 1/2 - (sites.getD siteIdx (0, 0)).1) + 1) + (((idx / width : ℕ) : ℚ) + 1/2 - (sites.getD siteIdx (0, 0)).2) * (((idx / width : ℕ) : ℚ) + 1/2 - (sites.getD siteIdx (0, 0)).2)) siteIdx else st2)) (idx + width) ((((idx % width : ℕ) : ℚ) + 1/2 - (sites.getD siteIdx (0, 0)).1) * (((idx % width : ℕ) : ℚ) + 1/2 - (sites.getD siteIdx (0, 0)).1) + ((((idx / width : ℕ) : ℚ) + 1/2 - (sites.getD siteIdx (0, 0)).2) + 1) * ((((idx / width : ℕ) : ℚ) + 1/2 - (sites.getD siteIdx (0, 0)).2) + 1)) siteIdx
    (idx / width + 1 < height)
  have g6 := cellOf_ite_relax maxB (if idx / width + 1 < height then relaxNeighbor maxB (if 0 < idx % width then relaxNeighbor maxB (if idx % width + 1 < width then relaxNeighbor maxB st2 (idx + 1) (((((idx % width : ℕ) : ℚ) + 1/2 - (sites.getD siteIdx (0, 0)).1) + 1) * ((((idx % width : ℕ) : ℚ) + 1/2 - (sites.getD siteIdx (0, 0)).1) + 1) + (((idx / width : ℕ) : ℚ) + 1/2 - (sites.getD siteIdx (0, 0)).2) * (((idx / width : ℕ) : ℚ) + 1/2 - (sites.getD siteIdx (0, 0)).2)) siteIdx else st2) (idx - 1) (((((idx % width : ℕ) : ℚ) + 1/2 - (sites.getD siteIdx (0, 0)).1) - 1) * ((((idx % width : ℕ) : ℚ) + 1/2 - (sites.getD siteIdx (0, 0)).1) - 1) + (((idx / width : ℕ) : ℚ) + 1/2 - (sites.getD siteIdx (0, 0)).2) * (((idx / width : ℕ) : ℚ) + 1/2 - (sites.getD siteIdx (0, 0)).2)) siteIdx else (if idx % width + 1 < width then relaxNeighbor maxB st2 (idx + 1) (((((idx % width : ℕ) : ℚ) + 1/2 - (sites.getD siteIdx (0, 0)).1) + 1) * ((((idx % width : ℕ) : ℚ) + 1/2 - (sites.getD siteIdx (0, 0)).1) + 1) + (((idx / width : ℕ) : ℚ) + 1/2 - (sites.getD siteIdx (0, 0)).2) * (((idx / width : ℕ) : ℚ) + 1/2 - (sites.getD siteIdx (0, 0)).2)) siteIdx else st2)) (idx + width) ((((idx % width : ℕ) : ℚ) + 1/2 - (sites.getD siteIdx (0, 0)).1) * (((idx % width : ℕ) : ℚ) + 1/2 - (sites.getD siteIdx (0, 0)).1) + ((((idx / width : ℕ) : ℚ) + 1/2 - (sites.getD siteIdx (0, 0)).2) + 1) * ((((idx / width : ℕ) : ℚ) + 1/2 - (sites.getD siteIdx (0, 0)).2) + 1)) siteIdx else (if 0 < idx % width then relaxNeighbor maxB (if idx % width + 1 < width then relaxNeighbor maxB st2 (idx + 1) (((((idx % width : ℕ) : ℚ) + 1/2 - (sites.getD siteIdx (0, 0)).1) + 1) * ((((idx % width : ℕ) : ℚ) + 1/2 - (sites.getD siteIdx (0, 0)).1) + 1) + (((idx / width : ℕ) : ℚ) + 1/2 - (sites.getD siteIdx (0, 0)).2) * (((idx / width : ℕ) : ℚ) + 1/2 - (sites.getD siteIdx (0, 0)).2)) siteIdx else st2) (idx - 1) (((((idx % width : ℕ) : ℚ) + 1/2 - (sites.getD siteIdx (0, 0)).1) - 1) * ((((idx % width : ℕ) : ℚ) + 1/2 - (sites.getD siteIdx (0, 0)).1) - 1) + (((idx / width : ℕ) : ℚ) + 1/2 - (sites.getD siteIdx (0, 0)).2) * (((idx / width : ℕ) : ℚ) + 1/2 - (sites.getD siteIdx (0, 0)).2)) siteIdx else (if idx % width + 1 < width then relaxNeighbor maxB st2 (idx + 1) (((((idx % width : ℕ) : ℚ) + 1/2 - (sites.getD siteIdx (0, 0)).1) + 1) * ((((idx % width : ℕ) : ℚ) + 1/2 - (sites.getD siteIdx (0, 0)).1) + 1) + (((idx / width : ℕ) : ℚ) + 1/2 - (sites.getD siteIdx (0, 0)).2) * (((idx / width : ℕ) : ℚ) + 1/2 - (sites.getD siteIdx (0, 0)).2)) siteIdx else st2))) (idx - width) ((((idx % width : ℕ) : ℚ) + 1/2 - (sites.getD siteIdx (0, 0)).1) * (((idx % width : ℕ) : ℚ) + 1/2 - (sites.getD siteIdx (0, 0)).1) + ((((idx / width : ℕ) : ℚ) + 1/2 - (sites.getD siteIdx (0, 0)).2) - 1) * ((((idx / width : ℕ) : ℚ) + 1/2 - (sites.getD siteIdx (0, 0)).2) - 1)) siteIdx (0 < idx / width)
  rw [g6, g5, g4, g3]

/-- Assigning one unassigned in-bounds pixel decreases the number of
unassigned pixels by exactly one. -/
theorem unassignedCount_updFn (w h : ℕ) (st st' : FloodState) (idx si : ℕ)
    (hc : st'.cellOf = updFn st.cellOf idx (some si))
    (hidx : idx < w * h) (hnone : st.cellOf idx = none) :
    unassignedCount w h st' + 1 = unassignedCount w h st := by
  unfold unassignedCount
  rw [hc]
  have hset : (Finset.range (w * h)).filter (fun p => updFn st.cellOf idx (some si) p = none)
      = ((Finset.range (w * h)).filter (fun p => st.cellOf p = none)).erase idx := by
    ext x
    simp only [Finset.mem_filter, Finset.mem_erase, Finset.mem_range, updFn]
    constructor
    · rintro ⟨hx1, hx2⟩
      by_cases hxi : x = idx
      · rw [if_pos hxi] at hx2
        cases hx2
      · rw [if_neg hxi] at hx2
        exact ⟨hxi, hx1, hx2⟩
    · rintro ⟨hxi, hx1, hx2⟩
      refine ⟨hx1, ?_⟩
      rw [if_neg hxi]
      exact hx2
  rw [hset, Finset.card_erase_of_mem]
  · have hpos : 0 < ((Finset.range (w * h)).filter (fun p => st.cellOf p = none)).card := by
      refine Finset.card_pos.mpr ⟨idx, ?_⟩
      simp only [Finset.mem_filter, Finset.mem_range]
      exact ⟨hidx, hnone⟩
    omega
  · simp only [Finset.mem_filter, Finset.mem_range]
    exact ⟨hidx, hnone⟩

/-- States with the same assignment have the same number of unassigned
pixels. -/
theorem unassignedCount_congr (w h : ℕ) (st st' : FloodState)
    (hc : st'.cellOf = st.cellOf) :
    unassignedCount w h st' = unassignedCount w h st := by
  unfold unassignedCount
  rw [hc]

/-- Each successful flood iteration strictly decreases the loop measure. -/
theorem floodStep_measure (w h : ℕ) (s : ℚ × ℚ) (img : Image) (st st' : FloodState)
    (hinv : SingleInv w h s st)
    (hstep : floodStep w h (w * w + h * h) [s] img st = some st') :
    floodMeasure w h (w * w + h * h) st' < floodMeasure w h (w * w + h * h) st := by
  rcases hpop : bucketPop (w * w + h * h) st with _ | ⟨⟨idx, si⟩, st1⟩
  · unfold floodStep at hstep
    rw [hpop] at hstep
    simp at hstep
  · obtain ⟨bkt, rest, hbkt, hcurle, hbmax, hemp, hst1⟩ := bucketPop_eq_some _ _ _ _ hpop
    subst hst1
    have hble : bkt < w * w + h * h + 1 := by omega
    have hq1 : qsize (w * w + h * h)
        { st with cursor := bkt, buckets := updFn st.buckets bkt rest } + 1
        = qsize (w * w + h * h) st := by
      have hs := sum_updFn_len st.buckets (w * w + h * h + 1) bkt rest hble
      unfold qsize
      dsimp only
      rw [hbkt] at hs
      simp only [List.length_cons] at hs
      omega
    by_cases hass : (st.cellOf idx).isSome = true
    · have hsA : floodStep w h (w * w + h * h) [s] img st =
          some { st with cursor := bkt, buckets := updFn st.buckets bkt rest } := by
        unfold floodStep
        rw [hpop]
        dsimp only
        rw [if_pos hass]
      rw [hsA] at hstep
      have he := Option.some.inj hstep
      subst he
      have hu : unassignedCount w h
          { st with cursor := bkt, buckets := updFn st.buckets bkt rest }
          = unassignedCount w h st := unassignedCount_congr w h st _ rfl
      unfold floodMeasure
      omega
    · have hcellidx : st.cellOf idx = none := by
        rcases hc2 : st.cellOf idx with _ | v
        · rfl
        · exfalso
          apply hass
          rw [hc2]
          rfl
      have hhead : (idx, si) ∈ st.buckets bkt := by
        rw [hbkt]
        exact List.mem_cons_self _ _
      obtain ⟨hsi, hidxlt, hbktof, hbidx⟩ := hinv.entries bkt (idx, si) hhead
      dsimp only at hidxlt
      have hsB : floodStep w h (w * w + h * h) [s] img st =
          some (relaxChain w h (w * w + h * h) [s]
            (assignState img
              { st with cursor := bkt, buckets := updFn st.buckets bkt rest } idx si)
            idx si) := by
        unfold floodStep
        rw [hpop]
        dsimp only
        rw [if_neg hass]
      rw [hsB] at hstep
      have he := Option.some.inj hstep
      subst he
      have hq2 : qsize (w * w + h * h) (assignState img
            { st with cursor := bkt, buckets := updFn st.buckets bkt rest } idx si)
          = qsize (w * w + h * h)
            { st with cursor := bkt, buckets := updFn st.buckets bkt rest } := rfl
      have hq3 := qsize_relaxChain w h (w * w + h * h) [s]
        (assignState img
          { st with cursor := bkt, buckets := updFn st.buckets bkt rest } idx si) idx si
      have hu1 := unassignedCount_updFn w h
        { st with cursor := bkt, buckets := updFn st.buckets bkt rest }
        (assignState img
          { st with cursor := bkt, buckets := updFn st.buckets bkt rest } idx si)
        idx si rfl hidxlt hcellidx
      have hu2 : unassignedCount w h
          { st with cursor := bkt, buckets := updFn st.buckets bkt rest }
          = unassignedCount w h st := unassignedCount_congr w h st _ rfl
      have hu3 := unassignedCount_congr w h
        (assignState img
          { st with cursor := bkt, buckets := updFn st.buckets bkt rest } idx si)
        (relaxChain w h (w * w + h * h) [s]
          (assignState img
            { st with cursor := bkt, buckets := updFn st.buckets bkt rest } idx si)
          idx si)
        (cellOf_relaxChain w h (w * w + h * h) [s]
          (assignState img
            { st with cursor := bkt, buckets := updFn st.buckets bkt rest } idx si)
          idx si)
      unfold floodMeasure
      omega

/-- The measure of the initial flood state of a single in-bounds site: one
queue entry and `w·h` unassigned pixels. -/
theorem floodInit_measure (w h : ℕ) (s : ℚ × ℚ)
    (hx0 : 0 ≤ jsTrunc s.1) (hx1 : jsTrunc s.1 < (w : ℤ))
    (hy0 : 0 ≤ jsTrunc s.2) (hy1 : jsTrunc s.2 < (h : ℤ)) :
    floodMeasure w h (w * w + h * h) (floodInit w h (w * w + h * h) [s])
      = 1 + 4 * (w * h) := by
  have hfi : floodInit w h (w * w + h * h) [s] =
      { cellOf := fun _ => none,
        bestDist := updFn (fun _ => none) (homeIdx w s) (some (((jsTrunc s.1 : ℚ) + 1/2 - s.1) * ((jsTrunc s.1 : ℚ) + 1/2 - s.1) + ((jsTrunc s.2 : ℚ) + 1/2 - s.2) * ((jsTrunc s.2 : ℚ) + 1/2 - s.2))),
        buckets := updFn (fun _ => []) (min (⌊(((jsTrunc s.1 : ℚ) + 1/2 - s.1) * ((jsTrunc s.1 : ℚ) + 1/2 - s.1) + ((jsTrunc s.2 : ℚ) + 1/2 - s.2) * ((jsTrunc s.2 : ℚ) + 1/2 - s.2))⌋).toNat (w * w + h * h))
          [(homeIdx w s, 0)],
        cursor := 0,
        rSum := fun _ => 0, gSum := fun _ => 0, bSum := fun _ => 0,
        counts := fun _ => 0 } := by
    unfold floodInit
    rw [show ([s].enum) = [(0, s)] from rfl, List.foldl_cons, List.foldl_nil]
    dsimp only
    rw [if_pos (show 0 ≤ jsTrunc s.1 ∧ jsTrunc s.1 < (w : ℤ) ∧ 0 ≤ jsTrunc s.2 ∧
      jsTrunc s.2 < (h : ℤ) from ⟨hx0, hx1, hy0, hy1⟩)]
    rfl
  rw [hfi]
  unfold floodMeasure
  have hq : qsize (w * w + h * h)
      ({ cellOf := fun _ => none,
         bestDist := updFn (fun _ => none) (homeIdx w s) (some (((jsTrunc s.1 : ℚ) + 1/2 - s.1) * ((jsTrunc s.1 : ℚ) + 1/2 - s.1) + ((jsTrunc s.2 : ℚ) + 1/2 - s.2) * ((jsTrunc s.2 : ℚ) + 1/2 - s.2))),
         buckets := updFn (fun _ => []) (min (⌊(((jsTrunc s.1 : ℚ) + 1/2 - s.1) * ((jsTrunc s.1 : ℚ) + 1/2 - s.1) + ((jsTrunc s.2 : ℚ) + 1/2 - s.2) * ((jsTrunc s.2 : ℚ) + 1/2 - s.2))⌋).toNat (w * w + h * h))
           [(homeIdx w s, 0)],
         cursor := 0,
         rSum := fun _ => 0, gSum := fun _ => 0, bSum := fun _ => 0,
         counts := fun _ => 0 } : FloodState) = 1 := by
    unfold qsize
    dsimp only
    have hble : min (⌊(((jsTrunc s.1 : ℚ) + 1/2 - s.1) * ((jsTrunc s.1 : ℚ) + 1/2 - s.1) + ((jsTrunc s.2 : ℚ) + 1/2 - s.2) * ((jsTrunc s.2 : ℚ) + 1/2 - s.2))⌋).toNat (w * w + h * h) < w * w + h * h + 1 := by
      have := Nat.min_le_right (⌊(((jsTrunc s.1 : ℚ) + 1/2 - s.1) * ((jsTrunc s.1 : ℚ) + 1/2 - s.1) + ((jsTrunc s.2 : ℚ) + 1/2 - s.2) * ((jsTrunc s.2 : ℚ) + 1/2 - s.2))⌋).toNat (w * w + h * h)
      omega
    have hs := sum_updFn_len (fun _ => []) (w * w + h * h + 1)
      (min (⌊(((jsTrunc s.1 : ℚ) + 1/2 - s.1) * ((jsTrunc s.1 : ℚ) + 1/2 - s.1) + ((jsTrunc s.2 : ℚ) + 1/2 - s.2) * ((jsTrunc s.2 : ℚ) + 1/2 - s.2))⌋).toNat (w * w + h * h)) [(homeIdx w s, 0)] hble
    simp only [List.length_cons, List.length_nil] at hs
    rw [Finset.sum_const_zero] at hs
    omega
  have hu : unassignedCount w h
      ({ cellOf := fun _ => none,
         bestDist := updFn (fun _ => none) (homeIdx w s) (some (((jsTrunc s.1 : ℚ) + 1/2 - s.1) * ((jsTrunc s.1 : ℚ) + 1/2 - s.1) + ((jsTrunc s.2 : ℚ) + 1/2 - s.2) * ((jsTrunc s.2 : ℚ) + 1/2 - s.2))),
         buckets := updFn (fun _ => []) (min (⌊(((jsTrunc s.1 : ℚ) + 1/2 - s.1) * ((jsTrunc s.1 : ℚ) + 1/2 - s.1) + ((jsTrunc s.2 : ℚ) + 1/2 - s.2) * ((jsTrunc s.2 : ℚ) + 1/2 - s.2))⌋).toNat (w * w + h * h))
           [(homeIdx w s, 0)],
         cursor := 0,
         rSum := fun _ => 0, gSum := fun _ => 0, bSum := fun _ => 0,
         counts := fun _ => 0 } : FloodState) = w * h := by
    unfold unassignedCount
    dsimp only
    rw [Finset.filter_true_of_mem (fun x _ => rfl)]
    exact Finset.card_range _
  rw [hq, hu]

/-- Starting from any invariant state whose measure is below the fuel, the
fueled flood loop reaches a state that still satisfies the invariant and on
which the next step pops nothing. -/
theorem floodLoop_fix (w h : ℕ) (s : ℚ × ℚ) (img : Image) (hw : 0 < w)
    (hx0 : 0 ≤ jsTrunc s.1) (hx1 : jsTrunc s.1 < (w : ℤ))
    (hy0 : 0 ≤ jsTrunc s.2) (hy1 : jsTrunc s.2 < (h : ℤ)) :
    ∀ fuel st, SingleInv w h s st → floodMeasure w h (w * w + h * h) st < fuel →
      SingleInv w h s (floodLoop w h (w * w + h * h) [s] img fuel st) ∧
      floodStep w h (w * w + h * h) [s] img
        (floodLoop w h (w * w + h * h) [s] img fuel st) = none := by
  intro fuel
  induction fuel with
  | zero =>
    intro st hinv hm
    exact absurd hm (Nat.not_lt_zero _)
  | succ n ih =>
    intro st hinv hm
    rcases hstep : floodStep w h (w * w + h * h) [s] img st with _ | st2
    · have hl : floodLoop w h (w * w + h * h) [s] img (n + 1) st = st := by
        simp only [floodLoop]
        rw [hstep]
      rw [hl]
      exact ⟨hinv, hstep⟩
    · have hl : floodLoop w h (w * w + h * h) [s] img (n + 1) st =
          floodLoop w h (w * w + h * h) [s] img n st2 := by
        simp only [floodLoop]
        rw [hstep]
      rw [hl]
      have hinv2 := floodStep_pres w h s img st st2 hw hx0 hx1 hy0 hy1 hinv hstep
      have hm2 := floodStep_measure w h s img st st2 hinv hstep
      exact ih st2 hinv2 (by omega)

/-- C1 (amended): in the single-site case — one site whose truncated
coordinates `(sx | 0, sy | 0)` lie inside the image — `floodFillL2` assigns
every pixel to that site, i.e. `cell_of[p] = 0` for every pixel `p`, which is
the argmin over the one-element site list.  (With several sites the argmin
claim fails; see the counterexample.) -/
theorem floodFillL2_single_site_total (w h : ℕ) (img : Image) (s : ℚ × ℚ)
    (hx0 : 0 ≤ jsTrunc s.1) (hx1 : jsTrunc s.1 < (w : ℤ))
    (hy0 : 0 ≤ jsTrunc s.2) (hy1 : jsTrunc s.2 < (h : ℤ)) :
    ∀ p, p < w * h → (floodFillL2 w h img [s]).cellOf p = some 0 := by
  have hw : 0 < w := by omega
  intro p hp
  unfold floodFillL2
  dsimp only
  obtain ⟨hinvF, hstepF⟩ := floodLoop_fix w h s img hw hx0 hx1 hy0 hy1
    ([s].length + 4 * (w * h) + 1) (floodInit w h (w * w + h * h) [s])
    (floodInit_inv w h s hw hx0 hx1 hy0 hy1)
    (by
      rw [floodInit_measure w h s hx0 hx1 hy0 hy1]
      simp only [List.length_cons, List.length_nil]
      omega)
  rcases hcell : (floodLoop w h (w * w + h * h) [s] img ([s].length + 4 * (w * h) + 1) (floodInit w h (w * w + h * h) [s])).cellOf p with _ | i
  · exfalso
    have hpopN : bucketPop (w * w + h * h) (floodLoop w h (w * w + h * h) [s] img ([s].length + 4 * (w * h) + 1) (floodInit w h (w * w + h * h) [s])) = none := by
      rcases hpop : bucketPop (w * w + h * h) (floodLoop w h (w * w + h * h) [s] img ([s].length + 4 * (w * h) + 1) (floodInit w h (w * w + h * h) [s])) with _ | ⟨⟨i0, s0⟩, stx⟩
      · rfl
      · exfalso
        unfold floodStep at hstepF
        rw [hpop] at hstepF
        dsimp only at hstepF
        by_cases hc : (stx.cellOf i0).isSome = true
        · rw [if_pos hc] at hstepF
          cases hstepF
        · rw [if_neg hc] at hstepF
          cases hstepF
    have hempF := bucketPop_eq_none _ _ hpopN
    have hemp2 : ∀ x, (floodLoop w h (w * w + h * h) [s] img ([s].length + 4 * (w * h) + 1) (floodInit w h (w * w + h * h) [s])).cursor ≤ x → x < w * w + h * h + 1 →
        (floodLoop w h (w * w + h * h) [s] img ([s].length + 4 * (w * h) + 1) (floodInit w h (w * w + h * h) [s])).buckets x = [] := by
      intro x hxa hxb
      exact hempF x hxa (by omega)
    have hbig := sinv_cursor_le w h s (floodLoop w h (w * w + h * h) [s] img ([s].length + 4 * (w * h) + 1) (floodInit w h (w * w + h * h) [s])) (w * w + h * h + 1) hw hx0 hx1 hy0 hy1
      hinvF hemp2 p hp hcell
    have hble : bktOf w h s p ≤ w * w + h * h := by
      unfold bktOf
      omega
    omega
  · have hcs := hinvF.cell_site p i hcell
    rw [hcs.1]

/-- Witness for the single-site totality theorem on a concrete instance:
a 1×1 image with the site at the origin. -/
theorem floodFillL2_single_site_total_witness :
    (floodFillL2 1 1 ⟨fun _ => 0, fun _ => 0, fun _ => 0⟩ [((0 : ℚ), (0 : ℚ))]).cellOf 0
      = some 0 :=
  floodFillL2_single_site_total 1 1 ⟨fun _ => 0, fun _ => 0, fun _ => 0⟩ ((0 : ℚ), (0 : ℚ))
    (by simp [jsTrunc]) (by simp [jsTrunc]) (by simp [jsTrunc]) (by simp [jsTrunc])
    0 (by norm_num)

/-- C1 counterexample: on a 2×2 image with sites `(15/16, 15/16)` (site 0)
and `(3/32, 3/32)` (site 1), both home pixels truncate to pixel 0; the later
push wins the shared stack slot, site 1 floods the whole image, and pixel 3
(centre `(1.5, 1.5)`) ends up owned by site 1 even though site 0 is strictly
closer — the distance gap exceeds one pixel (the last two conjuncts state
`√d₁ − √d₀ > 1` in rational arithmetic), so no 1-pixel tie tolerance
explains it.  `cell_of[p]` is therefore not the argmin. -/
theorem floodFillL2_not_argmin :
    ((floodFillL2 2 2 ⟨fun _ => 0, fun _ => 0, fun _ => 0⟩
        [((15 : ℚ)/16, (15 : ℚ)/16), ((3 : ℚ)/32, (3 : ℚ)/32)]).cellOf 3 = some 1) ∧
    (1 < pixDistSq 2 ((3 : ℚ)/32, (3 : ℚ)/32) 3 - pixDistSq 2 ((15 : ℚ)/16, (15 : ℚ)/16) 3) ∧
    (4 * pixDistSq 2 ((15 : ℚ)/16, (15 : ℚ)/16) 3 < (pixDistSq 2 ((3 : ℚ)/32, (3 : ℚ)/32) 3 - pixDistSq 2 ((15 : ℚ)/16, (15 : ℚ)/16) 3 - 1) * (pixDistSq 2 ((3 : ℚ)/32, (3 : ℚ)/32) 3 - pixDistSq 2 ((15 : ℚ)/16, (15 : ℚ)/16) 3 - 1)) := by
  refine ⟨?_, ?_, ?_⟩
  · with_unfolding_all rfl
  · norm_num [pixDistSq]
  · norm_num [pixDistSq]

/-- In-bounds integer coordinates give an in-bounds row-major index, in `ℤ`
truncated form. -/
theorem toNat_pix_lt (w h : ℕ) (x y : ℤ) (hx0 : 0 ≤ x) (hx1 : x < (w : ℤ))
    (hy0 : 0 ≤ y) (hy1 : y < (h : ℤ)) : (y * (w : ℤ) + x).toNat < w * h := by
  obtain ⟨a, rfl⟩ := Int.eq_ofNat_of_zero_le hx0
  obtain ⟨b, rfl⟩ := Int.eq_ofNat_of_zero_le hy0
  have ha : a < w := by exact_mod_cast hx1
  have hb : b < h := by exact_mod_cast hy1
  have h1 : ((b : ℤ) * (w : ℤ) + (a : ℤ)) = ((b * w + a : ℕ) : ℤ) := by
    push_cast
    ring
  rw [h1]
  have h2 := pix_lt w h b a hb ha
  omega

/-- A relaxation only touches the best distances and the buckets. -/
theorem relax_shape (maxB : ℕ) (st : FloodState) (nidx : ℕ) (d : ℚ) (i : ℕ) :
    ∃ bd bk, relaxNeighbor maxB st nidx d i = { st with bestDist := bd, buckets := bk } := by
  unfold relaxNeighbor bucketPush
  by_cases h1 : (st.cellOf nidx).isNone = true
  · rw [if_pos h1]
    by_cases h2 : ltInf d (st.bestDist nidx) = true
    · rw [if_pos h2]
      exact ⟨_, _, rfl⟩
    · rw [if_neg h2]
      exact ⟨st.bestDist, st.buckets, rfl⟩
  · rw [if_neg h1]
    exact ⟨st.bestDist, st.buckets, rfl⟩

/-- Every entry after a relaxation is an old entry or the relaxed pair. -/
theorem relax_mem_buckets (maxB : ℕ) (st : FloodState) (nidx : ℕ) (d : ℚ) (i : ℕ)
    (c : ℕ) (e : ℕ × ℕ) (he : e ∈ (relaxNeighbor maxB st nidx d i).buckets c) :
    e ∈ st.buckets c ∨ e = (nidx, i) := by
  unfold relaxNeighbor bucketPush at he
  by_cases h1 : (st.cellOf nidx).isNone = true
  · rw [if_pos h1] at he
    by_cases h2 : ltInf d (st.bestDist nidx) = true
    · rw [if_pos h2] at he
      dsimp only at he
      simp only [updFn] at he
      by_cases hcb : c = min (⌊d⌋).toNat maxB
      · rw [if_pos hcb] at he
        rcases List.mem_cons.mp he with heq | hm
        · exact Or.inr heq
        · rw [hcb]
          exact Or.inl hm
      · rw [if_neg hcb] at he
        exact Or.inl he
    · rw [if_neg h2] at he
      exact Or.inl he
  · rw [if_neg h1] at he
    exact Or.inl he

/-- A relaxation preserves the accounting invariant when the relaxed pixel
is in bounds. -/
theorem acc_relax (w h maxB : ℕ) (img : Image) (st : FloodState) (nidx : ℕ) (d : ℚ)
    (i : ℕ) (hacc : AccInv w h img st) (hn : nidx < w * h) :
    AccInv w h img (relaxNeighbor maxB st nidx d i) := by
  obtain ⟨bd, bk, hsh⟩ := relax_shape maxB st nidx d i
  refine ⟨?_, ?_, ?_, ?_, ?_⟩
  · intro bkt e he
    rcases relax_mem_buckets maxB st nidx d i bkt e he with h1 | h1
    · exact hacc.entry_bound bkt e h1
    · rw [h1]
      exact hn
  · intro j
    rw [hsh]
    exact hacc.counts_eq j
  · intro j
    rw [hsh]
    exact hacc.rsum_eq j
  · intro j
    rw [hsh]
    exact hacc.gsum_eq j
  · intro j
    rw [hsh]
    exact hacc.bsum_eq j

/-- A guarded relaxation preserves the accounting invariant. -/
theorem acc_ite_relax (w h maxB : ℕ) (img : Image) (st : FloodState) (nidx : ℕ)
    (d : ℚ) (i : ℕ) (c : Prop) [Decidable c]
    (hacc : AccInv w h img st) (hn : c → nidx < w * h) :
    AccInv w h img (if c then relaxNeighbor maxB st nidx d i else st) := by
  by_cases hc : c
  · rw [if_pos hc]
    exact acc_relax w h maxB img st nidx d i hacc (hn hc)
  · rw [if_neg hc]
    exact hacc

/-- The whole relaxation chain preserves the accounting invariant. -/
theorem acc_relaxChain (width height maxB : ℕ) (img : Image) (sites : List (ℚ × ℚ))
    (st2 : FloodState) (idx siteIdx : ℕ)
    (hacc : AccInv width height img st2) (hidx : idx < width * height) :
    AccInv width height img (relaxChain width height maxB sites st2 idx siteIdx) := by
  have hw : 0 < width := by
    rcases Nat.eq_zero_or_pos width with h0 | h0
    · rw [h0, Nat.zero_mul] at hidx
      omega
    · exact h0
  have hrc : relaxChain width height maxB sites st2 idx siteIdx = (if 0 < idx / width then relaxNeighbor maxB (if idx / width + 1 < height then relaxNeighbor maxB (if 0 < idx % width then relaxNeighbor maxB (if idx % width + 1 < width then relaxNeighbor maxB st2 (idx + 1) (((((idx % width : ℕ) : ℚ) + 1/2 - (sites.getD siteIdx (0, 0)).1) + 1) * ((((idx % width : ℕ) : ℚ) + 1/2 - (sites.getD siteIdx (0, 0)).1) + 1) + (((idx / width : ℕ) : ℚ) + 1/2 - (sites.getD siteIdx (0, 0)).2) * (((idx / width : ℕ) : ℚ) + 1/2 - (sites.getD siteIdx (0, 0)).2)) siteIdx else st2) (idx - 1) (((((idx % width : ℕ) : ℚ) + 1/2 - (sites.getD siteIdx (0, 0)).1) - 1) * ((((idx % width : ℕ) : ℚ) + 1/2 - (sites.getD siteIdx (0, 0)).1) - 1) + (((idx / width : ℕ) : ℚ) + 1/2 - (sites.getD siteIdx (0, 0)).2) * (((idx / width : ℕ) : ℚ) + 1/2 - (sites.getD siteIdx (0, 0)).2)) siteIdx else (if idx % width + 1 < width then relaxNeighbor maxB st2 (idx + 1) (((((idx % width : ℕ) : ℚ) + 1/2 - (sites.getD siteIdx (0, 0)).1) + 1) * ((((idx % width : ℕ) : ℚ) + 1/2 - (sites.getD siteIdx (0, 0)).1) + 1) + (((idx / width : ℕ) : ℚ) + 1/2 - (sites.getD siteIdx (0, 0)).2) * (((idx / width : ℕ) : ℚ) + 1/2 - (sites.getD siteIdx (0, 0)).2)) siteIdx else st2)) (idx + width) ((((idx % width : ℕ) : ℚ) + 1/2 - (sites.getD siteIdx (0, 0)).1) * (((idx % width : ℕ) : ℚ) + 1/2 - (sites.getD siteIdx (0, 0)).1) + ((((idx / width : ℕ) : ℚ) + 1/2 - (sites.getD siteIdx (0, 0)).2) + 1) * ((((idx / width : ℕ) : ℚ) + 1/2 - (sites.getD siteIdx (0, 0)).2) + 1)) siteIdx else (if 0 < idx % width then relaxNeighbor maxB (if idx % width + 1 < width then relaxNeighbor maxB st2 (idx + 1) (((((idx % width : ℕ) : ℚ) + 1/2 - (sites.getD siteIdx (0, 0)).1) + 1) * ((((idx % width : ℕ) : ℚ) + 1/2 - (sites.getD siteIdx (0, 0)).1) + 1) + (((idx / width : ℕ) : ℚ) + 1/2 - (sites.getD siteIdx (0, 0)).2) * (((idx / width : ℕ) : ℚ) + 1/2 - (sites.getD siteIdx (0, 0)).2)) siteIdx else st2) (idx - 1) (((((idx % width : ℕ) : ℚ) + 1/2 - (sites.getD siteIdx (0, 0)).1) - 1) * ((((idx % width : ℕ) : ℚ) + 1/2 - (sites.getD siteIdx (0, 0)).1) - 1) + (((idx / width : ℕ) : ℚ) + 1/2 - (sites.getD siteIdx (0, 0)).2) * (((idx / width : ℕ) : ℚ) + 1/2 - (sites.getD siteIdx (0, 0)).2)) siteIdx else (if idx % width + 1 < width then relaxNeighbor maxB st2 (idx + 1) (((((idx % width : ℕ) : ℚ) + 1/2 - (sites.getD siteIdx (0, 0)).1) + 1) * ((((idx % width : ℕ) : ℚ) + 1/2 - (sites.getD siteIdx (0, 0)).1) + 1) + (((idx / width : ℕ) : ℚ) + 1/2 - (sites.getD siteIdx (0, 0)).2) * (((idx / width : ℕ) : ℚ) + 1/2 - (sites.getD siteIdx (0, 0)).2)) siteIdx else st2))) (idx - width) ((((idx % width : ℕ) : ℚ) + 1/2 - (sites.getD siteIdx (0, 0)).1) * (((idx % width : ℕ) : ℚ) + 1/2 - (sites.getD siteIdx (0, 0)).1) + ((((idx / width : ℕ) : ℚ) + 1/2 - (sites.getD siteIdx (0, 0)).2) - 1) * ((((idx / width : ℕ) : ℚ) + 1/2 - (sites.getD siteIdx (0, 0)).2) - 1)) siteIdx else (if idx / width + 1 < height then relaxNeighbor maxB (if 0 < idx % width then relaxNeighbor maxB (if idx % width + 1 < width then relaxNeighbor maxB st2 (idx + 1) (((((idx % width : ℕ) : ℚ) + 1/2 - (sites.getD siteIdx (0, 0)).1) + 1) * ((((idx % width : ℕ) : ℚ) + 1/2 - (sites.getD siteIdx (0, 0)).1) + 1) + (((idx / width : ℕ) : ℚ) + 1/2 - (sites.getD siteIdx (0, 0)).2) * (((idx / width : ℕ) : ℚ) + 1/2 - (sites.getD siteIdx (0, 0)).2)) siteIdx else st2) (idx - 1) (((((idx % width : ℕ) : ℚ) + 1/2 - (sites.getD siteIdx (0, 0)).1) - 1) * ((((idx % width : ℕ) : ℚ) + 1/2 - (sites.getD siteIdx (0, 0)).1) - 1) + (((idx / width : ℕ) : ℚ) + 1/2 - (sites.getD siteIdx (0, 0)).2) * (((idx / width : ℕ) : ℚ) + 1/2 - (sites.getD siteIdx (0, 0)).2)) siteIdx else (if idx % width + 1 < width then relaxNeighbor maxB st2 (idx + 1) (((((idx % width : ℕ) : ℚ) + 1/2 - (sites.getD siteIdx (0, 0)).1) + 1) * ((((idx % width : ℕ) : ℚ) + 1/2 - (sites.getD siteIdx (0, 0)).1) + 1) + (((idx / width : ℕ) : ℚ) + 1/2 - (sites.getD siteIdx (0, 0)).2) * (((idx / width : ℕ) : ℚ) + 1/2 - (sites.getD siteIdx (0, 0)).2)) siteIdx else st2)) (idx + width) ((((idx % width : ℕ) : ℚ) + 1/2 - (sites.getD siteIdx (0, 0)).1) * (((idx % width : ℕ) : ℚ) + 1/2 - (sites.getD siteIdx (0, 0)).1) + ((((idx / width : ℕ) : ℚ) + 1/2 - (sites.getD siteIdx (0, 0)).2) + 1) * ((((idx / width : ℕ) : ℚ) + 1/2 - (sites.getD siteIdx (0, 0)).2) + 1)) siteIdx else (if 0 < idx % width then relaxNeighbor maxB (if idx % width + 1 < width then relaxNeighbor maxB st2 (idx + 1) (((((idx % width : ℕ) : ℚ) + 1/2 - (sites.getD siteIdx (0, 0)).1) + 1) * ((((idx % width : ℕ) : ℚ) + 1/2 - (sites.getD siteIdx (0, 0)).1) + 1) + (((idx / width : ℕ) : ℚ) + 1/2 - (sites.getD siteIdx (0, 0)).2) * (((idx / width : ℕ) : ℚ) + 1/2 - (sites.getD siteIdx (0, 0)).2)) siteIdx else st2) (idx - 1) (((((idx % width : ℕ) : ℚ) + 1/2 - (sites.getD siteIdx (0, 0)).1) - 1) * ((((idx % width : ℕ) : ℚ) + 1/2 - (sites.getD siteIdx (0, 0)).1) - 1) + (((idx / width : ℕ) : ℚ) + 1/2 - (sites.getD siteIdx (0, 0)).2) * (((idx / width : ℕ) : ℚ) + 1/2 - (sites.getD siteIdx (0, 0)).2)) siteIdx else (if idx % width + 1 < width then relaxNeighbor maxB st2 (idx + 1) (((((idx % width : ℕ) : ℚ) + 1/2 - (sites.getD siteIdx (0, 0)).1) + 1) * ((((idx % width : ℕ) : ℚ) + 1/2 - (sites.getD siteIdx (0, 0)).1) + 1) + (((idx / width : ℕ) : ℚ) + 1/2 - (sites.getD siteIdx (0, 0)).2) * (((idx / width : ℕ) : ℚ) + 1/2 - (sites.getD siteIdx (0, 0)).2)) siteIdx else st2)))) := rfl
  rw [hrc]
  have A3 := acc_ite_relax width height maxB img st2 (idx + 1) (((((idx % width : ℕ) : ℚ) + 1/2 - (sites.getD siteIdx (0, 0)).1) + 1) * ((((idx % width : ℕ) : ℚ) + 1/2 - (sites.getD siteIdx (0, 0)).1) + 1) + (((idx / width : ℕ) : ℚ) + 1/2 - (sites.getD siteIdx (0, 0)).2) * (((idx / width : ℕ) : ℚ) + 1/2 - (sites.getD siteIdx (0, 0)).2)) siteIdx
    (idx % width + 1 < width) hacc
    (fun hc => adj_lt width height idx (idx + 1) hw hidx (Or.inl ⟨rfl, hc⟩))
  have A4 := acc_ite_relax width height maxB img (if idx % width + 1 < width then relaxNeighbor maxB st2 (idx + 1) (((((idx % width : ℕ) : ℚ) + 1/2 - (sites.getD siteIdx (0, 0)).1) + 1) * ((((idx % width : ℕ) : ℚ) + 1/2 - (sites.getD siteIdx (0, 0)).1) + 1) + (((idx / width : ℕ) : ℚ) + 1/2 - (sites.getD siteIdx (0, 0)).2) * (((idx / width : ℕ) : ℚ) + 1/2 - (sites.getD siteIdx (0, 0)).2)) siteIdx else st2) (idx - 1) (((((idx % width : ℕ) : ℚ) + 1/2 - (sites.getD siteIdx (0, 0)).1) - 1) * ((((idx % width : ℕ) : ℚ) + 1/2 - (sites.getD siteIdx (0, 0)).1) - 1) + (((idx / width : ℕ) : ℚ) + 1/2 - (sites.getD siteIdx (0, 0)).2) * (((idx / width : ℕ) : ℚ) + 1/2 - (sites.getD siteIdx (0, 0)).2)) siteIdx
    (0 < idx % width) A3 (fun _ => by omega)
  have A5 := acc_ite_relax width height maxB img (if 0 < idx % width then relaxNeighbor maxB (if idx % width + 1 < width then relaxNeighbor maxB st2 (idx + 1) (((((idx % width : ℕ) : ℚ) + 1/2 - (sites.getD siteIdx (0, 0)).1) + 1) * ((((idx % width : ℕ) : ℚ) + 1/2 - (sites.getD siteIdx (0, 0)).1) + 1) + (((idx / width : ℕ) : ℚ) + 1/2 - (sites.getD siteIdx (0, 0)).2) * (((idx / width : ℕ) : ℚ) + 1/2 - (sites.getD siteIdx (0, 0)).2)) siteIdx else st2) (idx - 1) (((((idx % width : ℕ) : ℚ) + 1/2 - (sites.getD siteIdx (0, 0)).1) - 1) * ((((idx % width : ℕ) : ℚ) + 1/2 - (sites.getD siteIdx (0, 0)).1) - 1) + (((idx / width : ℕ) : ℚ) + 1/2 - (sites.getD siteIdx (0, 0)).2) * (((idx / width : ℕ) : ℚ) + 1/2 - (sites.getD siteIdx (0, 0)).2)) siteIdx else (if idx % width + 1 < width then relaxNeighbor maxB st2 (idx + 1) (((((idx % width : ℕ) : ℚ) + 1/2 - (sites.getD siteIdx (0, 0)).1) + 1) * ((((idx % width : ℕ) : ℚ) + 1/2 - (sites.getD siteIdx (0, 0)).1) + 1) + (((idx / width : ℕ) : ℚ) + 1/2 - (sites.getD siteIdx (0, 0)).2) * (((idx / width : ℕ) : ℚ) + 1/2 - (sites.getD siteIdx (0, 0)).2)) siteIdx else st2)) (idx + width) ((((idx % width : ℕ) : ℚ) + 1/2 - (sites.getD siteIdx (0, 0)).1) * (((idx % width : ℕ) : ℚ) + 1/2 - (sites.getD siteIdx (0, 0)).1) + ((((idx / width : ℕ) : ℚ) + 1/2 - (sites.getD siteIdx (0, 0)).2) + 1) * ((((idx / width : ℕ) : ℚ) + 1/2 - (sites.getD siteIdx (0, 0)).2) + 1)) siteIdx
    (idx / width + 1 < height) A4
    (fun hc => adj_lt width height idx (idx + width) hw hidx
      (Or.inr (Or.inr (Or.inl ⟨rfl, hc⟩))))
  exact acc_ite_relax width height maxB img (if idx / width + 1 < height then relaxNeighbor maxB (if 0 < idx % width then relaxNeighbor maxB (if idx % width + 1 < width then relaxNeighbor maxB st2 (idx + 1) (((((idx % width : ℕ) : ℚ) + 1/2 - (sites.getD siteIdx (0, 0)).1) + 1) * ((((idx % width : ℕ) : ℚ) + 1/2 - (sites.getD siteIdx (0, 0)).1) + 1) + (((idx / width : ℕ) : ℚ) + 1/2 - (sites.getD siteIdx (0, 0)).2) * (((idx / width : ℕ) : ℚ) + 1/2 - (sites.getD siteIdx (0, 0)).2)) siteIdx else st2) (idx - 1) (((((idx % width : ℕ) : ℚ) + 1/2 - (sites.getD siteIdx (0, 0)).1) - 1) * ((((idx % width : ℕ) : ℚ) + 1/2 - (sites.getD siteIdx (0, 0)).1) - 1) + (((idx / width : ℕ) : ℚ) + 1/2 - (sites.getD siteIdx (0, 0)).2) * (((idx / width : ℕ) : ℚ) + 1/2 - (sites.getD siteIdx (0, 0)).2)) siteIdx else (if idx % width + 1 < width then relaxNeighbor maxB st2 (idx + 1) (((((idx % width : ℕ) : ℚ) + 1/2 - (sites.getD siteIdx (0, 0)).1) + 1) * ((((idx % width : ℕ) : ℚ) + 1/2 - (sites.getD siteIdx (0, 0)).1) + 1) + (((idx / width : ℕ) : ℚ) + 1/2 - (sites.getD siteIdx (0, 0)).2) * (((idx / width : ℕ) : ℚ) + 1/2 - (sites.getD siteIdx (0, 0)).2)) siteIdx else st2)) (idx + width) ((((idx % width : ℕ) : ℚ) + 1/2 - (sites.getD siteIdx (0, 0)).1) * (((idx % width : ℕ) : ℚ) + 1/2 - (sites.getD siteIdx (0, 0)).1) + ((((idx / width : ℕ) : ℚ) + 1/2 - (sites.getD siteIdx (0, 0)).2) + 1) * ((((idx / width : ℕ) : ℚ) + 1/2 - (sites.getD siteIdx (0, 0)).2) + 1)) siteIdx else (if 0 < idx % width then relaxNeighbor maxB (if idx % width + 1 < width then relaxNeighbor maxB st2 (idx + 1) (((((idx % width : ℕ) : ℚ) + 1/2 - (sites.getD siteIdx (0, 0)).1) + 1) * ((((idx % width : ℕ) : ℚ) + 1/2 - (sites.getD siteIdx (0, 0)).1) + 1) + (((idx / width : ℕ) : ℚ) + 1/2 - (sites.getD siteIdx (0, 0)).2) * (((idx / width : ℕ) : ℚ) + 1/2 - (sites.getD siteIdx (0, 0)).2)) siteIdx else st2) (idx - 1) (((((idx % width : ℕ) : ℚ) + 1/2 - (sites.getD siteIdx (0, 0)).1) - 1) * ((((idx % width : ℕ) : ℚ) + 1/2 - (sites.getD siteIdx (0, 0)).1) - 1) + (((idx / width : ℕ) : ℚ) + 1/2 - (sites.getD siteIdx (0, 0)).2) * (((idx / width : ℕ) : ℚ) + 1/2 - (sites.getD siteIdx (0, 0)).2)) siteIdx else (if idx % width + 1 < width then relaxNeighbor maxB st2 (idx + 1) (((((idx % width : ℕ) : ℚ) + 1/2 - (sites.getD siteIdx (0, 0)).1) + 1) * ((((idx % width : ℕ) : ℚ) + 1/2 - (sites.getD siteIdx (0, 0)).1) + 1) + (((idx / width : ℕ) : ℚ) + 1/2 - (sites.getD siteIdx (0, 0)).2) * (((idx / width : ℕ) : ℚ) + 1/2 - (sites.getD siteIdx (0, 0)).2)) siteIdx else st2))) (idx - width) ((((idx % width : ℕ) : ℚ) + 1/2 - (sites.getD siteIdx (0, 0)).1) * (((idx % width : ℕ) : ℚ) + 1/2 - (sites.getD siteIdx (0, 0)).1) + ((((idx / width : ℕ) : ℚ) + 1/2 - (sites.getD siteIdx (0, 0)).2) - 1) * ((((idx / width : ℕ) : ℚ) + 1/2 - (sites.getD siteIdx (0, 0)).2) - 1)) siteIdx
    (0 < idx / width) A5 (fun _ => by omega)

/-- Assigning an unassigned in-bounds pixel updates the counts and channel
sums of exactly its new owner by exactly that pixel's contribution. -/
theorem acc_assign (w h : ℕ) (img : Image) (st : FloodState) (idx si : ℕ)
    (hacc : AccInv w h img st) (hidx : idx < w * h) (hnone : st.cellOf idx = none) :
    AccInv w h img (assignState img st idx si) := by
  have hfilter : ∀ j, (Finset.range (w * h)).filter
      (fun p => (assignState img st idx si).cellOf p = some j)
      = if j = si then
          insert idx ((Finset.range (w * h)).filter (fun p => st.cellOf p = some j))
        else (Finset.range (w * h)).filter (fun p => st.cellOf p = some j) := by
    intro j
    by_cases hj : j = si
    · rw [if_pos hj]
      subst hj
      ext x
      simp only [Finset.mem_filter, Finset.mem_insert, Finset.mem_range]
      dsimp only [assignState]
      simp only [updFn]
      constructor
      · rintro ⟨hx1, hx2⟩
        by_cases hxi : x = idx
        · exact Or.inl hxi
        · rw [if_neg hxi] at hx2
          exact Or.inr ⟨hx1, hx2⟩
      · rintro (rfl | ⟨hx1, hx2⟩)
        · exact ⟨hidx, by rw [if_pos rfl]⟩
        · refine ⟨hx1, ?_⟩
          by_cases hxi : x = idx
          · rw [hxi, hnone] at hx2
            cases hx2
          · rw [if_neg hxi]
            exact hx2
    · rw [if_neg hj]
      ext x
      simp only [Finset.mem_filter, Finset.mem_range]
      dsimp only [assignState]
      simp only [updFn]
      constructor
      · rintro ⟨hx1, hx2⟩
        by_cases hxi : x = idx
        · rw [if_pos hxi] at hx2
          injection hx2 with hx3
          exact absurd hx3.symm hj
        · rw [if_neg hxi] at hx2
          exact ⟨hx1, hx2⟩
      · rintro ⟨hx1, hx2⟩
        refine ⟨hx1, ?_⟩
        by_cases hxi : x = idx
        · rw [hxi, hnone] at hx2
          cases hx2
        · rw [if_neg hxi]
          exact hx2
  have hnotmem : idx ∉ (Finset.range (w * h)).filter (fun p => st.cellOf p = some si) := by
    simp [Finset.mem_filter, hnone]
  refine ⟨?_, ?_, ?_, ?_, ?_⟩
  · intro bkt e he
    exact hacc.entry_bound bkt e he
  · intro j
    rw [hfilter j]
    by_cases hj : j = si
    · rw [if_pos hj]
      subst hj
      rw [Finset.card_insert_of_not_mem hnotmem]
      show updFn st.counts j (st.counts j + 1) j = _
      simp only [updFn, eq_self_iff_true, if_true]
      rw [hacc.counts_eq j]
    · rw [if_neg hj]
      show updFn st.counts si (st.counts si + 1) j = _
      simp only [updFn, if_neg hj]
      exact hacc.counts_eq j
  · intro j
    rw [hfilter j]
    by_cases hj : j = si
    · rw [if_pos hj]
      subst hj
      rw [Finset.sum_insert hnotmem]
      show updFn st.rSum j (st.rSum j + (img.r idx : ℚ)) j = _
      simp only [updFn, eq_self_iff_true, if_true]
      rw [hacc.rsum_eq j]
      ring
    · rw [if_neg hj]
      show updFn st.rSum si (st.rSum si + (img.r idx : ℚ)) j = _
      simp only [updFn, if_neg hj]
      exact hacc.rsum_eq j
  · intro j
    rw [hfilter j]
    by_cases hj : j = si
    · rw [if_pos hj]
      subst hj
      rw [Finset.sum_insert hnotmem]
      show updFn st.gSum j (st.gSum j + (img.g idx : ℚ)) j = _
      simp only [updFn, eq_self_iff_true, if_true]
      rw [hacc.gsum_eq j]
      ring
    · rw [if_neg hj]
      show updFn st.gSum si (st.gSum si + (img.g idx : ℚ)) j = _
      simp only [updFn, if_neg hj]
      exact hacc.gsum_eq j
  · intro j
    rw [hfilter j]
    by_cases hj : j = si
    · rw [if_pos hj]
      subst hj
      rw [Finset.sum_insert hnotmem]
      show updFn st.bSum j (st.bSum j + (img.b idx : ℚ)) j = _
      simp only [updFn, eq_self_iff_true, if_true]
      rw [hacc.bsum_eq j]
      ring
    · rw [if_neg hj]
      show updFn st.bSum si (st.bSum si + (img.b idx : ℚ)) j = _
      simp only [updFn, if_neg hj]
      exact hacc.bsum_eq j

/-- The seeding fold of `floodInit` keeps the state unassigned with zero
accumulators and only in-bounds queue entries. -/
theorem floodInit_fold_P (w h maxB : ℕ) :
    ∀ (l : List (ℕ × (ℚ × ℚ))) (st : FloodState), InitP w h st →
      InitP w h (l.foldl (fun st is =>
      let i := is.1
      let sx := is.2.1
      let sy := is.2.2
      let x := jsTrunc sx
      let y := jsTrunc sy
      if 0 ≤ x ∧ x < (w : ℤ) ∧ 0 ≤ y ∧ y < (h : ℤ) then
        let idx := (y * (w : ℤ) + x).toNat
        let dx := ((x : ℚ)) + 1/2 - sx
        let dy := ((y : ℚ)) + 1/2 - sy
        let distSq := dx * dx + dy * dy
        if ltInf distSq (st.bestDist idx) then
          bucketPush maxB { st with bestDist := updFn st.bestDist idx (some distSq) }
            distSq idx i
        else st
      else st) st) := by
  intro l
  induction l with
  | nil =>
    intro st hP
    exact hP
  | cons hd tl ih =>
    intro st hP
    rw [List.foldl_cons]
    apply ih
    show InitP w h
      (if 0 ≤ jsTrunc hd.2.1 ∧ jsTrunc hd.2.1 < (w : ℤ) ∧
          0 ≤ jsTrunc hd.2.2 ∧ jsTrunc hd.2.2 < (h : ℤ) then
        (if ltInf (((jsTrunc hd.2.1 : ℚ) + 1/2 - hd.2.1) * ((jsTrunc hd.2.1 : ℚ) + 1/2 - hd.2.1) + ((jsTrunc hd.2.2 : ℚ) + 1/2 - hd.2.2) * ((jsTrunc hd.2.2 : ℚ) + 1/2 - hd.2.2)) (st.bestDist ((jsTrunc hd.2.2 * (w : ℤ) + jsTrunc hd.2.1).toNat)) = true then
          bucketPush maxB
            { st with bestDist := updFn st.bestDist ((jsTrunc hd.2.2 * (w : ℤ) + jsTrunc hd.2.1).toNat) (some (((jsTrunc hd.2.1 : ℚ) + 1/2 - hd.2.1) * ((jsTrunc hd.2.1 : ℚ) + 1/2 - hd.2.1) + ((jsTrunc hd.2.2 : ℚ) + 1/2 - hd.2.2) * ((jsTrunc hd.2.2 : ℚ) + 1/2 - hd.2.2))) }
            (((jsTrunc hd.2.1 : ℚ) + 1/2 - hd.2.1) * ((jsTrunc hd.2.1 : ℚ) + 1/2 - hd.2.1) + ((jsTrunc hd.2.2 : ℚ) + 1/2 - hd.2.2) * ((jsTrunc hd.2.2 : ℚ) + 1/2 - hd.2.2)) ((jsTrunc hd.2.2 * (w : ℤ) + jsTrunc hd.2.1).toNat) hd.1
        else st)
      else st)
    by_cases hin : 0 ≤ jsTrunc hd.2.1 ∧ jsTrunc hd.2.1 < (w : ℤ) ∧
        0 ≤ jsTrunc hd.2.2 ∧ jsTrunc hd.2.2 < (h : ℤ)
    · rw [if_pos hin]
      by_cases hlt : ltInf (((jsTrunc hd.2.1 : ℚ) + 1/2 - hd.2.1) * ((jsTrunc hd.2.1 : ℚ) + 1/2 - hd.2.1) + ((jsTrunc hd.2.2 : ℚ) + 1/2 - hd.2.2) * ((jsTrunc hd.2.2 : ℚ) + 1/2 - hd.2.2)) (st.bestDist ((jsTrunc hd.2.2 * (w : ℤ) + jsTrunc hd.2.1).toNat)) = true
      · rw [if_pos hlt]
        obtain ⟨hc1, hc2, hc3, hc4, hc5, hc6⟩ := hP
        refine ⟨hc1, hc2, hc3, hc4, hc5, ?_⟩
        intro bkt e he
        unfold bucketPush at he
        dsimp only at he
        simp only [updFn] at he
        by_cases hcb : bkt = min (⌊(((jsTrunc hd.2.1 : ℚ) + 1/2 - hd.2.1) * ((jsTrunc hd.2.1 : ℚ) + 1/2 - hd.2.1) + ((jsTrunc hd.2.2 : ℚ) + 1/2 - hd.2.2) * ((jsTrunc hd.2.2 : ℚ) + 1/2 - hd.2.2))⌋).toNat maxB
        · rw [if_pos hcb] at he
          rcases List.mem_cons.mp he with heq | hm
          · rw [heq]
            exact toNat_pix_lt w h (jsTrunc hd.2.1) (jsTrunc hd.2.2)
              hin.1 hin.2.1 hin.2.2.1 hin.2.2.2
          · exact hc6 bkt e (by rw [hcb]; exact hm)
        · rw [if_neg hcb] at he
          exact hc6 bkt e he
      · rw [if_neg hlt]
        exact hP
    · rw [if_neg hin]
      exact hP

/-- The seeded initial state satisfies the accounting invariant, for any
site list. -/
theorem acc_floodInit (w h : ℕ) (img : Image) (sites : List (ℚ × ℚ)) :
    AccInv w h img (floodInit w h (w * w + h * h) sites) := by
  have h0 : InitP w h initState := by
    refine ⟨rfl, rfl, rfl, rfl, rfl, ?_⟩
    intro bkt e he
    exact absurd he (List.not_mem_nil e)
  have hP : InitP w h (floodInit w h (w * w + h * h) sites) :=
    floodInit_fold_P w h (w * w + h * h) sites.enum initState h0
  obtain ⟨hc1, hc2, hc3, hc4, hc5, hc6⟩ := hP
  have hflt : ∀ i, (Finset.range (w * h)).filter
      (fun p => (floodInit w h (w * w + h * h) sites).cellOf p = some i) = ∅ := by
    intro i
    simp only [hc1]
    rw [Finset.filter_false_of_mem]
    intro x _
    simp
  refine ⟨hc6, ?_, ?_, ?_, ?_⟩
  · intro i
    rw [hflt i, hc2]
    simp
  · intro i
    rw [hflt i, hc3]
    simp
  · intro i
    rw [hflt i, hc4]
    simp
  · intro i
    rw [hflt i, hc5]
    simp

/-- One flood iteration preserves the accounting invariant, for any site
list. -/
theorem acc_floodStep (w h : ℕ) (sites : List (ℚ × ℚ)) (img : Image)
    (st st' : FloodState) (hacc : AccInv w h img st)
    (hstep : floodStep w h (w * w + h * h) sites img st = some st') :
    AccInv w h img st' := by
  rcases hpop : bucketPop (w * w + h * h) st with _ | ⟨⟨idx, si⟩, st1⟩
  · unfold floodStep at hstep
    rw [hpop] at hstep
    simp at hstep
  · obtain ⟨bkt, rest, hbkt, hcurle, hbmax, hemp, hst1⟩ := bucketPop_eq_some _ _ _ _ hpop
    subst hst1
    have hhead : (idx, si) ∈ st.buckets bkt := by
      rw [hbkt]
      exact List.mem_cons_self _ _
    have hidx : idx < w * h := hacc.entry_bound bkt (idx, si) hhead
    have hacc1 : AccInv w h img
        { st with cursor := bkt, buckets := updFn st.buckets bkt rest } := by
      refine ⟨?_, hacc.counts_eq, hacc.rsum_eq, hacc.gsum_eq, hacc.bsum_eq⟩
      intro c e he
      dsimp only at he
      simp only [updFn] at he
      by_cases hcb : c = bkt
      · rw [if_pos hcb] at he
        refine hacc.entry_bound bkt e ?_
        rw [hbkt]
        exact List.mem_cons_of_mem _ he
      · rw [if_neg hcb] at he
        exact hacc.entry_bound c e he
    by_cases hass : (st.cellOf idx).isSome = true
    · have hsA : floodStep w h (w * w + h * h) sites img st =
          some { st with cursor := bkt, buckets := updFn st.buckets bkt rest } := by
        unfold floodStep
        rw [hpop]
        dsimp only
        rw [if_pos hass]
      rw [hsA] at hstep
      have he := Option.some.inj hstep
      subst he
      exact hacc1
    · have hcellidx : st.cellOf idx = none := by
        rcases hc2 : st.cellOf idx with _ | v
        · rfl
        · exfalso
          apply hass
          rw [hc2]
          rfl
      have hsB : floodStep w h (w * w + h * h) sites img st =
          some (relaxChain w h (w * w + h * h) sites
            (assignState img
              { st with cursor := bkt, buckets := updFn st.buckets bkt rest } idx si)
            idx si) := by
        unfold floodStep
        rw [hpop]
        dsimp only
        rw [if_neg hass]
      rw [hsB] at hstep
      have he := Option.some.inj hstep
      subst he
      exact acc_relaxChain w h (w * w + h * h) img sites
        (assignState img
          { st with cursor := bkt, buckets := updFn st.buckets bkt rest } idx si)
        idx si
        (acc_assign w h img
          { st with cursor := bkt, buckets := updFn st.buckets bkt rest } idx si
          hacc1 hidx hcellidx)
        hidx

/-- The flood loop preserves the accounting invariant. -/
theorem acc_floodLoop (w h : ℕ) (sites : List (ℚ × ℚ)) (img : Image) :
    ∀ (fuel : ℕ) (st : FloodState), AccInv w h img st →
      AccInv w h img (floodLoop w h (w * w + h * h) sites img fuel st) := by
  intro fuel
  induction fuel with
  | zero =>
    intro st hacc
    exact hacc
  | succ n ih =>
    intro st hacc
    rcases hstep : floodStep w h (w * w + h * h) sites img st with _ | st2
    · have hl : floodLoop w h (w * w + h * h) sites img (n + 1) st = st := by
        simp only [floodLoop]
        rw [hstep]
      rw [hl]
      exact hacc
    · have hl : floodLoop w h (w * w + h * h) sites img (n + 1) st =
          floodLoop w h (w * w + h * h) sites img n st2 := by
        simp only [floodLoop]
        rw [hstep]
      rw [hl]
      exact ih st2 (acc_floodStep w h sites img st st2 hacc hstep)

/-- `getD` of a mapped range at an in-range index. -/
theorem getD_map_range {α : Type} (n i : ℕ) (f : ℕ → α) (d : α) (hi : i < n) :
    ((List.range n).map f).getD i d = f i := by
  rw [List.getD_eq_getElem?_getD, List.getElem?_map, List.getElem?_range hi]
  rfl

/-- C6: for every cell `i` of a compute, a nonempty cell's colour is the
floored arithmetic mean of each channel over the pixels assigned to it, and
an empty cell falls back to the image pixel at the site's truncated
coordinates when in bounds, else mid-gray `(128, 128, 128)`. -/
theorem floodFillL2_cell_colors (w h : ℕ) (img : Image) (sites : List (ℚ × ℚ))
    (i : ℕ) (hi : i < sites.length) :
    (floodFillL2 w h img sites).cellColors.getD i (0, 0, 0) =
      if 0 < ((Finset.range (w * h)).filter (fun p => (floodFillL2 w h img sites).cellOf p = some i)).card then
        ((⌊(∑ p ∈ (Finset.range (w * h)).filter (fun p => (floodFillL2 w h img sites).cellOf p = some i), (img.r p : ℚ)) / (((Finset.range (w * h)).filter (fun p => (floodFillL2 w h img sites).cellOf p = some i)).card : ℚ)⌋).toNat,
          (⌊(∑ p ∈ (Finset.range (w * h)).filter (fun p => (floodFillL2 w h img sites).cellOf p = some i), (img.g p : ℚ)) / (((Finset.range (w * h)).filter (fun p => (floodFillL2 w h img sites).cellOf p = some i)).card : ℚ)⌋).toNat,
          (⌊(∑ p ∈ (Finset.range (w * h)).filter (fun p => (floodFillL2 w h img sites).cellOf p = some i), (img.b p : ℚ)) / (((Finset.range (w * h)).filter (fun p => (floodFillL2 w h img sites).cellOf p = some i)).card : ℚ)⌋).toNat)
      else
        if 0 ≤ jsTrunc (sites.getD i (0, 0)).1 ∧
            jsTrunc (sites.getD i (0, 0)).1 < (w : ℤ) ∧
            0 ≤ jsTrunc (sites.getD i (0, 0)).2 ∧
            jsTrunc (sites.getD i (0, 0)).2 < (h : ℤ) then
          (img.r ((jsTrunc (sites.getD i (0, 0)).2 * (w : ℤ) + jsTrunc (sites.getD i (0, 0)).1).toNat), img.g ((jsTrunc (sites.getD i (0, 0)).2 * (w : ℤ) + jsTrunc (sites.getD i (0, 0)).1).toNat), img.b ((jsTrunc (sites.getD i (0, 0)).2 * (w : ℤ) + jsTrunc (sites.getD i (0, 0)).1).toNat))
        else (128, 128, 128) := by
  unfold floodFillL2
  dsimp only
  unfold cellColorsOf
  rw [getD_map_range sites.length i _ (0, 0, 0) hi]
  have hacc := acc_floodLoop w h sites img (sites.length + 4 * (w * h) + 1)
    (floodInit w h (w * w + h * h) sites) (acc_floodInit w h img sites)
  dsimp only
  rw [hacc.counts_eq i, hacc.rsum_eq i, hacc.gsum_eq i, hacc.bsum_eq i]

/-- Witness for the cell-colour theorem: on a 1×1 image with constant
channels `(10, 20, 30)` and one site at the origin, the single cell's colour
is the (trivial) mean `(10, 20, 30)`. -/
theorem floodFillL2_cell_colors_witness :
    (floodFillL2 1 1 ⟨fun _ => 10, fun _ => 20, fun _ => 30⟩
      [((0 : ℚ), (0 : ℚ))]).cellColors.getD 0 (0, 0, 0) = (10, 20, 30) := by
  have hspec := floodFillL2_cell_colors 1 1 ⟨fun _ => 10, fun _ => 20, fun _ => 30⟩
    [((0 : ℚ), (0 : ℚ))] 0 (by norm_num)
  rw [hspec]
  with_unfolding_all rfl

/-- C4 counterexample: with `speed = 1`, `Δt = 1` on a 2×2 canvas, the site
at `(0, 0)` with velocity `(−1, 0)` ends at `(0, 0)` — the clamp — and not at
`(speed·Δt, 0) = (1, 0)` as the claim's reflective reading demands; the
velocity does flip to `(+1, 0)`. -/
theorem moveSite_not_reflective :
    (moveSite 2 2 ((0 : ℚ), (0 : ℚ)) ((-1 : ℚ), (0 : ℚ)) (1 * 1)).1 = ((0 : ℚ), (0 : ℚ)) ∧
    (moveSite 2 2 ((0 : ℚ), (0 : ℚ)) ((-1 : ℚ), (0 : ℚ)) (1 * 1)).1
      ≠ ((1 : ℚ) * 1, (0 : ℚ)) ∧
    (moveSite 2 2 ((0 : ℚ), (0 : ℚ)) ((-1 : ℚ), (0 : ℚ)) (1 * 1)).2 = ((1 : ℚ), (0 : ℚ)) := by
  refine ⟨?_, ?_, ?_⟩
  · with_unfolding_all decide
  · with_unfolding_all decide
  · with_unfolding_all decide

/-- C4 (amended): for any `speed > 0` and `Δt > 0` on a canvas of width and
height at least 1, one physics step applied to a site at `(0, 0)` with
velocity `(−1, 0)` flips the velocity to `(+1, 0)` and clamps the position to
`(0, 0)` — leaving `[0, W)` clamps and flips, it does not reflect the
overshoot. -/
theorem moveSite_left_bounce (width height : ℕ) (speed dt : ℚ)
    (hw : 1 ≤ width) (hh : 1 ≤ height) (hs : 0 < speed) (hd : 0 < dt) :
    moveSite width height ((0 : ℚ), (0 : ℚ)) ((-1 : ℚ), (0 : ℚ)) (speed * dt)
      = (((0 : ℚ), (0 : ℚ)), ((1 : ℚ), (0 : ℚ))) := by
  have hm : 0 < speed * dt := mul_pos hs hd
  unfold moveSite
  dsimp only
  have hx1 : (0 : ℚ) + -1 * (speed * dt) < 0 := by nlinarith
  have hyc : ¬((0 : ℚ) + 0 * (speed * dt) < 0 ∨
      (height : ℚ) ≤ 0 + 0 * (speed * dt)) := by
    push_neg
    have h1 : (1 : ℚ) ≤ (height : ℚ) := by exact_mod_cast hh
    constructor
    · norm_num
    · norm_num
      linarith
  rw [if_pos (Or.inl hx1), if_pos (Or.inl hx1), if_neg hyc, if_neg hyc]
  have h1 : (1 : ℚ) ≤ (width : ℚ) := by exact_mod_cast hw
  have hminx : min ((width : ℚ) - 1) ((0 : ℚ) + -1 * (speed * dt))
      = (0 : ℚ) + -1 * (speed * dt) := by
    apply min_eq_right
    nlinarith
  rw [hminx, max_eq_left (le_of_lt hx1)]
  norm_num

/-- Witness for the bounce theorem at `speed = 1`, `Δt = 1/2` on a 2×2
canvas. -/
theorem moveSite_left_bounce_witness :
    moveSite 2 2 ((0 : ℚ), (0 : ℚ)) ((-1 : ℚ), (0 : ℚ)) ((1 : ℚ) * (1/2))
      = (((0 : ℚ), (0 : ℚ)), ((1 : ℚ), (0 : ℚ))) :=
  moveSite_left_bounce 2 2 1 (1/2) (by norm_num) (by norm_num) (by norm_num) (by norm_num)

/-- A uniform sample index `⌊r · n⌋` is in range. -/
theorem floor_mul_lt (r : ℚ) (n : ℕ) (h0 : 0 ≤ r) (h1 : r < 1) (hn : 0 < n) :
    (⌊r * (n : ℚ)⌋).toNat < n := by
  have hnq : (0 : ℚ) < (n : ℚ) := by exact_mod_cast hn
  have h2 : r * (n : ℚ) < (n : ℚ) := by nlinarith
  have h3 : ⌊r * (n : ℚ)⌋ < (n : ℤ) := by
    rw [Int.floor_lt]
    exact_mod_cast h2
  omega

/-- The removed index is the default `0` or one of the scanned indices. -/
theorem pickRemove_lt (l : List (ℚ × ℚ)) (idxs : List ℕ) (n : ℕ) (hn : 0 < n)
    (hb : ∀ i ∈ idxs, i < n) : pickRemove l idxs < n := by
  unfold pickRemove
  suffices h : ∀ (idxs2 : List ℕ), (∀ i ∈ idxs2, i < n) → ∀ acc : Option ℚ × ℕ,
      acc.2 < n → (idxs2.foldl (pickStep l) acc).2 < n by
    exact h idxs hb ((none : Option ℚ), 0) hn
  intro idxs2
  induction idxs2 with
  | nil =>
    intro _ acc hacc
    exact hacc
  | cons hd tl ih =>
    intro hb2 acc hacc
    rw [List.foldl_cons]
    refine ih (fun i hi => hb2 i (List.mem_cons_of_mem _ hi)) _ ?_
    unfold pickStep
    rcases closestD l hd with _ | cd
    · exact hacc
    · dsimp only
      by_cases hlt : ltInf cd acc.1 = true
      · rw [if_pos hlt]
        exact hb2 hd (List.mem_cons_self _ _)
      · rw [if_neg hlt]
        exact hacc

/-- The removal loop removes exactly one site per round until the requested
count is exhausted or a single site remains. -/
theorem removeLoop_length (rand : ℕ → ℚ) (hrand : ∀ k, 0 ≤ rand k ∧ rand k < 1) :
    ∀ (count ctr : ℕ) (rem : List (ℚ × ℚ)), 0 < rem.length →
      (removeLoop rand count ctr rem).length = rem.length - min count (rem.length - 1) := by
  intro count
  induction count with
  | zero =>
    intro ctr rem h0
    show rem.length = rem.length - min 0 (rem.length - 1)
    omega
  | succ c ih =>
    intro ctr rem h0
    rw [removeLoop]
    by_cases hlen : 1 < rem.length
    · rw [if_pos hlen]
      have hbnd : ∀ i ∈ (if rem.length ≤ 200 then List.range rem.length
          else (List.range 200).map
            (fun k => (⌊rand (ctr + k) * (rem.length : ℚ)⌋).toNat)), i < rem.length := by
        by_cases hs : rem.length ≤ 200
        · rw [if_pos hs]
          intro i hi
          exact List.mem_range.mp hi
        · rw [if_neg hs]
          intro i hi
          obtain ⟨k, _, hk⟩ := List.mem_map.mp hi
          rw [← hk]
          exact floor_mul_lt (rand (ctr + k)) rem.length (hrand (ctr + k)).1
            (hrand (ctr + k)).2 h0
      have hri := pickRemove_lt rem _ rem.length h0 hbnd
      have herase : (rem.eraseIdx (pickRemove rem
          (if rem.length ≤ 200 then List.range rem.length
           else (List.range 200).map
             (fun k => (⌊rand (ctr + k) * (rem.length : ℚ)⌋).toNat)))).length
          = rem.length - 1 := by
        rw [List.length_eraseIdx]
        simp [hri]
      rw [ih _ _ (by omega)]
      rw [herase]
      omega
    · rw [if_neg hlen]
      omega

/-- The removal loop returns a sublist of its input. -/
theorem removeLoop_sublist (rand : ℕ → ℚ) :
    ∀ (count ctr : ℕ) (rem : List (ℚ × ℚ)),
      (removeLoop rand count ctr rem).Sublist rem := by
  intro count
  induction count with
  | zero =>
    intro ctr rem
    exact List.Sublist.refl rem
  | succ c ih =>
    intro ctr rem
    rw [removeLoop]
    by_cases hlen : 1 < rem.length
    · rw [if_pos hlen]
      exact List.Sublist.trans (ih _ _) (List.eraseIdx_sublist _ _)
    · rw [if_neg hlen]

/-- C10: for a non-empty site list and any target, `mergeSites` returns a
sublist of the input that is never empty; a target at or above the current
count returns the input unchanged, and a lower target yields exactly
`max(target, 1)` sites. -/
theorem mergeSites_spec (rand : ℕ → ℚ) (sites : List (ℚ × ℚ)) (target : ℤ)
    (hne : sites ≠ []) (hrand : ∀ k, 0 ≤ rand k ∧ rand k < 1) :
    (mergeSites rand sites target).Sublist sites ∧
    mergeSites rand sites target ≠ [] ∧
    ((sites.length : ℤ) ≤ target → mergeSites rand sites target = sites) ∧
    (target < (sites.length : ℤ) →
      ((mergeSites rand sites target).length : ℤ) = max target 1) := by
  by_cases ht : (sites.length : ℤ) ≤ target
  · have heq : mergeSites rand sites target = sites := by
      unfold mergeSites
      rw [if_pos ht]
    rw [heq]
    exact ⟨List.Sublist.refl sites, hne, fun _ => rfl, fun hlt => absurd hlt (by omega)⟩
  · have heq : mergeSites rand sites target =
        removeLoop rand (((sites.length : ℤ) - target).toNat) 0 sites := by
      unfold mergeSites
      rw [if_neg ht]
    rw [heq]
    have h0 : 0 < sites.length := List.length_pos.mpr hne
    have hlen := removeLoop_length rand hrand (((sites.length : ℤ) - target).toNat) 0
      sites h0
    refine ⟨removeLoop_sublist rand _ _ _, ?_, ?_, ?_⟩
    · have hpos : 0 < (removeLoop rand (((sites.length : ℤ) - target).toNat) 0
          sites).length := by
        rw [hlen]
        omega
      exact List.length_pos.mp hpos
    · intro hge
      exact absurd hge ht
    · intro _
      omega

/-- Witness for `mergeSites` on three collinear sites with target 1: two
removal rounds leave a single site. -/
theorem mergeSites_spec_witness :
    ((mergeSites (fun _ => 0)
      [((0 : ℚ), (0 : ℚ)), ((1 : ℚ), (0 : ℚ)), ((2 : ℚ), (0 : ℚ))] 1).length : ℤ)
      = max 1 1 :=
  (mergeSites_spec (fun _ => 0)
    [((0 : ℚ), (0 : ℚ)), ((1 : ℚ), (0 : ℚ)), ((2 : ℚ), (0 : ℚ))] 1
    (by simp) (fun k => ⟨by norm_num, by norm_num⟩)).2.2.2 (by simp)

/-- C8: with a positive doubling time and a target above the current count
`N`, one growth step adds `N · (ln 2 / doublingTime) · Δt` to the fractional
accumulator; while it is at least 1 (here: exactly one whole unit), it
subtracts 1 and performs exactly one split: the child is appended at index
`N` at exactly the source site's position (the source being the
largest-area not-yet-split cell), the child's velocity is the unit vector at
the uniform random angle `rand · 2π` and the parent's is its negation, and
the accumulator ends at the drained value (cleared when the target is
reached). -/
theorem growthStep_split_spec (rand : ℕ → ℚ) (cosF sinF : ℚ → ℚ) (piQ ln2 : ℚ)
    (target : ℕ) (doublingTime deltaTime acc0 : ℚ)
    (sites velocities : List (ℚ × ℚ)) (cellAreas : List ℚ) (ctr : ℕ)
    (hdt : 0 < doublingTime) (hgrow : sites.length < target)
    (hA1 : 1 ≤ (acc0 + (sites.length : ℚ) * (ln2 / doublingTime) * deltaTime)) (hA2 : (acc0 + (sites.length : ℚ) * (ln2 / doublingTime) * deltaTime) < 2)
    (hAreas : cellAreas ≠ []) (hmax : ¬((argmaxArea cellAreas []).1 < 0))
    (hunit : cosF (rand ctr * piQ * 2) * cosF (rand ctr * piQ * 2) + sinF (rand ctr * piQ * 2) * sinF (rand ctr * piQ * 2) = 1) :
    growthStep rand cosF sinF piQ ln2 target doublingTime deltaTime acc0 sites
        velocities cellAreas ctr
      = { acc := (if sites.length + 1 = target then 0 else (acc0 + (sites.length : ℚ) * (ln2 / doublingTime) * deltaTime) - 1), sites := sites ++ [sites.getD (argmaxArea cellAreas []).2 (0, 0)], velocities := (velocities ++ [(cosF (rand ctr * piQ * 2), sinF (rand ctr * piQ * 2))]).set (argmaxArea cellAreas []).2 (-cosF (rand ctr * piQ * 2), -sinF (rand ctr * piQ * 2)), splitSet := [(argmaxArea cellAreas []).2], ctr := ctr + 1 } ∧
    (sites ++ [sites.getD (argmaxArea cellAreas []).2 (0, 0)]).getD sites.length (0, 0)
      = sites.getD (argmaxArea cellAreas []).2 (0, 0) ∧
    cosF (rand ctr * piQ * 2) * cosF (rand ctr * piQ * 2) + sinF (rand ctr * piQ * 2) * sinF (rand ctr * piQ * 2) = 1 := by
  have hne : target ≠ sites.length := by omega
  have hfloor : ⌊(acc0 + (sites.length : ℚ) * (ln2 / doublingTime) * deltaTime)⌋ = (1 : ℤ) := by
    rw [Int.floor_eq_iff]
    constructor
    · exact_mod_cast hA1
    · push_cast
      linarith
  have hfuel : (⌊(acc0 + (sites.length : ℚ) * (ln2 / doublingTime) * deltaTime)⌋).toNat = 1 := by
    rw [hfloor]
    rfl
  have h1 : growthStep rand cosF sinF piQ ln2 target doublingTime deltaTime acc0 sites
        velocities cellAreas ctr
      = (if (drainLoop rand cosF sinF piQ cellAreas target
            (decide (sites.length < target)) 1 { acc := (acc0 + (sites.length : ℚ) * (ln2 / doublingTime) * deltaTime), sites := sites, velocities := velocities, splitSet := ([] : List ℕ), ctr := ctr }).sites.length = target
         then { drainLoop rand cosF sinF piQ cellAreas target
            (decide (sites.length < target)) 1 { acc := (acc0 + (sites.length : ℚ) * (ln2 / doublingTime) * deltaTime), sites := sites, velocities := velocities, splitSet := ([] : List ℕ), ctr := ctr } with acc := 0 }
         else drainLoop rand cosF sinF piQ cellAreas target
            (decide (sites.length < target)) 1 { acc := (acc0 + (sites.length : ℚ) * (ln2 / doublingTime) * deltaTime), sites := sites, velocities := velocities, splitSet := ([] : List ℕ), ctr := ctr }) := by
    unfold growthStep
    rw [if_pos (⟨hdt, hne⟩ : 0 < doublingTime ∧ target ≠ sites.length)]
    dsimp only
    rw [hfuel]
  have h2 : drainLoop rand cosF sinF piQ cellAreas target
      (decide (sites.length < target)) 1 { acc := (acc0 + (sites.length : ℚ) * (ln2 / doublingTime) * deltaTime), sites := sites, velocities := velocities, splitSet := ([] : List ℕ), ctr := ctr } = { acc := (acc0 + (sites.length : ℚ) * (ln2 / doublingTime) * deltaTime) - 1, sites := sites ++ [sites.getD (argmaxArea cellAreas []).2 (0, 0)], velocities := (velocities ++ [(cosF (rand ctr * piQ * 2), sinF (rand ctr * piQ * 2))]).set (argmaxArea cellAreas []).2 (-cosF (rand ctr * piQ * 2), -sinF (rand ctr * piQ * 2)), splitSet := [(argmaxArea cellAreas []).2], ctr := ctr + 1 } := by
    simp only [drainLoop]
    rw [if_pos hA1]
    rw [if_pos (⟨decide_eq_true hgrow, hgrow⟩ :
      decide (sites.length < target) = true ∧ sites.length < target)]
    unfold splitBody
    dsimp only
    rw [if_pos hAreas, if_neg hmax]
  rw [h1, h2]
  have hlen : (sites ++ [sites.getD (argmaxArea cellAreas []).2 (0, 0)]).length = sites.length + 1 := by
    simp
  refine ⟨?_, ?_, hunit⟩
  · by_cases htar : sites.length + 1 = target
    · rw [if_pos (show ({ acc := (acc0 + (sites.length : ℚ) * (ln2 / doublingTime) * deltaTime) - 1, sites := sites ++ [sites.getD (argmaxArea cellAreas []).2 (0, 0)], velocities := (velocities ++ [(cosF (rand ctr * piQ * 2), sinF (rand ctr * piQ * 2))]).set (argmaxArea cellAreas []).2 (-cosF (rand ctr * piQ * 2), -sinF (rand ctr * piQ * 2)), splitSet := [(argmaxArea cellAreas []).2], ctr := ctr + 1 } : GrowState).sites.length = target by
        dsimp only
        rw [hlen]
        exact htar)]
      rw [if_pos htar]
    · rw [if_neg (show ¬(({ acc := (acc0 + (sites.length : ℚ) * (ln2 / doublingTime) * deltaTime) - 1, sites := sites ++ [sites.getD (argmaxArea cellAreas []).2 (0, 0)], velocities := (velocities ++ [(cosF (rand ctr * piQ * 2), sinF (rand ctr * piQ * 2))]).set (argmaxArea cellAreas []).2 (-cosF (rand ctr * piQ * 2), -sinF (rand ctr * piQ * 2)), splitSet := [(argmaxArea cellAreas []).2], ctr := ctr + 1 } : GrowState).sites.length = target) by
        dsimp only
        rw [hlen]
        exact htar)]
      rw [if_neg htar]
  · rw [List.getD_eq_getElem?_getD, List.getElem?_append_right (le_refl sites.length)]
    simp

/-- Witness for the split theorem: one site at `(5, 5)` growing toward two
sites duplicates it, the child appended at index 1 at the same position. -/
theorem growthStep_split_spec_witness :
    (growthStep (fun _ => 1/4) (fun _ => 1) (fun _ => 0) 0 (7/10) 2 1 2 0
      [((5 : ℚ), (5 : ℚ))] [((1 : ℚ), (0 : ℚ))] [(3 : ℚ)] 0).sites
      = [((5 : ℚ), (5 : ℚ)), ((5 : ℚ), (5 : ℚ))] := by
  have h := growthStep_split_spec (fun _ => 1/4) (fun _ => 1) (fun _ => 0) 0 (7/10) 2 1 2 0
    [((5 : ℚ), (5 : ℚ))] [((1 : ℚ), (0 : ℚ))] [(3 : ℚ)] 0
    (by norm_num) (by norm_num) (by norm_num) (by norm_num)
    (by simp) (by with_unfolding_all decide) (by norm_num)
  rw [h.1]
  with_unfolding_all rfl

/-- C9: from a state whose `cell_of` and `cell_color` were computed from the
snapshot at the cursor, `step_back` (decrement and re-render) followed by
`step_forward` (behind the head: increment without physics, re-render)
returns to the same cursor and restores exactly the same `cell_of` and
`cell_color`. -/
theorem step_back_forward_restores (w h : ℕ) (img : Image)
    (init animStep : EngineState → EngineState) (st : EngineState)
    (hc : 0 < st.cursor) (hlen : st.cursor < st.history.length)
    (hprev : st.cellOf = (floodFillL2 w h img (st.history.getD st.cursor [])).cellOf ∧
      st.cellColors = (floodFillL2 w h img (st.history.getD st.cursor [])).cellColors) :
    (stepForward w h img init animStep (stepBackward w h img st)).cellOf = st.cellOf ∧
    (stepForward w h img init animStep (stepBackward w h img st)).cellColors
      = st.cellColors ∧
    (stepForward w h img init animStep (stepBackward w h img st)).cursor = st.cursor := by
  have hguard : ¬(st.history.length = 0 ∨ st.cursor = 0) := by omega
  have hback : stepBackward w h img st =
      renderFrame w h img (st.history.getD (st.cursor - 1) [])
        { st with cursor := st.cursor - 1 } := by
    unfold stepBackward
    rw [if_neg hguard]
  have hlen0 : ¬(({ st with cursor := st.cursor - 1 } : EngineState).history.length = 0) := by
    dsimp only
    omega
  have hfwd : stepForward w h img init animStep (stepBackward w h img st) =
      renderFrame w h img (st.history.getD (st.cursor - 1 + 1) [])
        { st with cursor := st.cursor - 1 + 1 } := by
    rw [hback]
    unfold stepForward renderFrame
    dsimp only
    rw [if_neg (by omega : ¬(st.history.length = 0))]
    rw [if_pos (by omega : st.cursor - 1 + 1 < st.history.length)]
  rw [hfwd]
  have hc1 : st.cursor - 1 + 1 = st.cursor := by omega
  rw [hc1]
  unfold renderFrame
  exact ⟨hprev.1.symm, hprev.2.symm, rfl⟩

/-- Witness for the history round trip on a 1×1 image with a two-frame
history. -/
theorem step_back_forward_restores_witness :
    (stepForward 1 1 ⟨fun _ => 0, fun _ => 0, fun _ => 0⟩ id id
        (stepBackward 1 1 ⟨fun _ => 0, fun _ => 0, fun _ => 0⟩
          { history := [[((0 : ℚ), (0 : ℚ))], [((0 : ℚ), (0 : ℚ))]], cursor := 1,
            animatedSites := [((0 : ℚ), (0 : ℚ))],
            cellOf := (floodFillL2 1 1 ⟨fun _ => 0, fun _ => 0, fun _ => 0⟩
              [((0 : ℚ), (0 : ℚ))]).cellOf,
            cellColors := (floodFillL2 1 1 ⟨fun _ => 0, fun _ => 0, fun _ => 0⟩
              [((0 : ℚ), (0 : ℚ))]).cellColors })).cursor
      = ({ history := [[((0 : ℚ), (0 : ℚ))], [((0 : ℚ), (0 : ℚ))]], cursor := 1,
            animatedSites := [((0 : ℚ), (0 : ℚ))],
            cellOf := (floodFillL2 1 1 ⟨fun _ => 0, fun _ => 0, fun _ => 0⟩
              [((0 : ℚ), (0 : ℚ))]).cellOf,
            cellColors := (floodFillL2 1 1 ⟨fun _ => 0, fun _ => 0, fun _ => 0⟩
              [((0 : ℚ), (0 : ℚ))]).cellColors } : EngineState).cursor :=
  (step_back_forward_restores 1 1 ⟨fun _ => 0, fun _ => 0, fun _ => 0⟩ id id
    { history := [[((0 : ℚ), (0 : ℚ))], [((0 : ℚ), (0 : ℚ))]], cursor := 1,
      animatedSites := [((0 : ℚ), (0 : ℚ))],
      cellOf := (floodFillL2 1 1 ⟨fun _ => 0, fun _ => 0, fun _ => 0⟩
        [((0 : ℚ), (0 : ℚ))]).cellOf,
      cellColors := (floodFillL2 1 1 ⟨fun _ => 0, fun _ => 0, fun _ => 0⟩
        [((0 : ℚ), (0 : ℚ))]).cellColors }
    (by norm_num) (by simp) ⟨rfl, rfl⟩).2.2

end ImgVoronoi
